import Mathlib

/-!
# Cart store and order ledger of the storefront template

A shallow embedding of the `ShoppingCart` class of assets/js/cart.js (the
line-item list, its persisted copy, the notification log, the operations
`addToCart`, `removeFromCart`, `updateQuantity`, `clearCart`, the totals
computation, `renderCheckout`, `extractPrice` and `handleCheckout`) and of the
`OrderTracking` class of assets/js/order-tracking.js (`loadOrderHistory`,
`getOrder`, `checkURLParams`, `getOrderTimeline`).

Conventions of the embedding

* A price is a finite JavaScript number, given by its exact value, a rational.
  Amounts computed from prices are values of `JSNumber`: the operators `+` and `*`
  round the exact result to the nearest double (`roundDouble`, IEEE 754 binary64,
  ties to even), overflow to an infinity and follow the rules for NaN; a numeral
  or decimal literal of the source denotes the nearest double. Negative zero is
  identified with zero.
* Quantities stored in a line are integers (`parseInt` only produces integers).
* `setTimeout` callbacks (the 300 ms removal animation) are run to completion
  inside the call that schedules them.
* DOM rendering, the badge count and the loading state of buttons are left out.
  The one DOM call whose outcome the operations depend on,
  `document.querySelector(selector)?.closest('tr')` in `removeFromCart`, is an
  explicit argument: a function from the selector text to the outcome, which is a
  row, no row, or the SyntaxError thrown for a text that is not a selector.
* `generateId()` reads the clock and `Math.random`; the handle it returns is an
  argument of `addToCart`.
* The clock values `Date.now()` and `new Date()`, the form data `getFormData()`
  and the result of `validateCheckoutForm` are arguments of `handleCheckout`.
* A date is the instant its ISO text denotes, in milliseconds since the epoch.
* The host's case conversions and time zone are arguments of the tracking methods.
* A localStorage entry is the text `JSON.stringify` writes for an array of lines
  or of orders, or a text that `JSON.parse` rejects (`isJSONText` decides that by
  the JSON grammar); other texts are outside the model.
  `JSON.parse(JSON.stringify(v))` is `v` on the data of the model, except that an
  amount of an order that is NaN or infinite comes back as `null` (`Order.toJSON`).
* Code that can throw returns `Except`; the exceptions are the SyntaxError of
  `JSON.parse` and the SyntaxError of `querySelector`. An exception leaves a
  method at once; the state is then the one at the throw.
* Rendered amounts are the numbers handed to `toFixed(2)`, not the texts.
* The regular expression of `extractPrice` is embedded as the scan its leftmost
  greedy match performs, and its result is the decimal number the matched text
  spells.
-/

namespace Support

/-! ## JavaScript values and `parseInt` -/

/-- Primitive JavaScript values that can be handed to `parseInt`.
A finite number is given by the decimal value `Number::toString` prints for it
(its shortest round-trip decimal), which is the number itself for every integer
below 2^53 and every short decimal fraction. -/
inductive JSValue where
  | undefined
  | null
  | bool (b : Bool)
  | nan
  | infinity (negative : Bool)
  | number (q : ℚ)
  | string (s : String)
  deriving DecidableEq

/-- White space and line terminators skipped by `parseInt` (StrWhiteSpaceChar). -/
def isStrWhiteSpaceChar (c : Char) : Bool :=
  let n := c.toNat
  n == 9 || n == 10 || n == 11 || n == 12 || n == 13 || n == 32 || n == 160 ||
  n == 5760 || (8192 ≤ n && n ≤ 8202) || n == 8232 || n == 8233 || n == 8239 ||
  n == 8287 || n == 12288 || n == 65279

/-- Value of a character as a digit of the given radix, if it is one. -/
def digitValue (radix : Nat) (c : Char) : Option Nat :=
  let n := c.toNat
  let v : Option Nat :=
    if 48 ≤ n ∧ n ≤ 57 then some (n - 48)
    else if 97 ≤ n ∧ n ≤ 122 then some (n - 87)
    else if 65 ≤ n ∧ n ≤ 90 then some (n - 55)
    else none
  match v with
  | some d => if d < radix then some d else none
  | none => none

/-- The digits of the longest prefix made of radix digits. -/
def leadingDigits (radix : Nat) : List Char → List Nat
  | [] => []
  | c :: cs =>
    match digitValue radix c with
    | some d => d :: leadingDigits radix cs
    | none => []

/-- The function `parseInt(string)` with no radix argument: skip white space,
read a sign, read a `0x` marker, read the longest run of digits; `none` is NaN. -/
def parseIntString (s : String) : Option Int :=
  let cs := s.toList.dropWhile isStrWhiteSpaceChar
  let signed : Bool × List Char :=
    match cs with
    | '-' :: r => (true, r)
    | '+' :: r => (false, r)
    | _ => (false, cs)
  let based : Nat × List Char :=
    match signed.2 with
    | '0' :: 'x' :: r => (16, r)
    | '0' :: 'X' :: r => (16, r)
    | _ => (10, signed.2)
  match leadingDigits based.1 based.2 with
  | [] => none
  | d :: ds =>
    let m : Nat := (d :: ds).foldl (fun acc x => acc * based.1 + x) 0
    some (if signed.1 then -(m : Int) else (m : Int))

/-- Leading decimal digit of a positive natural number. -/
def firstDigit (n : Nat) : Nat :=
  match Nat.toDigits 10 n with
  | c :: _ => c.toNat - 48
  | [] => 0

/-- The function `parseInt(number)`: the number is first printed by
`Number::toString`. Between 1e-6 and 1e21 (and at 0) the print is positional
and the integer part is read, which truncates towards zero. Outside that range
the print is in exponent form, `d.ddde+N` or `d.ddde-N`, and only the leading
digit `d` is read. -/
def parseIntNumber (q : ℚ) : Int :=
  let n : Nat := q.num.natAbs
  let d : Nat := q.den
  let magnitude : Nat :=
    if n = 0 then 0
    else if d ≤ 10 ^ 6 * n ∧ n < 10 ^ 21 * d then n / d
    else firstDigit (n * 10 ^ (Nat.toDigits 10 d).length / d)
  if q.num < 0 then -(magnitude : Int) else (magnitude : Int)

/-- The function `parseInt(value)`; `none` is NaN. -/
def parseInt : JSValue → Option Int
  | .undefined => parseIntString "undefined"
  | .null => parseIntString "null"
  | .bool true => parseIntString "true"
  | .bool false => parseIntString "false"
  | .nan => parseIntString "NaN"
  | .infinity true => parseIntString "-Infinity"
  | .infinity false => parseIntString "Infinity"
  | .number q => some (parseIntNumber q)
  | .string s => parseIntString s

/-- The expression `parseInt(value) || fallback`: NaN and 0 are falsy. -/
def parseIntOr (v : JSValue) (fallback : Int) : Int :=
  match parseInt v with
  | some n => if n = 0 then fallback else n
  | none => fallback

/-- The expression `text || fallback` for an optional string property: an absent
property and the empty string are falsy. -/
def strOr (v : Option String) (fallback : String) : String :=
  match v with
  | some s => if s = "" then fallback else s
  | none => fallback

/-! ## JavaScript numbers -/

/-- The value of a numeric property: a JavaScript number (NaN, an infinity, or a
finite double given by its exact value), or `null`, which is what `JSON.stringify`
writes for NaN and the infinities. Negative zero is identified with zero; no
operation of the model tells the two apart. -/
inductive JSNumber where
  | null
  | nan
  | infinity (negative : Bool)
  | finite (value : ℚ)
  deriving DecidableEq

/-- Number of halvings that bring n below 2, at most `fuel` of them. -/
def halvings : Nat → Nat → Nat
  | 0, _ => 0
  | fuel + 1, n => if 2 ≤ n then halvings fuel (n / 2) + 1 else 0

/-- The greatest k with 2^k ≤ n, for positive n. -/
def binaryLog (n : Nat) : Nat :=
  halvings n n

/-- The greatest k with 2^k ≤ n/d, for positive n and d. -/
def floorLog2 (n d : Nat) : Int :=
  let k : Int := (binaryLog n : Int) - (binaryLog d : Int)
  if d * 2 ^ k.toNat ≤ n * 2 ^ (-k).toNat then k else k - 1

/-- The integer nearest to n/d, the even one of the two when n/d lies halfway. -/
def roundHalfEven (n d : Nat) : Nat :=
  let f := n / d
  let r := n % d
  if 2 * r < d then f
  else if d < 2 * r then f + 1
  else if f % 2 = 0 then f else f + 1

/-- Exponent of the unit in the last place of the doubles around n/d: 52 below the
binary exponent of n/d, and -1074 in the subnormal range. -/
def ulpExponent (n d : Nat) : Int :=
  max (floorLog2 n d - 52) (-1074)

/-- The double nearest to n/d (round to nearest, ties to even), with the given
sign: n/d is rounded to a whole number m of units in the last place, and the result
overflows to an infinity when m * 2^e reaches 2^1024. -/
def roundFraction (negative : Bool) (n d : Nat) : JSNumber :=
  let e := ulpExponent n d
  let m := roundHalfEven (n * 2 ^ (-e).toNat) (d * 2 ^ e.toNat)
  if 971 < e ∨ (e = 971 ∧ 2 ^ 53 ≤ m) then .infinity negative
  else
    .finite (mkRat (if negative then -((m * 2 ^ e.toNat : Nat) : Int) else ((m * 2 ^ e.toNat : Nat) : Int))
      (2 ^ (-e).toNat))

/-- The JavaScript number that an exact result rounds to: IEEE 754 binary64,
round to nearest, ties to even. -/
def roundDouble (q : ℚ) : JSNumber :=
  if q = 0 then .finite 0 else roundFraction (decide (q < 0)) q.num.natAbs q.den

namespace JSNumber

/-- The conversion `ToNumber` on these values: `null` becomes 0. -/
def toNumber : JSNumber → JSNumber
  | null => finite 0
  | x => x

/-- The operator `+` on numbers. -/
def add (a b : JSNumber) : JSNumber :=
  match a.toNumber, b.toNumber with
  | finite x, finite y => roundDouble (x + y)
  | infinity s, infinity t => if s = t then infinity s else nan
  | infinity s, finite _ => infinity s
  | finite _, infinity t => infinity t
  | _, _ => nan

/-- The operator `*` on numbers. -/
def mul (a b : JSNumber) : JSNumber :=
  match a.toNumber, b.toNumber with
  | finite x, finite y => roundDouble (x * y)
  | infinity s, infinity t => infinity (s != t)
  | infinity s, finite y => if y = 0 then nan else infinity (s != decide (y < 0))
  | finite x, infinity t => if x = 0 then nan else infinity (decide (x < 0) != t)
  | _, _ => nan

/-- The operator `>` on numbers: false as soon as one side is NaN. -/
def gt (a b : JSNumber) : Bool :=
  match a.toNumber, b.toNumber with
  | finite x, finite y => decide (y < x)
  | infinity s, infinity t => !s && t
  | infinity s, finite _ => !s
  | finite _, infinity t => t
  | _, _ => false

/-- What `JSON.parse(JSON.stringify(x))` makes of a numeric property: a finite
number is kept, NaN and the infinities are written as `null`. -/
def toJSON : JSNumber → JSNumber
  | finite x => finite x
  | _ => null

end JSNumber

instance : Add JSNumber := ⟨JSNumber.add⟩

instance : Mul JSNumber := ⟨JSNumber.mul⟩

instance : LT JSNumber := ⟨fun a b => JSNumber.gt b a = true⟩

instance (a b : JSNumber) : Decidable (a < b) :=
  inferInstanceAs (Decidable (JSNumber.gt b a = true))

/-- A numeral of the source denotes the nearest double. -/
instance (n : Nat) : OfNat JSNumber n := ⟨roundDouble n⟩

/-- A decimal literal of the source, such as `0.08`, denotes the nearest double. -/
instance : OfScientific JSNumber :=
  ⟨fun mantissa exponentSign decimalExponent =>
    roundDouble (Rat.ofScientific mantissa exponentSign decimalExponent)⟩

/-! ## JSON texts -/

/-- Rest of a text after its leading JSON white space (space, tab, line feed,
carriage return). -/
def skipWhiteSpace : List Char → List Char
  | [] => []
  | c :: cs =>
    if c.toNat = 32 ∨ c.toNat = 9 ∨ c.toNat = 10 ∨ c.toNat = 13 then skipWhiteSpace cs
    else c :: cs

/-- A hexadecimal digit, as in a `\u` escape. -/
def isHexDigit (c : Char) : Bool :=
  (48 ≤ c.toNat && c.toNat ≤ 57) || (65 ≤ c.toNat && c.toNat ≤ 70) ||
    (97 ≤ c.toNat && c.toNat ≤ 102)

/-- Rest of a text after a JSON string whose opening quote has been read: up to
the closing quote, with no control character and with well-formed escapes only.
`none` when there is no such string. The numbers are the codes of the quote (34),
the backslash (92), the slash (47) and the letters b, f, n, r, t, u. -/
def scanString : Nat → List Char → Option (List Char)
  | 0, _ => none
  | _, [] => none
  | fuel + 1, c :: cs =>
    if c.toNat = 34 then some cs
    else if c.toNat = 92 then
      match cs with
      | [] => none
      | e :: rest =>
        if e.toNat = 34 ∨ e.toNat = 92 ∨ e.toNat = 47 ∨ e.toNat = 98 ∨ e.toNat = 102 ∨
            e.toNat = 110 ∨ e.toNat = 114 ∨ e.toNat = 116 then scanString fuel rest
        else if e.toNat = 117 then
          if (rest.take 4).length = 4 ∧ (rest.take 4).all isHexDigit then
            scanString fuel (rest.drop 4)
          else none
        else none
    else if c.toNat < 32 then none
    else scanString fuel cs

/-- Rest of a text after a non-empty run of decimal digits. -/
def scanDigits (cs : List Char) : Option (List Char) :=
  match cs.takeWhile Char.isDigit with
  | [] => none
  | _ :: _ => some (cs.dropWhile Char.isDigit)

/-- Rest of a text after a JSON number: an optional minus sign, an integer part
without a leading zero, an optional fraction and an optional exponent. -/
def scanNumber (cs : List Char) : Option (List Char) :=
  let unsigned : List Char :=
    match cs with
    | c :: rest => if c.toNat = 45 then rest else cs
    | [] => cs
  let afterInteger : Option (List Char) :=
    match unsigned with
    | c :: rest => if c.toNat = 48 then some rest else scanDigits unsigned
    | [] => none
  let afterFraction : Option (List Char) :=
    match afterInteger with
    | some (c :: rest) => if c.toNat = 46 then scanDigits rest else some (c :: rest)
    | other => other
  match afterFraction with
  | some (c :: rest) =>
    if c.toNat = 101 ∨ c.toNat = 69 then
      match rest with
      | s :: more => if s.toNat = 43 ∨ s.toNat = 45 then scanDigits more else scanDigits rest
      | [] => none
    else some (c :: rest)
  | other => other

/-- Rest of a text after the given word, if the text starts with it. -/
def scanWord (word : List Char) (cs : List Char) : Option (List Char) :=
  if cs.take word.length = word then some (cs.drop word.length) else none

/-- What the scan of a JSON value is in the middle of. -/
inductive JSONContext where
  | value
  | elements
  | members
  deriving DecidableEq

/-- Rest of a text after one JSON value (`value`), after the elements of an array
up to its closing bracket (`elements`), or after the members of an object up to its
closing brace (`members`); leading white space is skipped. `fuel` bounds the number
of steps; the length of the text plus one is enough. The numbers are the codes of
the brackets (91, 93), the braces (123, 125), the comma (44), the colon (58) and the
quote (34). -/
def scanJSON : Nat → JSONContext → List Char → Option (List Char)
  | 0, _, _ => none
  | fuel + 1, .value, cs =>
    match skipWhiteSpace cs with
    | [] => none
    | c :: rest =>
      if c.toNat = 91 then
        match skipWhiteSpace rest with
        | d :: more => if d.toNat = 93 then some more else scanJSON fuel .elements rest
        | [] => none
      else if c.toNat = 123 then
        match skipWhiteSpace rest with
        | d :: more => if d.toNat = 125 then some more else scanJSON fuel .members rest
        | [] => none
      else if c.toNat = 34 then scanString fuel rest
      else if c.toNat = 116 then scanWord "true".data (c :: rest)
      else if c.toNat = 102 then scanWord "false".data (c :: rest)
      else if c.toNat = 110 then scanWord "null".data (c :: rest)
      else scanNumber (c :: rest)
  | fuel + 1, .elements, cs =>
    match scanJSON fuel .value cs with
    | none => none
    | some rest =>
      match skipWhiteSpace rest with
      | d :: more =>
        if d.toNat = 44 then scanJSON fuel .elements more
        else if d.toNat = 93 then some more
        else none
      | [] => none
  | fuel + 1, .members, cs =>
    match skipWhiteSpace cs with
    | q :: afterQuote =>
      if q.toNat = 34 then
        match scanString fuel afterQuote with
        | none => none
        | some afterKey =>
          match skipWhiteSpace afterKey with
          | colon :: afterColon =>
            if colon.toNat = 58 then
              match scanJSON fuel .value afterColon with
              | none => none
              | some rest =>
                match skipWhiteSpace rest with
                | d :: more =>
                  if d.toNat = 44 then scanJSON fuel .members more
                  else if d.toNat = 125 then some more
                  else none
                | [] => none
            else none
          | [] => none
      else none
    | [] => none

/-- Whether `JSON.parse(text)` accepts the text: it is one JSON value between
optional white space. On every other text `JSON.parse` throws a SyntaxError. -/
def isJSONText (text : String) : Bool :=
  match scanJSON (text.length + 1) .value text.data with
  | some rest => decide (skipWhiteSpace rest = [])
  | none => false

/-! ## Data model -/

/-- A line of the cart, as built by `addToCart`. -/
structure CartItem where
  cartId : String
  id : String
  name : String
  price : ℚ
  originalPrice : ℚ
  image : String
  quantity : Int
  size : String
  color : String
  category : String
  deriving DecidableEq

/-- The product object handed to `addToCart`; `none` is an absent property. -/
structure Product where
  id : String
  name : Option String
  price : Option ℚ
  originalPrice : Option ℚ
  image : Option String
  quantity : JSValue
  size : Option String
  color : Option String
  category : Option String
  deriving DecidableEq

/-- Second argument of `showNotification`. -/
inductive NotificationType where
  | success
  | error
  | info
  deriving DecidableEq

/-- One call of `showNotification`. -/
structure Notification where
  message : String
  type : NotificationType
  deriving DecidableEq

/-- Text held under the localStorage key `shoppingCart`: the JSON text of an
array of lines, or a text that `JSON.parse` rejects (the empty text is one). -/
inductive StoredCart where
  | json (items : List CartItem)
  | corrupt (text : String) (rejected : isJSONText text = false)
  deriving DecidableEq

/-- State of a `ShoppingCart` object together with what it wrote: `cart` is
`this.cart`, `stored` is the localStorage entry `shoppingCart`, and
`notifications` lists the `showNotification` calls, oldest first. -/
structure ShoppingCart where
  cart : List CartItem
  stored : Option StoredCart
  notifications : List Notification
  deriving DecidableEq

/-- Computed totals of `updateCartTotals`. -/
structure Totals where
  subtotal : JSNumber
  shipping : JSNumber
  tax : JSNumber
  total : JSNumber
  deriving DecidableEq

/-- Outcome of `document.querySelector(selector)?.closest('tr')`: `querySelector`
throws a SyntaxError when the text is not a valid selector; otherwise the first
matching element has a table row around it, or there is no such row. -/
inductive RowQuery where
  | syntaxError
  | noRow
  | row
  deriving DecidableEq

/-- The template literal of `removeFromCart`: the text `[data-cart-id="`, the
handle as it is, and the text `"]`. The character of code 34 is the double quote. -/
def rowSelector (cartId : String) : String :=
  "[data-cart-id=" ++ String.singleton (Char.ofNat 34) ++ cartId ++
    String.singleton (Char.ofNat 34) ++ "]"

/-- Replace the first element satisfying `p` by its image under `f`: the effect
of assigning to a field of the object returned by `Array.prototype.find`. -/
def updateFirst {α : Type} (p : α → Bool) (f : α → α) : List α → List α
  | [] => []
  | x :: xs => if p x then f x :: xs else x :: updateFirst p f xs

namespace ShoppingCart

/-- Method `showNotification(message, type)`: recorded in the log. -/
def showNotification (s : ShoppingCart) (message : String) (type : NotificationType) :
    ShoppingCart :=
  { s with notifications := s.notifications ++ [⟨message, type⟩] }

/-- Method `saveCart()`: the whole cart is written to localStorage. -/
def saveCart (s : ShoppingCart) : ShoppingCart :=
  { s with stored := some (StoredCart.json s.cart) }

/-- The state after `this.cart` has been given new contents. -/
def setCart (s : ShoppingCart) (cart : List CartItem) : ShoppingCart :=
  { s with cart := cart }

/-- The predicate of the `find` call in `addToCart`: same id, size and color. -/
def sameLine (product : Product) (item : CartItem) : Bool :=
  item.id == product.id && item.size == strOr product.size "" &&
    item.color == strOr product.color ""

/-- The object literal `cartItem` of `addToCart`, for a product whose name and
price are present: `parseFloat` of a number is that number, and
`product.originalPrice || product.price` falls back on an absent or zero value. -/
def newCartItem (product : Product) (newId name : String) (price : ℚ) (quantity : Int) :
    CartItem :=
  { cartId := newId
    id := product.id
    name := name
    price := price
    originalPrice :=
      match product.originalPrice with
      | some o => if o = 0 then price else o
      | none => price
    image := strOr product.image "assets/img/shop/shop_img01.png"
    quantity := quantity
    size := strOr product.size ""
    color := strOr product.color ""
    category := strOr product.category "" }

/-- Method `addToCart(product)`. `newId` is the value `generateId()` returns if
it is called. The result pairs the returned boolean with the new state. -/
def addToCart (s : ShoppingCart) (product : Option Product) (newId : String) :
    Bool × ShoppingCart :=
  match product with
  | none => (false, s.showNotification "Invalid product data!" .error)
  | some product =>
    match product.name, product.price with
    | some name, some price =>
      if name = "" ∨ price = 0 then
        (false, s.showNotification "Invalid product data!" .error)
      else if price ≤ 0 then
        (false, s.showNotification "Invalid product price!" .error)
      else
        let quantity := parseIntOr product.quantity 1
        if quantity ≤ 0 ∨ quantity > 100 then
          (false, s.showNotification
            "Invalid quantity! Please enter a value between 1 and 100." .error)
        else
          match s.cart.find? (sameLine product) with
          | some existingItem =>
            let newQuantity := existingItem.quantity + quantity
            if newQuantity > 100 then
              (false, s.showNotification
                "Maximum quantity limit reached (100 items per product)!" .error)
            else
              let cart1 := updateFirst (sameLine product)
                (fun item => { item with quantity := newQuantity }) s.cart
              let s1 := s.setCart cart1
              let s2 := s1.showNotification
                ("✓ " ++ name ++ " - Quantity updated to " ++ toString newQuantity) .success
              (true, s2.saveCart)
          | none =>
            let cartItem := newCartItem product newId name price quantity
            let s1 := s.setCart (s.cart ++ [cartItem])
            let s2 := s1.showNotification ("✓ " ++ name ++ " added to cart!") .success
            (true, s2.saveCart)
    | _, _ => (false, s.showNotification "Invalid product data!" .error)

/-- Method `removeFromCart(cartId)`. `querySelector` is the page the call runs
on: what `document.querySelector(selector)?.closest('tr')` yields for each selector
text. The lookup of the line comes first; the selector is then built from the
handle, and a SyntaxError of `querySelector` leaves the method before anything is
assigned. -/
def removeFromCart (s : ShoppingCart) (cartId : String) (querySelector : String → RowQuery) :
    Except String ShoppingCart :=
  match s.cart.find? (fun item => item.cartId == cartId) with
  | none => .ok s
  | some item =>
    match querySelector (rowSelector cartId) with
    | .syntaxError => .error "SyntaxError"
    | .row =>
      let s1 := s.setCart (s.cart.filter (fun item => item.cartId != cartId))
      .ok (s1.saveCart.showNotification (item.name ++ " removed from cart!") .info)
    | .noRow =>
      let s1 := s.setCart (s.cart.filter (fun item => item.cartId != cartId))
      .ok (s1.saveCart.showNotification "Product removed from cart!" .info)

/-- Method `updateQuantity(cartId, quantity)`; an exception of `removeFromCart`
passes through. -/
def updateQuantity (s : ShoppingCart) (cartId : String) (quantity : JSValue)
    (querySelector : String → RowQuery) : Except String ShoppingCart :=
  match s.cart.find? (fun item => item.cartId == cartId) with
  | none => .ok s
  | some _ =>
    match parseInt quantity with
    | none => s.removeFromCart cartId querySelector
    | some newQuantity =>
      if newQuantity ≤ 0 then s.removeFromCart cartId querySelector
      else if newQuantity > 100 then
        let s1 := s.showNotification "Maximum quantity limit is 100 items!" .error
        let cart1 := updateFirst (fun item => item.cartId == cartId)
          (fun item => { item with quantity := 100 }) s1.cart
        let s2 := s1.setCart cart1
        .ok s2.saveCart
      else
        let cart1 := updateFirst (fun item => item.cartId == cartId)
          (fun item => { item with quantity := newQuantity }) s.cart
        let s1 := s.setCart cart1
        .ok s1.saveCart

/-- Method `getTotal()`: `reduce` adds `item.price * item.quantity` to the running
total, line after line from 0, in double arithmetic. -/
def getTotal (s : ShoppingCart) : JSNumber :=
  s.cart.foldl
    (fun total item => total + JSNumber.finite item.price * JSNumber.finite item.quantity) 0

/-- Method `getSubtotal()`. -/
def getSubtotal (s : ShoppingCart) : JSNumber :=
  s.getTotal

/-- The four values computed at the top of `updateCartTotals()`. -/
def updateCartTotals (s : ShoppingCart) : Totals :=
  let subtotal := s.getSubtotal
  let shipping : JSNumber := if subtotal > 100 then 0 else 10
  let tax := subtotal * 0.08
  let total := subtotal + shipping + tax
  { subtotal := subtotal, shipping := shipping, tax := tax, total := total }

/-- Method `clearCart()`. -/
def clearCart (s : ShoppingCart) : ShoppingCart :=
  (s.setCart []).saveCart

end ShoppingCart

/-! ## Sequences of calls -/

/-- One call of a mutating method of the cart, with its arguments. -/
inductive CartCall where
  | addToCart (product : Option Product) (newId : String)
  | removeFromCart (cartId : String) (querySelector : String → RowQuery)
  | updateQuantity (cartId : String) (quantity : JSValue) (querySelector : String → RowQuery)
  | clearCart

/-- The state a call leaves behind, whether it returns or throws. -/
def stateAfter (s : ShoppingCart) : Except String ShoppingCart → ShoppingCart
  | .ok s1 => s1
  | .error _ => s

/-- The state after one call. When the call throws, the state is the one at the
throw: both methods that can throw do so before they assign anything. -/
def CartCall.run (s : ShoppingCart) : CartCall → ShoppingCart
  | .addToCart product newId => (s.addToCart product newId).2
  | .removeFromCart cartId querySelector =>
    stateAfter s (s.removeFromCart cartId querySelector)
  | .updateQuantity cartId quantity querySelector =>
    stateAfter s (s.updateQuantity cartId quantity querySelector)
  | .clearCart => s.clearCart

/-- The state after a sequence of calls, first call first. -/
def runCalls (s : ShoppingCart) (calls : List CartCall) : ShoppingCart :=
  calls.foldl CartCall.run s

/-- Every line of the cart has a quantity between 1 and 100. -/
def QuantitiesInRange (cart : List CartItem) : Prop :=
  ∀ item ∈ cart, 1 ≤ item.quantity ∧ item.quantity ≤ 100

instance (cart : List CartItem) : Decidable (QuantitiesInRange cart) := by
  unfold QuantitiesInRange
  infer_instance

/-! ## Sample data -/

/-- A store with no lines and nothing persisted. -/
def emptyStore : ShoppingCart :=
  { cart := [], stored := none, notifications := [] }

/-- A product as `getProductData` builds it: a mug at 25.00, three requested. -/
def mug : Product :=
  { id := "product-1"
    name := some "Mug"
    price := some 25
    originalPrice := none
    image := none
    quantity := JSValue.number 3
    size := none
    color := none
    category := none }

/-- The same product with a requested quantity of zero. -/
def mugZero : Product :=
  { mug with quantity := JSValue.number 0 }

/-- The same product with a requested quantity of 101. -/
def mugTooMany : Product :=
  { mug with quantity := JSValue.number 101 }

/-- The line created for three mugs, with handle `c1`. -/
def mugLine : CartItem :=
  ShoppingCart.newCartItem mug "c1" "Mug" 25 3

/-- A store holding the single line `mugLine`. -/
def mugStore : ShoppingCart :=
  { cart := [mugLine], stored := some (StoredCart.json [mugLine]), notifications := [] }

/-- A second line that carries the same handle `c1` as `mugLine`. -/
def cupLine : CartItem :=
  { mugLine with id := "product-2", name := "Cup", price := 8 }

/-- A store whose two lines share the handle `c1`. -/
def twinStore : ShoppingCart :=
  { cart := [mugLine, cupLine], stored := some (StoredCart.json [mugLine, cupLine]),
    notifications := [] }

/-- Digits of a natural number in base 36, least significant first, with the
letters a to z for the digits 10 to 35; `fuel` bounds the number of digits. -/
def digits36 : Nat → Nat → List Char
  | 0, _ => []
  | fuel + 1, n =>
    if n = 0 then []
    else (if n % 36 < 10 then Char.ofNat (48 + n % 36) else Char.ofNat (87 + n % 36))
      :: digits36 fuel (n / 36)

/-- Method `generateId()`:
`Date.now().toString(36) + Math.random().toString(36).substr(2)`. `now` is the
clock value (after the epoch) and `randomDigits` is the text of the random number
in base 36 without its leading `0.`. -/
def ShoppingCart.generateId (now : Nat) (randomDigits : String) : String :=
  (if now = 0 then "0" else String.mk (digits36 now now).reverse) ++ randomDigits

/-- A cup at 8.00, one requested. -/
def cup : Product :=
  { mug with id := "product-2", name := some "Cup", price := some 8,
             quantity := JSValue.number 1 }

/-- A page on which the row query finds a table row for every selector text. -/
def pageWithRows : String → RowQuery :=
  fun _ => RowQuery.row

/-- A page on which the row query finds no table row. -/
def pageWithoutRows : String → RowQuery :=
  fun _ => RowQuery.noRow

/-- The handle made of the letter a, a double quote and the letter b. -/
def quotedHandle : String :=
  "a" ++ String.singleton (Char.ofNat 34) ++ "b"

/-- A page like `pageWithRows` whose `querySelector` rejects the selector text
built from `quotedHandle`, in which the attribute value ends at the inner quote
and the letter b follows it. -/
def strictPage : String → RowQuery :=
  fun selector => if selector = rowSelector quotedHandle then RowQuery.syntaxError
    else RowQuery.row

/-- A store whose single line carries the handle `quotedHandle`. -/
def quotedStore : ShoppingCart :=
  { cart := [{ mugLine with cartId := quotedHandle }],
    stored := some (StoredCart.json [{ mugLine with cartId := quotedHandle }]),
    notifications := [] }

/-! ## Return values of a sequence of calls -/

/-- What a call returns: `addToCart` returns a boolean, the other methods return
nothing (or throw). -/
def CartCall.returns (s : ShoppingCart) : CartCall → Option Bool
  | .addToCart product newId => some (s.addToCart product newId).1
  | .removeFromCart _ _ => none
  | .updateQuantity _ _ _ => none
  | .clearCart => none

/-- The values returned by a sequence of calls, first call first. -/
def runCallsReturns (s : ShoppingCart) : List CartCall → List (Option Bool)
  | [] => []
  | call :: rest => call.returns s :: runCallsReturns (call.run s) rest

/-! ## Loading the cart -/

/-- Method `loadCart()`, applied to the localStorage entry `shoppingCart`:
`cart ? JSON.parse(cart) : []`. A missing entry and the empty text are falsy;
`JSON.parse` throws a SyntaxError on a text it rejects, and nothing catches it. -/
def ShoppingCart.loadCart (stored : Option StoredCart) : Except String (List CartItem) :=
  match stored with
  | none => .ok []
  | some (.json items) => .ok items
  | some (.corrupt text _) => if text = "" then .ok [] else .error "SyntaxError"

/-! ## Orders and the ledger -/

/-- An order, as built by `handleCheckout`. `date` is the instant the ISO text
denotes, in milliseconds since the epoch; `customer` maps field ids to values,
and is `none` for a stored order without that property. -/
structure Order where
  id : String
  orderNumber : String
  date : Int
  items : List CartItem
  subtotal : JSNumber
  shipping : JSNumber
  tax : JSNumber
  total : JSNumber
  status : String
  customer : Option (List (String × String))
  deriving DecidableEq

/-- What `JSON.parse(JSON.stringify(order))` makes of an order: the amounts go
through `JSNumber.toJSON`, the other properties come back as they are. -/
def Order.toJSON (order : Order) : Order :=
  { order with
    subtotal := order.subtotal.toJSON
    shipping := order.shipping.toJSON
    tax := order.tax.toJSON
    total := order.total.toJSON }

/-- Text held under the localStorage key `orderHistory`: the text
`JSON.stringify` writes for an array of orders, or a text that `JSON.parse` rejects
(the empty text is one). -/
inductive StoredLedger where
  | json (orders : List Order)
  | corrupt (text : String) (rejected : isJSONText text = false)
  deriving DecidableEq

/-- Result of `validateCheckoutForm(form)`. -/
structure ValidationResult where
  isValid : Bool
  message : String
  deriving DecidableEq

/-- The cart object together with the other localStorage entries and the page the
browser is sent to: `orderHistory` and `lastOrder` are the entries of those names,
`tracking` holds the `order` and `email` parameters of the tracking URL. -/
structure Browser where
  shop : ShoppingCart
  orderHistory : Option StoredLedger
  lastOrder : Option Order
  tracking : Option (String × String)
  deriving DecidableEq

/-- Digit character of a decimal digit. -/
def digitChar (d : Nat) : Char :=
  Char.ofNat (48 + d)

/-- Decimal digits of a natural number, least significant first; `fuel` bounds
the number of digits and `digitsLE n n` has them all. -/
def digitsLE : Nat → Nat → List Nat
  | 0, _ => []
  | fuel + 1, n => if n = 0 then [] else n % 10 :: digitsLE fuel (n / 10)

/-- The text `n.toString()` of a non-negative integer, as a list of characters. -/
def decimalText (n : Nat) : List Char :=
  if n = 0 then ['0'] else ((digitsLE n n).reverse).map digitChar

/-- The call `text.slice(-8)`: the last eight characters, or the whole text when
it is shorter. -/
def sliceLast8 (text : List Char) : List Char :=
  text.drop (text.length - 8)

/-- The expression `'ORD-' + Date.now().toString().slice(-8)`, where `now` is the
value of `Date.now()` (a clock at or after the epoch). -/
def orderNumberAt (now : Nat) : String :=
  "ORD-" ++ String.mk (sliceLast8 (decimalText now))

/-- The expression `JSON.parse(localStorage.getItem('orderHistory') || '[]')`: a
missing entry and the empty text are replaced by `[]`; the text written for an
array of orders is read back as their JSON forms. -/
def parseOrderHistory (stored : Option StoredLedger) : Except String (List Order) :=
  match stored with
  | none => .ok []
  | some (.json orders) => .ok (orders.map Order.toJSON)
  | some (.corrupt text _) => if text = "" then .ok [] else .error "SyntaxError"

namespace ShoppingCart

/-- The object literal `order` of `handleCheckout`: `customer` is the value of
`getFormData()`, `newId` of `generateId()`, `now` of `Date.now()` and `date` of
`new Date()`. -/
def newOrder (s : ShoppingCart) (customer : List (String × String)) (newId : String)
    (now : Nat) (date : Int) : Order :=
  let subtotal := s.getSubtotal
  let shipping : JSNumber := if subtotal > 100 then 0 else 10
  let tax := subtotal * 0.08
  let total := subtotal + shipping + tax
  { id := newId
    orderNumber := orderNumberAt now
    date := date
    items := s.cart
    subtotal := subtotal
    shipping := shipping
    tax := tax
    total := total
    status := "pending"
    customer := some customer }

end ShoppingCart

namespace Browser

/-- The state after the cart object has been replaced. -/
def setShop (b : Browser) (shop : ShoppingCart) : Browser :=
  { b with shop := shop }

/-- The part of `handleCheckout()` that runs in the 1500 ms timer. When
`JSON.parse` throws on the stored history the callback stops there. The two
entries are given by the order as it is read back from them, `order.toJSON`. -/
def placeOrder (b : Browser) (customer : List (String × String)) (newId : String)
    (now : Nat) (date : Int) : Browser :=
  let order := b.shop.newOrder customer newId now date
  match parseOrderHistory b.orderHistory with
  | .error _ => b
  | .ok orderHistory =>
    let shop1 := b.shop.clearCart
    let shop2 := shop1.showNotification
      ("Order #" ++ order.orderNumber ++ " placed successfully! Redirecting...") .success
    let email := strOr ((customer.lookup "email")) ""
    { shop := shop2
      orderHistory := some (StoredLedger.json (orderHistory ++ [order.toJSON]))
      lastOrder := some order.toJSON
      tracking := some (order.orderNumber, email) }

/-- Method `handleCheckout()`. `validation` is `none` when the page has no
checkout form and the result of `validateCheckoutForm(form)` otherwise. -/
def handleCheckout (b : Browser) (validation : Option ValidationResult)
    (customer : List (String × String)) (newId : String) (now : Nat) (date : Int) :
    Browser :=
  if b.shop.cart.length = 0 then
    b.setShop (b.shop.showNotification "Your cart is empty!" .error)
  else
    match validation with
    | some validationResult =>
      if validationResult.isValid = false then
        b.setShop (b.shop.showNotification validationResult.message .error)
      else
        (b.setShop (b.shop.showNotification "Processing your order..." .info)).placeOrder
          customer newId now date
    | none =>
      (b.setShop (b.shop.showNotification "Processing your order..." .info)).placeOrder
        customer newId now date

/-- A call of a cart method in the browser: it acts on the cart object and its
own localStorage entry. -/
def call (b : Browser) (c : CartCall) : Browser :=
  b.setShop (c.run b.shop)

/-- A sequence of cart calls in the browser, first call first. -/
def calls (b : Browser) (cs : List CartCall) : Browser :=
  cs.foldl Browser.call b

end Browser

/-! ## Order tracking (assets/js/order-tracking.js) -/

/-- The host's case conversions `String.prototype.toUpperCase` and
`String.prototype.toLowerCase`. -/
structure CaseMapping where
  toUpperCase : String → String
  toLowerCase : String → String

/-- Case conversion of the letters a-z and A-Z, which is what the host's
conversions do on ASCII text. -/
def asciiCase : CaseMapping :=
  { toUpperCase := fun s => String.mk (s.data.map Char.toUpper)
    toLowerCase := fun s => String.mk (s.data.map Char.toLower) }

/-- The host's time zone: the offset of local time from UTC, in milliseconds, at
a UTC instant (`LocalTZA(t, true)`) and at a local time value (`LocalTZA(t, false)`). -/
structure TimeZone where
  offsetAtUTC : Int → Int
  offsetAtLocal : Int → Int

/-- Milliseconds per day. -/
def msPerDay : Int := 86400000

/-- A time zone whose offset never changes. -/
def fixedZone (offset : Int) : TimeZone :=
  { offsetAtUTC := fun _ => offset, offsetAtLocal := fun _ => offset }

namespace OrderTracking

/-- Method `loadOrderHistory()`, applied to the localStorage entry `orderHistory`:
the value `this.orderHistory` has afterwards. A missing entry and the empty text
leave the initial `[]`; `JSON.parse` throws on a text it rejects; otherwise the
orders, read back in their JSON forms, are sorted by
`new Date(b.date) - new Date(a.date)`, a stable sort that puts later dates first. -/
def loadOrderHistory (stored : Option StoredLedger) : Except String (List Order) :=
  match stored with
  | none => .ok []
  | some (.json orders) =>
    .ok ((orders.map Order.toJSON).insertionSort (fun a b => b.date ≤ a.date))
  | some (.corrupt text _) => if text = "" then .ok [] else .error "SyntaxError"

/-- The predicate of the `find` call in `getOrder`: the stored number equals the
upper-cased argument, and the customer's email, when there is one, equals the
argument once both are lower-cased. -/
def orderMatches (host : CaseMapping) (orderNumber email : String) (order : Order) : Bool :=
  order.orderNumber == host.toUpperCase orderNumber &&
    (match order.customer with
     | some customer =>
       match customer.lookup "email" with
       | some stored => host.toLowerCase stored == host.toLowerCase email
       | none => false
     | none => false)

/-- Method `getOrder(orderNumber, email)` on the loaded history; `none` is
`undefined`. -/
def getOrder (host : CaseMapping) (orderHistory : List Order) (orderNumber email : String) :
    Option Order :=
  orderHistory.find? (orderMatches host orderNumber email)

/-- Method `addDays(dateString, days)`: the date is read as local time, its day of
the month is advanced (`setDate(getDate() + days)` keeps the time within the day
and moves the day number by `days`), and the result is converted back to UTC. -/
def addDays (zone : TimeZone) (date : Int) (days : Int) : Int :=
  let localTime := date + zone.offsetAtUTC date
  let moved := localTime + days * msPerDay
  moved - zone.offsetAtLocal moved

/-- The array `statusOrder` of `getStatusIndex`. -/
def statusOrder : List String :=
  ["pending", "confirmed", "processing", "shipped", "delivered"]

/-- The call `array.indexOf(value)`, counting from `start`: -1 when absent. -/
def indexOfFrom (value : String) : List String → Int → Int
  | [], _ => -1
  | x :: xs, start => if x = value then start else indexOfFrom value xs (start + 1)

/-- Method `getStatusIndex(status)`: `statusOrder.indexOf(status) || 0`, where
only the index 0 is falsy. -/
def getStatusIndex (status : String) : Int :=
  let index := indexOfFrom status statusOrder 0
  if index = 0 then 0 else index

/-- An entry of the array `getOrderTimeline` returns. -/
structure TimelineStage where
  status : String
  label : String
  icon : String
  date : Int
  isCompleted : Bool
  isCurrent : Bool
  deriving DecidableEq

/-- Method `getOrderTimeline(order)`. -/
def getOrderTimeline (zone : TimeZone) (order : Order) : List TimelineStage :=
  let statuses : List (String × String × String × Int) :=
    [ ("pending", "Order Placed", "📦", order.date),
      ("confirmed", "Order Confirmed", "✓", addDays zone order.date 1),
      ("processing", "Processing", "⚙️", addDays zone order.date 2),
      ("shipped", "Shipped", "🚚", addDays zone order.date 3),
      ("delivered", "Delivered", "✅", addDays zone order.date 5) ]
  let currentStatusIndex := getStatusIndex order.status
  statuses.enum.map (fun entry =>
    { status := entry.2.1
      label := entry.2.2.1
      icon := entry.2.2.2.1
      date := entry.2.2.2.2
      isCompleted := decide ((entry.1 : Int) ≤ currentStatusIndex)
      isCurrent := decide ((entry.1 : Int) = currentStatusIndex) })

end OrderTracking

/-! ## Comparing states -/

/-- Two states of the cart object that differ at most in the notification log. -/
def SameStore (s t : ShoppingCart) : Prop :=
  s.cart = t.cart ∧ s.stored = t.stored

/-- The k least significant decimal digits of a number, least significant first,
with zeros when the number is shorter. -/
def lastDigits : Nat → Nat → List Nat
  | 0, _ => []
  | k + 1, n => n % 10 :: lastDigits k (n / 10)

/-- The orders a browser state holds under `orderHistory`, read as JSON. -/
def Browser.ledger (b : Browser) : List Order :=
  match parseOrderHistory b.orderHistory with
  | .ok orders => orders
  | .error _ => []

/-! ## Sample checkout data -/

/-- A browser whose cart holds three mugs and whose ledger is still missing. -/
def mugBrowser : Browser :=
  { shop := mugStore, orderHistory := none, lastOrder := none, tracking := none }

/-- The value of `getFormData()` for a customer called Ann. -/
def annForm : List (String × String) :=
  [("first-name", "Ann"), ("email", "Ann@Example.com")]

/-- A first checkout at `Date.now() = 1700000000000`, a new line in the cart, and a
second checkout 10^8 ms (27 h 46 min 40 s) later. -/
def twoCheckouts : Browser :=
  ((mugBrowser.handleCheckout none annForm "o1" 1700000000000 1700000000000).call
    (CartCall.addToCart (some mug) "c2")).handleCheckout none annForm "o2"
      1700100000000 1700100000000

/-! ## The order of dates -/

instance : IsTotal Order (fun a b => b.date ≤ a.date) :=
  ⟨fun a b => le_total b.date a.date⟩

instance : IsTrans Order (fun a b => b.date ≤ a.date) :=
  ⟨fun _ _ _ hab hbc => le_trans hbc hab⟩

/-! ## Sample orders -/

/-- The order of three mugs placed by Ann. -/
def annOrder : Order :=
  { id := "o1"
    orderNumber := "ORD-90123456"
    date := 1762390123456
    items := [mugLine]
    subtotal := JSNumber.finite 75
    shipping := JSNumber.finite 10
    tax := JSNumber.finite 6
    total := JSNumber.finite 91
    status := "pending"
    customer := some annForm }

/-- A stored order whose number is written in lower case. -/
def lowerOrder : Order :=
  { annOrder with orderNumber := "ord-90123456" }

/-- A later order of Ann with the same number as `annOrder`. -/
def laterOrder : Order :=
  { annOrder with id := "o2", date := 1762390123456 + 100000000 }

/-- An order stored without customer data, with the status `shipped`. -/
def anonymousOrder : Order :=
  { annOrder with id := "o3", customer := none, status := "shipped" }

/-! ## Lines of the cart -/

/-- No two lines of the cart have the same id, size and color. -/
def DistinctLines (cart : List CartItem) : Prop :=
  cart.Pairwise (fun a b => ¬ (a.id = b.id ∧ a.size = b.size ∧ a.color = b.color))

/-! ## The checkout summary -/

/-- The amounts `renderCheckout()` writes into the order list; `none` is a line
that is not written. -/
structure CheckoutSummary where
  subtotal : JSNumber
  shipping : Option JSNumber
  tax : Option JSNumber
  total : JSNumber
  deriving DecidableEq

/-- Method `renderCheckout()`, on a page that has the order list: for the empty
cart the fixed lines `Subtotal $0.00` and `Total $0.00`, otherwise the four
amounts computed from the cart. -/
def ShoppingCart.renderCheckout (s : ShoppingCart) : CheckoutSummary :=
  if s.cart.length = 0 then
    { subtotal := 0, shipping := none, tax := none, total := 0 }
  else
    let subtotal := s.getSubtotal
    let shipping : JSNumber := if subtotal > 100 then 0 else 10
    let tax := subtotal * 0.08
    let total := subtotal + shipping + tax
    { subtotal := subtotal, shipping := some shipping, tax := some tax, total := total }

/-! ## Reading a price from text -/

/-- Value of a run of decimal digit characters. -/
def digitsValue (digits : List Char) : Nat :=
  digits.foldl (fun acc c => acc * 10 + (c.toNat - 48)) 0

/-- The digits matched by `\.?\d*` at the start of a text: those after a leading
dot, none when the text does not start with a dot. -/
def fractionAfter : List Char → List Char
  | '.' :: more => more.takeWhile Char.isDigit
  | _ => []

/-- Capture group 1 of the first match of `/\$?(\d+\.?\d*)/` in a text, as the
digits before and after the dot: the leftmost match starts at the first digit of
the text (or at a dollar sign right before it), `\d+` takes the whole run of
digits, `\.?` a dot that follows it, and `\d*` the run of digits after the dot.
`none` when the text has no digit. -/
def matchPrice (text : List Char) : Option (List Char × List Char) :=
  match text.dropWhile (fun c => !c.isDigit) with
  | [] => none
  | c :: cs =>
    let whole := (c :: cs).takeWhile Char.isDigit
    let fraction := fractionAfter ((c :: cs).dropWhile Char.isDigit)
    some (whole, fraction)

/-- Method `extractPrice(text)`: `parseFloat` of the captured text, which is the
decimal number it spells, or 0 without a match. -/
def ShoppingCart.extractPrice (text : String) : ℚ :=
  match matchPrice text.data with
  | some (whole, fraction) =>
    mkRat (digitsValue whole * 10 ^ fraction.length + digitsValue fraction)
      (10 ^ fraction.length)
  | none => 0

/-! ## Arriving at the tracking page -/

/-- Method `checkURLParams()`: the order it displays, if any. `orderNumber` and
`email` are the values of the query parameters `order` and `email`, `none` for a
parameter that is absent. -/
def OrderTracking.checkURLParams (host : CaseMapping) (orderHistory : List Order)
    (orderNumber email : Option String) : Option Order :=
  match orderNumber, email with
  | some orderNumber, some email =>
    if orderNumber ≠ "" ∧ email ≠ "" then
      OrderTracking.getOrder host orderHistory orderNumber email
    else none
  | _, _ => none

/-! ## Sample totals -/

/-- A line with the given price and quantity. -/
def pricedLine (price : ℚ) (quantity : Int) : CartItem :=
  { mugLine with price := price, quantity := quantity }

/-- A store holding one line with the given price and quantity. -/
def pricedStore (price : ℚ) (quantity : Int) : ShoppingCart :=
  { cart := [pricedLine price quantity], stored := none, notifications := [] }

/-- The double that the literal `0.1` denotes. -/
def tenth : ℚ :=
  mkRat 3602879701896397 (2 ^ 55)

/-- A store with three items at 0.1. -/
def tenthStore : ShoppingCart :=
  pricedStore tenth 3

/-- The double that the literal `33.20` denotes. -/
def price3320 : ℚ :=
  mkRat 2336242306698445 (2 ^ 46)

/-- The double that the literal `0.40` denotes. -/
def price040 : ℚ :=
  mkRat 3602879701896397 (2 ^ 53)

/-- A store with three items at 33.20 and one item at 0.40: 100.00 in decimal
arithmetic. -/
def hundredStore : ShoppingCart :=
  { cart := [pricedLine price3320 3,
      { pricedLine price040 1 with cartId := "c2", id := "product-2", name := "Cup" }]
    stored := none
    notifications := [] }

/-! ## Totals -/

/-- C1 (counterexample): three items at 0.1, the double the literal denotes. The
sum of price * quantity over the lines is 3 * 0.1 exactly, but the subtotal the code
computes is the double 0.30000000000000004, which is neither that sum nor the double
0.3; and the tax it computes, 0.024000000000000004, is not 8% of that subtotal. -/
theorem ShoppingCart.updateCartTotals_rounded :
    roundDouble 0.1 = JSNumber.finite tenth ∧
      (tenthStore.cart.map (fun item => item.price * (item.quantity : ℚ))).sum = 3 * tenth ∧
      tenthStore.updateCartTotals.subtotal
        = JSNumber.finite (mkRat 1351079888211149 (2 ^ 52)) ∧
      tenthStore.updateCartTotals.subtotal ≠ JSNumber.finite (3 * tenth) ∧
      tenthStore.updateCartTotals.subtotal ≠ roundDouble 0.3 ∧
      tenthStore.updateCartTotals.tax = JSNumber.finite (mkRat 6917529027641083 (2 ^ 58)) ∧
      tenthStore.updateCartTotals.tax
        ≠ JSNumber.finite (mkRat 1351079888211149 (2 ^ 52) * (8 / 100)) := by
  decide!

/-- C1 (amended): the totals computed from a cart are those of the formula in
double arithmetic. The subtotal is 0 for the empty cart and, for a cart followed by
one more line, the subtotal of the cart plus price * quantity of that line, so the
lines are added from the first to the last; shipping is 0 if subtotal > 100 and 10
otherwise; tax is subtotal * 0.08 (shipping does not enter); total is
subtotal + shipping + tax. Every product and every sum of two finite numbers is the
exact result rounded to the nearest double. -/
theorem ShoppingCart.updateCartTotals_formula (s : ShoppingCart) :
    (s.cart = [] → s.updateCartTotals.subtotal = 0) ∧
      (∀ (t : ShoppingCart) (item : CartItem), t.cart = s.cart ++ [item] →
        t.updateCartTotals.subtotal
          = s.updateCartTotals.subtotal
            + JSNumber.finite item.price * JSNumber.finite item.quantity) ∧
      s.updateCartTotals.shipping
        = (if s.updateCartTotals.subtotal > 100 then 0 else 10) ∧
      s.updateCartTotals.tax = s.updateCartTotals.subtotal * 0.08 ∧
      s.updateCartTotals.total
        = s.updateCartTotals.subtotal + s.updateCartTotals.shipping
            + s.updateCartTotals.tax ∧
      (∀ x y : ℚ, JSNumber.finite x * JSNumber.finite y = roundDouble (x * y)) ∧
      (∀ x y : ℚ, JSNumber.finite x + JSNumber.finite y = roundDouble (x + y)) := by
  refine ⟨?_, ?_, rfl, rfl, rfl, fun _ _ => rfl, fun _ _ => rfl⟩
  · intro h
    simp only [ShoppingCart.updateCartTotals, ShoppingCart.getSubtotal, ShoppingCart.getTotal, h,
      List.foldl_nil]
  · intro t item h
    simp only [ShoppingCart.updateCartTotals, ShoppingCart.getSubtotal, ShoppingCart.getTotal, h,
      List.foldl_append, List.foldl_cons, List.foldl_nil]

/-- Instance of the totals theorem: a cup at 8.00 after three mugs at 25.00 makes
the subtotal 75 + 8 * 1. -/
theorem ShoppingCart.updateCartTotals_formula_witness :
    emptyStore.updateCartTotals.subtotal = 0 ∧
      (mugStore.setCart (mugStore.cart ++ [cupLine])).updateCartTotals.subtotal
        = mugStore.updateCartTotals.subtotal
          + JSNumber.finite cupLine.price * JSNumber.finite cupLine.quantity :=
  ⟨(ShoppingCart.updateCartTotals_formula emptyStore).1 rfl,
    (ShoppingCart.updateCartTotals_formula mugStore).2.1
      (mugStore.setCart (mugStore.cart ++ [cupLine])) cupLine rfl⟩

/-! ## Rounding to a double -/

theorem halvings_spec : ∀ fuel n : Nat, n ≤ fuel → 1 ≤ n →
    2 ^ halvings fuel n ≤ n ∧ n < 2 ^ (halvings fuel n + 1) := by
  intro fuel
  induction fuel with
  | zero => intro n h0 h1; omega
  | succ fuel ih =>
    intro n hn h1
    unfold halvings
    by_cases h2 : 2 ≤ n
    · simp only [h2, if_true]
      obtain ⟨ha, hb⟩ := ih (n / 2) (by omega) (by omega)
      rw [pow_succ, pow_succ]
      rw [pow_succ] at hb
      constructor <;> omega
    · simp only [h2, if_false]
      constructor <;> norm_num <;> omega

theorem binaryLog_spec (n : Nat) (h : 1 ≤ n) :
    2 ^ binaryLog n ≤ n ∧ n < 2 ^ (binaryLog n + 1) :=
  halvings_spec n n le_rfl h

/-- `floorLog2` is the integer binary logarithm of the quotient. -/
theorem floorLog2_eq_log (n d : Nat) (hn : 0 < n) (hd : 0 < d) :
    floorLog2 n d = Int.log 2 ((n : ℚ) / d) := by
  obtain ⟨ha, ha2⟩ := binaryLog_spec n hn
  obtain ⟨hb, hb2⟩ := binaryLog_spec d hd
  have hx : (0 : ℚ) < (n : ℚ) / d := by positivity
  have hdq : (0 : ℚ) < d := by exact_mod_cast hd
  have two : (1 : ℚ) < 2 := by norm_num
  -- characterise the logarithm by its two bounds
  have key : ∀ k : Int, (2 : ℚ) ^ k ≤ (n : ℚ) / d → (n : ℚ) / d < 2 ^ (k + 1) →
      k = Int.log 2 ((n : ℚ) / d) := by
    intro k h1 h2
    have h3 : k ≤ Int.log 2 ((n : ℚ) / d) := (Int.zpow_le_iff_le_log (by norm_num) hx).mp h1
    have h4 : Int.log 2 ((n : ℚ) / d) < k + 1 := (Int.lt_zpow_iff_log_lt (by norm_num) hx).mp h2
    omega
  have haq : ((2 : ℚ) ^ (binaryLog n : ℤ)) ≤ n := by
    rw [zpow_natCast]; exact_mod_cast ha
  have ha2q : (n : ℚ) < (2 : ℚ) ^ ((binaryLog n : ℤ) + 1) := by
    have : (n : ℚ) < (2 : ℚ) ^ (binaryLog n + 1) := by exact_mod_cast ha2
    rw [← zpow_natCast] at this
    exact_mod_cast this
  have hbq : ((2 : ℚ) ^ (binaryLog d : ℤ)) ≤ d := by
    rw [zpow_natCast]; exact_mod_cast hb
  have hb2q : (d : ℚ) < (2 : ℚ) ^ ((binaryLog d : ℤ) + 1) := by
    have : (d : ℚ) < (2 : ℚ) ^ (binaryLog d + 1) := by exact_mod_cast hb2
    rw [← zpow_natCast] at this
    exact_mod_cast this
  have hcond : ∀ k : Int, (d * 2 ^ k.toNat ≤ n * 2 ^ (-k).toNat) ↔
      (2 : ℚ) ^ k ≤ (n : ℚ) / d := by
    intro k
    rw [le_div_iff₀ hdq]
    rcases le_or_lt 0 k with hk | hk
    · have h1 : (-k).toNat = 0 := by omega
      obtain ⟨j, rfl⟩ := Int.eq_ofNat_of_zero_le hk
      simp only [h1, pow_zero, mul_one, Int.toNat_ofNat, zpow_natCast]
      rw [mul_comm]
      exact_mod_cast Iff.rfl
    · have h1 : k.toNat = 0 := by omega
      obtain ⟨j, hj⟩ := Int.eq_ofNat_of_zero_le (show 0 ≤ -k by omega)
      have hk' : k = -(j : ℤ) := by omega
      subst hk'
      simp only [h1, pow_zero, mul_one, neg_neg, Int.toNat_ofNat, zpow_neg, zpow_natCast]
      rw [inv_mul_le_iff₀ (by positivity)]
      rw [mul_comm]
      exact_mod_cast Iff.rfl
  unfold floorLog2
  simp only
  split
  · rename_i hc
    apply key
    · exact (hcond _).mp hc
    · -- n / d < 2^(a+1) / 2^b
      rw [div_lt_iff₀ hdq]
      calc (n : ℚ) < 2 ^ ((binaryLog n : ℤ) + 1) := ha2q
        _ = 2 ^ ((binaryLog n : ℤ) - (binaryLog d : ℤ) + 1) * 2 ^ (binaryLog d : ℤ) := by
            rw [← zpow_add₀ (by norm_num)]; congr 1; ring
        _ ≤ 2 ^ ((binaryLog n : ℤ) - (binaryLog d : ℤ) + 1) * d := by
            apply mul_le_mul_of_nonneg_left hbq (by positivity)
  · rename_i hc
    apply key
    · rw [le_div_iff₀ hdq]
      calc (2 : ℚ) ^ ((binaryLog n : ℤ) - (binaryLog d : ℤ) - 1) * d
          ≤ 2 ^ ((binaryLog n : ℤ) - (binaryLog d : ℤ) - 1) * 2 ^ ((binaryLog d : ℤ) + 1) := by
            apply mul_le_mul_of_nonneg_left hb2q.le (by positivity)
        _ = 2 ^ (binaryLog n : ℤ) := by
            rw [← zpow_add₀ (by norm_num)]; congr 1; ring
        _ ≤ n := haq
    · have := (hcond ((binaryLog n : ℤ) - (binaryLog d : ℤ))).not.mp hc
      rw [not_le] at this
      simpa using this

theorem roundHalfEven_scale (c n d : Nat) (hc : 0 < c) :
    roundHalfEven (c * n) (c * d) = roundHalfEven n d := by
  unfold roundHalfEven
  simp only [Nat.mul_div_mul_left n d hc, Nat.mul_mod_mul_left]
  have h1 : (2 * (c * (n % d)) < c * d) ↔ (2 * (n % d) < d) := by
    rw [show 2 * (c * (n % d)) = c * (2 * (n % d)) by ring]
    exact Nat.mul_lt_mul_left hc
  have h2 : (c * d < 2 * (c * (n % d))) ↔ (d < 2 * (n % d)) := by
    rw [show 2 * (c * (n % d)) = c * (2 * (n % d)) by ring]
    exact Nat.mul_lt_mul_left hc
  simp only [h1, h2]

/-- The rounded quotient depends on the value of the fraction only. -/
theorem roundHalfEven_congr (n d n1 d1 : Nat) (hd : 0 < d) (hd1 : 0 < d1)
    (h : n * d1 = n1 * d) : roundHalfEven n d = roundHalfEven n1 d1 := by
  rw [← roundHalfEven_scale d1 n d hd1, ← roundHalfEven_scale d n1 d1 hd]
  rw [show d1 * n = d * n1 by linarith [h, mul_comm n d1, mul_comm n1 d], mul_comm d1 d]

theorem roundHalfEven_whole (j : Nat) : roundHalfEven j 1 = j := by
  unfold roundHalfEven
  simp [Nat.mod_one]

theorem roundHalfEven_le (n d b : Nat) (hd : 0 < d) (h : n < b * d) :
    roundHalfEven n d ≤ b := by
  have hf : n / d < b := (Nat.div_lt_iff_lt_mul hd).mpr h
  unfold roundHalfEven
  simp only
  split
  · omega
  · split
    · omega
    · split <;> omega

theorem le_roundHalfEven (n d b : Nat) (hd : 0 < d) (h : b * d ≤ n) :
    b ≤ roundHalfEven n d := by
  have hf : b ≤ n / d := (Nat.le_div_iff_mul_le hd).mpr h
  unfold roundHalfEven
  simp only
  split
  · omega
  · split
    · omega
    · split <;> omega

theorem ulpExponent_congr (n d n1 d1 : Nat) (hn : 0 < n) (hd : 0 < d) (hn1 : 0 < n1)
    (hd1 : 0 < d1) (h : n * d1 = n1 * d) : ulpExponent n d = ulpExponent n1 d1 := by
  unfold ulpExponent
  rw [floorLog2_eq_log n d hn hd, floorLog2_eq_log n1 d1 hn1 hd1]
  have : (n : ℚ) / d = (n1 : ℚ) / d1 := by
    rw [div_eq_div_iff (by positivity) (by positivity)]
    exact_mod_cast h
  rw [this]

/-- The rounded double depends on the value of the fraction only. -/
theorem roundFraction_congr (negative : Bool) (n d n1 d1 : Nat) (hn : 0 < n) (hd : 0 < d)
    (hn1 : 0 < n1) (hd1 : 0 < d1) (h : n * d1 = n1 * d) :
    roundFraction negative n d = roundFraction negative n1 d1 := by
  unfold roundFraction
  rw [ulpExponent_congr n d n1 d1 hn hd hn1 hd1 h]
  have hm : roundHalfEven (n * 2 ^ (-ulpExponent n1 d1).toNat) (d * 2 ^ (ulpExponent n1 d1).toNat)
      = roundHalfEven (n1 * 2 ^ (-ulpExponent n1 d1).toNat)
          (d1 * 2 ^ (ulpExponent n1 d1).toNat) := by
    apply roundHalfEven_congr _ _ _ _ (by positivity) (by positivity)
    calc n * 2 ^ (-ulpExponent n1 d1).toNat * (d1 * 2 ^ (ulpExponent n1 d1).toNat)
        = (n * d1) * (2 ^ (-ulpExponent n1 d1).toNat * 2 ^ (ulpExponent n1 d1).toNat) := by ring
      _ = (n1 * d) * (2 ^ (-ulpExponent n1 d1).toNat * 2 ^ (ulpExponent n1 d1).toNat) := by
          rw [h]
      _ = n1 * 2 ^ (-ulpExponent n1 d1).toNat * (d * 2 ^ (ulpExponent n1 d1).toNat) := by ring
  simp only [hm]

theorem two_zpow_split (e : ℤ) :
    (2 : ℚ) ^ e = (2 : ℚ) ^ e.toNat / (2 : ℚ) ^ (-e).toNat := by
  rcases le_or_lt 0 e with h | h
  · obtain ⟨j, rfl⟩ := Int.eq_ofNat_of_zero_le h
    have h1 : (-(j : ℤ)).toNat = 0 := by omega
    simp [h1]
  · obtain ⟨j, hj⟩ := Int.eq_ofNat_of_zero_le (show 0 ≤ -e by omega)
    have he : e = -(j : ℤ) := by omega
    subst he
    have h1 : (-(j : ℤ)).toNat = 0 := by omega
    simp [h1]

theorem scaled_lt_iff (n d b : Nat) (e : ℤ) (hd : 0 < d) :
    (n * 2 ^ (-e).toNat < b * (d * 2 ^ e.toNat)) ↔ ((n : ℚ) / d < b * (2 : ℚ) ^ e) := by
  have hdq : (0 : ℚ) < d := by exact_mod_cast hd
  have hp : (0 : ℚ) < (2 : ℚ) ^ (-e).toNat := by positivity
  rw [two_zpow_split e, div_lt_iff₀ hdq, mul_div_assoc', div_mul_eq_mul_div, lt_div_iff₀ hp]
  constructor
  · intro h
    have : ((n * 2 ^ (-e).toNat : ℕ) : ℚ) < ((b * (d * 2 ^ e.toNat) : ℕ) : ℚ) := by
      exact_mod_cast h
    push_cast at this
    linarith
  · intro h
    have : ((n * 2 ^ (-e).toNat : ℕ) : ℚ) < ((b * (d * 2 ^ e.toNat) : ℕ) : ℚ) := by
      push_cast
      linarith
    exact_mod_cast this

theorem scaled_le_iff (n d b : Nat) (e : ℤ) (hd : 0 < d) :
    (b * (d * 2 ^ e.toNat) ≤ n * 2 ^ (-e).toNat) ↔ ((b : ℚ) * (2 : ℚ) ^ e ≤ (n : ℚ) / d) := by
  have h := (scaled_lt_iff n d b e hd).not
  rw [not_lt, not_lt] at h
  exact h

/-- The exponent and the significand that `roundFraction` works with: the exponent
is at least -1074, the significand is at most 2^53, and it is at least 2^52 unless
the exponent is -1074. -/
theorem significand_bounds (n d : Nat) (hn : 0 < n) (hd : 0 < d) :
    -1074 ≤ ulpExponent n d ∧
      roundHalfEven (n * 2 ^ (-ulpExponent n d).toNat) (d * 2 ^ (ulpExponent n d).toNat)
        ≤ 2 ^ 53 ∧
      (2 ^ 52 ≤ roundHalfEven (n * 2 ^ (-ulpExponent n d).toNat)
          (d * 2 ^ (ulpExponent n d).toNat) ∨ ulpExponent n d = -1074) := by
  have hx : (0 : ℚ) < (n : ℚ) / d := by positivity
  have hlog1 : (2 : ℚ) ^ Int.log 2 ((n : ℚ) / d) ≤ (n : ℚ) / d :=
    Int.zpow_log_le_self (by norm_num) hx
  have hlog2 : (n : ℚ) / d < (2 : ℚ) ^ (Int.log 2 ((n : ℚ) / d) + 1) :=
    Int.lt_zpow_succ_log_self (by norm_num) _
  have he : ulpExponent n d = max (Int.log 2 ((n : ℚ) / d) - 52) (-1074) := by
    unfold ulpExponent
    rw [floorLog2_eq_log n d hn hd]
  generalize ulpExponent n d = e at he ⊢
  generalize Int.log 2 ((n : ℚ) / d) = k at he hlog1 hlog2
  have hdpos : 0 < d * 2 ^ e.toNat := by positivity
  refine ⟨by rw [he]; exact le_max_right _ _, ?_, ?_⟩
  · apply roundHalfEven_le _ _ _ hdpos
    rw [scaled_lt_iff n d (2 ^ 53) e hd]
    calc (n : ℚ) / d < (2 : ℚ) ^ (k + 1) := hlog2
      _ ≤ (2 : ℚ) ^ (53 + e) := by
          apply zpow_le_zpow_right₀ (by norm_num)
          have : k - 52 ≤ e := by rw [he]; exact le_max_left _ _
          omega
      _ = ((2 ^ 53 : ℕ) : ℚ) * (2 : ℚ) ^ e := by
          rw [zpow_add₀ (by norm_num)]; norm_num
  · by_cases h : e = -1074
    · exact Or.inr h
    · left
      have hek : e = k - 52 := by
        rcases max_choice (k - 52) (-1074) with hm | hm
        · rw [he, hm]
        · exact absurd (he.trans hm) h
      apply le_roundHalfEven _ _ _ hdpos
      rw [scaled_le_iff n d (2 ^ 52) e hd]
      calc ((2 ^ 52 : ℕ) : ℚ) * (2 : ℚ) ^ e = (2 : ℚ) ^ k := by
            rw [hek, zpow_sub₀ (by norm_num)]; norm_num
            field_simp
        _ ≤ (n : ℚ) / d := hlog1

theorem dyadic_ratio (m : Nat) (e : ℤ) :
    ((m * 2 ^ e.toNat : ℕ) : ℚ) / ((2 ^ (-e).toNat : ℕ) : ℚ) = (m : ℚ) * (2 : ℚ) ^ e := by
  rw [two_zpow_split e]
  push_cast
  ring

theorem ulpExponent_dyadic (e : ℤ) (m : Nat) (he : -1074 ≤ e) (hm0 : 0 < m)
    (hm : m < 2 ^ 53) (hnorm : 2 ^ 52 ≤ m ∨ e = -1074) :
    ulpExponent (m * 2 ^ e.toNat) (2 ^ (-e).toNat) = e := by
  unfold ulpExponent
  rw [floorLog2_eq_log _ _ (by positivity) (by positivity), dyadic_ratio]
  have hpos : (0 : ℚ) < (m : ℚ) * (2 : ℚ) ^ e := by positivity
  have hup : Int.log 2 ((m : ℚ) * (2 : ℚ) ^ e) < 53 + e := by
    apply (Int.lt_zpow_iff_log_lt (by norm_num) hpos).mp
    rw [zpow_add₀ (by norm_num)]
    apply mul_lt_mul_of_pos_right _ (by positivity)
    exact_mod_cast hm
  rcases hnorm with h52 | h52
  · have hlow : 52 + e ≤ Int.log 2 ((m : ℚ) * (2 : ℚ) ^ e) := by
      apply (Int.zpow_le_iff_le_log (by norm_num) hpos).mp
      rw [zpow_add₀ (by norm_num)]
      apply mul_le_mul_of_nonneg_right _ (by positivity)
      exact_mod_cast h52
    rw [max_def]
    split <;> omega
  · rw [max_def]
    split <;> omega

theorem ulpExponent_dyadic_top (e : ℤ) (he : -1074 ≤ e) :
    ulpExponent (2 ^ 53 * 2 ^ e.toNat) (2 ^ (-e).toNat) = e + 1 := by
  unfold ulpExponent
  rw [floorLog2_eq_log _ _ (by positivity) (by positivity), dyadic_ratio]
  have heq : ((2 ^ 53 : ℕ) : ℚ) * (2 : ℚ) ^ e = (2 : ℚ) ^ (53 + e) := by
    rw [zpow_add₀ (by norm_num)]; norm_num
  have hlog : Int.log 2 ((2 : ℚ) ^ (53 + e)) = 53 + e := by
    have := @Int.log_zpow ℚ _ _ 2 (by norm_num) (53 + e)
    simpa using this
  rw [heq, hlog]
  rw [max_def]
  split <;> omega

/-- Rounding the double m * 2^e gives this double. -/
theorem roundFraction_dyadic (negative : Bool) (e : ℤ) (m : Nat) (he : -1074 ≤ e)
    (hm0 : 0 < m) (hm : m ≤ 2 ^ 53) (hnorm : 2 ^ 52 ≤ m ∨ e = -1074)
    (hover : ¬ (971 < e ∨ (e = 971 ∧ 2 ^ 53 ≤ m))) :
    roundFraction negative (m * 2 ^ e.toNat) (2 ^ (-e).toNat)
      = JSNumber.finite (mkRat
          (if negative then -((m * 2 ^ e.toNat : Nat) : Int) else ((m * 2 ^ e.toNat : Nat) : Int))
          (2 ^ (-e).toNat)) := by
  rcases Nat.lt_or_ge m (2 ^ 53) with hlt | hge
  · unfold roundFraction
    simp only [ulpExponent_dyadic e m he hm0 hlt hnorm]
    have hm' : roundHalfEven (m * 2 ^ e.toNat * 2 ^ (-e).toNat)
        (2 ^ (-e).toNat * 2 ^ e.toNat) = m := by
      rw [roundHalfEven_congr _ _ m 1 (by positivity) (by norm_num) (by ring)]
      exact roundHalfEven_whole m
    simp only [hm', hover, if_false]
  · have hm53 : m = 2 ^ 53 := le_antisymm hm hge
    subst hm53
    have he971 : e < 971 := by
      by_contra hcon
      apply hover
      rcases lt_or_eq_of_le (not_lt.mp hcon) with h | h
      · exact Or.inl h
      · exact Or.inr ⟨h.symm, le_rfl⟩
    unfold roundFraction
    simp only [ulpExponent_dyadic_top e he]
    have hm' : roundHalfEven (2 ^ 53 * 2 ^ e.toNat * 2 ^ (-(e + 1)).toNat)
        (2 ^ (-e).toNat * 2 ^ (e + 1).toNat) = 2 ^ 52 := by
      rw [roundHalfEven_congr _ _ (2 ^ 52) 1 (by positivity) (by norm_num) ?_]
      · exact roundHalfEven_whole _
      · rcases le_or_lt 0 e with h | h
        · obtain ⟨j, rfl⟩ := Int.eq_ofNat_of_zero_le h
          have h1 : (-((j : ℤ) + 1)).toNat = 0 := by omega
          have h2 : (-(j : ℤ)).toNat = 0 := by omega
          have h3 : ((j : ℤ) + 1).toNat = j + 1 := by omega
          simp only [h1, h2, h3, Int.toNat_ofNat, pow_zero, mul_one, one_mul]
          rw [pow_succ]; ring
        · obtain ⟨j, hj⟩ := Int.eq_ofNat_of_zero_le (show 0 ≤ -(e + 1) by omega)
          have h1 : (-(e + 1)).toNat = j := by omega
          have h2 : (-e).toNat = j + 1 := by omega
          have h3 : (e + 1).toNat = 0 := by omega
          have h4 : e.toNat = 0 := by omega
          simp only [h1, h2, h3, h4, pow_zero, mul_one, one_mul]
          rw [pow_succ]; ring
    have hno : ¬ (971 < e + 1 ∨ (e + 1 = 971 ∧ 2 ^ 53 ≤ 2 ^ 52)) := by
      rintro (h | ⟨_, h⟩)
      · omega
      · norm_num at h
    simp only [hm', hno, if_false]
    congr 1
    have hcross : ((2 ^ 52 * 2 ^ (e + 1).toNat : ℕ) : ℤ) * ((2 ^ (-e).toNat : ℕ) : ℤ)
        = ((2 ^ 53 * 2 ^ e.toNat : ℕ) : ℤ) * ((2 ^ (-(e + 1)).toNat : ℕ) : ℤ) := by
      rcases le_or_lt 0 e with h | h
      · obtain ⟨j, rfl⟩ := Int.eq_ofNat_of_zero_le h
        have h1 : (-((j : ℤ) + 1)).toNat = 0 := by omega
        have h2 : (-(j : ℤ)).toNat = 0 := by omega
        have h3 : ((j : ℤ) + 1).toNat = j + 1 := by omega
        simp only [h1, h2, h3, Int.toNat_ofNat, pow_zero, mul_one]
        push_cast
        rw [pow_succ]; ring
      · obtain ⟨j, hj⟩ := Int.eq_ofNat_of_zero_le (show 0 ≤ -(e + 1) by omega)
        have h1 : (-(e + 1)).toNat = j := by omega
        have h2 : (-e).toNat = j + 1 := by omega
        have h3 : (e + 1).toNat = 0 := by omega
        have h4 : e.toNat = 0 := by omega
        simp only [h1, h2, h3, h4, pow_zero, mul_one]
        push_cast
        rw [pow_succ]; ring
    cases negative
    · simp only [Bool.false_eq_true, if_false]
      rw [Rat.mkRat_eq_iff (by positivity) (by positivity)]
      exact hcross
    · simp only [if_true]
      rw [Rat.mkRat_eq_iff (by positivity) (by positivity)]
      rw [neg_mul, neg_mul, hcross]

/-- Rounding is the identity on its finite results: a double rounds to itself. -/
theorem roundDouble_fixed (q v : ℚ) (h : roundDouble q = JSNumber.finite v) :
    roundDouble v = JSNumber.finite v := by
  unfold roundDouble at h
  by_cases hq : q = 0
  · simp only [hq, if_true] at h
    cases h
    simp [roundDouble]
  · simp only [hq, if_false] at h
    have hn : 0 < q.num.natAbs := Int.natAbs_pos.mpr (Rat.num_ne_zero.mpr hq)
    have hd : 0 < q.den := q.den_pos
    obtain ⟨he, hm, hnorm⟩ := significand_bounds _ _ hn hd
    unfold roundFraction at h
    simp only at h
    generalize ulpExponent q.num.natAbs q.den = e at h he hm hnorm
    generalize roundHalfEven (q.num.natAbs * 2 ^ (-e).toNat) (q.den * 2 ^ e.toNat) = m
      at h hm hnorm
    generalize decide (q < 0) = negative at h
    split at h
    · cases h
    · rename_i hover
      have hv : v = mkRat
          (if negative then -((m * 2 ^ e.toNat : Nat) : Int) else ((m * 2 ^ e.toNat : Nat) : Int))
          (2 ^ (-e).toNat) := by
        cases h
        rfl
      by_cases hm0 : m = 0
      · have hv0 : v = 0 := by
          rw [hv, hm0]
          cases negative <;> simp
        rw [hv0]
        simp [roundDouble]
      · have hmpos : 0 < m := Nat.pos_of_ne_zero hm0
        have hfix := roundFraction_dyadic negative e m he hmpos hm hnorm hover
        rw [← hv] at hfix
        have hMpos : 0 < m * 2 ^ e.toNat := by positivity
        have hDpos : 0 < 2 ^ (-e).toNat := by positivity
        have hvq : v = ((if negative then -((m * 2 ^ e.toNat : Nat) : Int)
            else ((m * 2 ^ e.toNat : Nat) : Int) : ℤ) : ℚ) / ((2 ^ (-e).toNat : ℕ) : ℚ) := by
          rw [hv, Rat.mkRat_eq_div]
        have hDq : (0 : ℚ) < ((2 ^ (-e).toNat : ℕ) : ℚ) := by exact_mod_cast hDpos
        have hMq : (0 : ℚ) < ((m * 2 ^ e.toNat : ℕ) : ℚ) := by exact_mod_cast hMpos
        have hsign : decide (v < 0) = negative := by
          cases negative
          · simp only [Bool.false_eq_true, if_false] at hvq
            have : 0 < v := by
              rw [hvq]
              apply div_pos _ hDq
              exact_mod_cast hMpos
            simp [not_lt.mpr this.le]
          · simp only [if_true] at hvq
            have : v < 0 := by
              rw [hvq]
              apply div_neg_of_neg_of_pos _ hDq
              push_cast
              push_cast at hMq
              linarith
            simp [this]
        have hvne : v ≠ 0 := by
          intro h0
          cases negative
          · simp only [Bool.false_eq_true, if_false] at hvq
            rw [h0] at hvq
            have := div_pos (show (0 : ℚ) < (((m * 2 ^ e.toNat : ℕ) : ℤ) : ℚ) by
              exact_mod_cast hMpos) hDq
            linarith
          · simp only [if_true] at hvq
            rw [h0] at hvq
            have : ((-((m * 2 ^ e.toNat : ℕ) : ℤ) : ℤ) : ℚ) / ((2 ^ (-e).toNat : ℕ) : ℚ) < 0 := by
              apply div_neg_of_neg_of_pos _ hDq
              push_cast
              push_cast at hMq
              linarith
            linarith
        have hcross : v.num.natAbs * 2 ^ (-e).toNat = m * 2 ^ e.toNat * v.den := by
          have h1 : (v.num : ℚ) / (v.den : ℚ) = v := Rat.num_div_den v
          have hden : (0 : ℚ) < (v.den : ℚ) := by exact_mod_cast v.den_pos
          have h2 : (v.num : ℚ) * ((2 ^ (-e).toNat : ℕ) : ℚ)
              = ((if negative then -((m * 2 ^ e.toNat : Nat) : Int)
                else ((m * 2 ^ e.toNat : Nat) : Int) : ℤ) : ℚ) * (v.den : ℚ) := by
            have h3 := hvq
            rw [← h1] at h3
            rw [div_eq_div_iff hden.ne' hDq.ne'] at h3
            exact h3
          have h4 : v.num * ((2 ^ (-e).toNat : ℕ) : ℤ)
              = (if negative then -((m * 2 ^ e.toNat : Nat) : Int)
                else ((m * 2 ^ e.toNat : Nat) : Int)) * (v.den : ℤ) := by
            exact_mod_cast h2
          have h5 := congrArg Int.natAbs h4
          rw [Int.natAbs_mul, Int.natAbs_mul] at h5
          cases negative
          · simp only [Bool.false_eq_true, if_false, Int.natAbs_ofNat] at h5
            exact h5
          · simp only [if_true, Int.natAbs_neg, Int.natAbs_ofNat] at h5
            exact h5
        unfold roundDouble
        simp only [hvne, if_false, hsign]
        rw [roundFraction_congr negative v.num.natAbs v.den (m * 2 ^ e.toNat) (2 ^ (-e).toNat)
          (Int.natAbs_pos.mpr (Rat.num_ne_zero.mpr hvne)) v.den_pos hMpos hDpos hcross]
        exact hfix

theorem JSNumber.zero_eq : (0 : JSNumber) = JSNumber.finite 0 := by
  show roundDouble ((0 : ℕ) : ℚ) = JSNumber.finite 0
  simp [roundDouble]

/-- Adding a rounded result to 0, as `reduce` does with the first line, leaves it
as it is. -/
theorem JSNumber.zero_add_roundDouble (q : ℚ) :
    (0 : JSNumber) + roundDouble q = roundDouble q := by
  rw [JSNumber.zero_eq]
  show JSNumber.add (JSNumber.finite 0) (roundDouble q) = roundDouble q
  cases h : roundDouble q with
  | null =>
    exfalso
    unfold roundDouble roundFraction at h
    split at h
    · cases h
    · simp only at h
      split at h <;> cases h
  | nan =>
    exfalso
    unfold roundDouble roundFraction at h
    split at h
    · cases h
    · simp only at h
      split at h <;> cases h
  | infinity s => rfl
  | finite v =>
    show roundDouble (0 + v) = JSNumber.finite v
    rw [zero_add]
    exact roundDouble_fixed q v h

/-! ## Adding a product -/

theorem updateFirst_length {α : Type} (p : α → Bool) (f : α → α) (l : List α) :
    (updateFirst p f l).length = l.length := by
  induction l with
  | nil => rfl
  | cons x xs ih =>
    unfold updateFirst
    split <;> simp [ih]

theorem updateFirst_append {α : Type} (p : α → Bool) (f : α → α) (pre post : List α) (x : α)
    (hpre : ∀ y ∈ pre, p y = false) (hx : p x = true) :
    updateFirst p f (pre ++ x :: post) = pre ++ f x :: post := by
  induction pre with
  | nil => simp [updateFirst, hx]
  | cons y ys ih =>
    have hy : p y = false := hpre y (by simp)
    have hys : ∀ z ∈ ys, p z = false := fun z hz => hpre z (by simp [hz])
    simp [updateFirst, hy, ih hys]

theorem find?_split {α : Type} (p : α → Bool) (l : List α) (x : α)
    (h : l.find? p = some x) :
    ∃ pre post, l = pre ++ x :: post ∧ (∀ y ∈ pre, p y = false) ∧ p x = true := by
  induction l with
  | nil => simp at h
  | cons y ys ih =>
    by_cases hy : p y = true
    · simp [List.find?_cons, hy] at h
      subst h
      exact ⟨[], ys, by simp, by simp, hy⟩
    · simp [List.find?_cons, hy] at h
      obtain ⟨pre, post, h1, h2, h3⟩ := ih h
      refine ⟨y :: pre, post, by simp [h1], ?_, h3⟩
      intro z hz
      rcases List.mem_cons.mp hz with rfl | hz
      · simpa using hy
      · exact h2 z hz

theorem updateFirst_split {α : Type} (p : α → Bool) (f : α → α) (l : List α) (x : α)
    (h : l.find? p = some x) :
    ∃ pre post, l = pre ++ x :: post ∧ (∀ y ∈ pre, p y = false) ∧ p x = true ∧
      updateFirst p f l = pre ++ f x :: post := by
  induction l with
  | nil => simp at h
  | cons y ys ih =>
    by_cases hy : p y = true
    · simp [List.find?_cons, hy] at h
      subst h
      exact ⟨[], ys, by simp, by simp, hy, by simp [updateFirst, hy]⟩
    · simp [List.find?_cons, hy] at h
      obtain ⟨pre, post, h1, h2, h3, h4⟩ := ih h
      refine ⟨y :: pre, post, by simp [h1], ?_, h3, ?_⟩
      · intro z hz
        rcases List.mem_cons.mp hz with rfl | hz
        · simpa using hy
        · exact h2 z hz
      · simp [updateFirst, hy, h4]

theorem find?_eq_none_of_forall {α : Type} (p : α → Bool) (l : List α)
    (h : ∀ y ∈ l, p y = false) : l.find? p = none := by
  induction l with
  | nil => rfl
  | cons y ys ih =>
    have hy : p y = false := h y (by simp)
    simp [List.find?_cons, hy]
    intro z hz
    simpa using h z (by simp [hz])

theorem parseIntOr_of_pos (v : JSValue) (n fallback : Int) (h : parseInt v = some n)
    (hn : n ≠ 0) : parseIntOr v fallback = n := by
  simp [parseIntOr, h, hn]

/-- Normal form of `addToCart` once the product and quantity checks pass. -/
theorem ShoppingCart.addToCart_valid (s : ShoppingCart) (product : Product)
    (newId name : String) (price : ℚ) (q : Int)
    (hname : product.name = some name) (hne : name ≠ "")
    (hprice : product.price = some price) (hpos : 0 < price)
    (hq : parseIntOr product.quantity 1 = q) (hq1 : 1 ≤ q) (hq100 : q ≤ 100) :
    s.addToCart (some product) newId =
      match s.cart.find? (ShoppingCart.sameLine product) with
      | some existingItem =>
        if existingItem.quantity + q > 100 then
          (false, s.showNotification
            "Maximum quantity limit reached (100 items per product)!" .error)
        else
          (true, ((s.setCart (updateFirst (ShoppingCart.sameLine product)
              (fun item => { item with quantity := existingItem.quantity + q }) s.cart)
            ).showNotification
            ("✓ " ++ name ++ " - Quantity updated to " ++ toString (existingItem.quantity + q))
            .success).saveCart)
      | none =>
        (true, ((s.setCart (s.cart ++ [ShoppingCart.newCartItem product newId name price q])
            ).showNotification ("✓ " ++ name ++ " added to cart!") .success).saveCart) := by
  have hp0 : price ≠ 0 := ne_of_gt hpos
  have hp1 : ¬ price ≤ 0 := not_le.mpr hpos
  have hq2 : ¬ (q ≤ 0 ∨ q > 100) := by omega
  simp only [ShoppingCart.addToCart, hname, hprice, hq]
  simp only [hne, hp0, hp1, hq2, or_self, if_false]


theorem ShoppingCart.sameLine_setQuantity (product : Product) (item : CartItem) (n : Int) :
    ShoppingCart.sameLine product { item with quantity := n }
      = ShoppingCart.sameLine product item := rfl

/-- C2: adding a valid product with requested quantity q2 in [1,100] that matches
an existing line of quantity q1: when q1 + q2 <= 100 the call returns true, the cart
keeps its number of lines and the matching line has quantity q1 + q2; when
q1 + q2 > 100 the call returns false, reports an error and changes neither the
cart nor its stored copy. -/
theorem ShoppingCart.addToCart_merge (s : ShoppingCart) (product : Product)
    (newId name : String) (price : ℚ) (existingItem : CartItem) (q2 : Int)
    (hname : product.name = some name) (hne : name ≠ "")
    (hprice : product.price = some price) (hpos : 0 < price)
    (hq : parseInt product.quantity = some q2) (hq1 : 1 ≤ q2) (hq100 : q2 ≤ 100)
    (hfind : s.cart.find? (ShoppingCart.sameLine product) = some existingItem) :
    (existingItem.quantity + q2 ≤ 100 →
      (s.addToCart (some product) newId).1 = true ∧
      (s.addToCart (some product) newId).2.cart.length = s.cart.length ∧
      ((s.addToCart (some product) newId).2.cart.find? (ShoppingCart.sameLine product)).map
          (fun item => item.quantity) = some (existingItem.quantity + q2)) ∧
    (existingItem.quantity + q2 > 100 →
      (s.addToCart (some product) newId).1 = false ∧
      (s.addToCart (some product) newId).2.cart = s.cart ∧
      (s.addToCart (some product) newId).2.stored = s.stored ∧
      (s.addToCart (some product) newId).2.notifications = s.notifications ++
        [⟨"Maximum quantity limit reached (100 items per product)!", .error⟩]) := by
  have hq' : parseIntOr product.quantity 1 = q2 :=
    parseIntOr_of_pos _ _ _ hq (by omega)
  rw [ShoppingCart.addToCart_valid s product newId name price q2 hname hne hprice hpos
    hq' hq1 hq100, hfind]
  constructor
  · intro hle
    have hle' : ¬ existingItem.quantity + q2 > 100 := by omega
    simp only [hle', if_false]
    refine ⟨trivial, ?_, ?_⟩
    · simp [ShoppingCart.saveCart, ShoppingCart.showNotification, ShoppingCart.setCart,
        updateFirst_length]
    · obtain ⟨pre, post, h1, h2, h3, h4⟩ := updateFirst_split (ShoppingCart.sameLine product)
        (fun item => { item with quantity := existingItem.quantity + q2 }) s.cart
        existingItem hfind
      have hpre : pre.find? (ShoppingCart.sameLine product) = none :=
        find?_eq_none_of_forall _ _ h2
      simp only [ShoppingCart.saveCart, ShoppingCart.showNotification, ShoppingCart.setCart,
        h4, List.find?_append, hpre, Option.none_or, List.find?_cons,
        ShoppingCart.sameLine_setQuantity, h3, Option.map_some']
  · intro hgt
    simp only [hgt, if_true]
    exact ⟨trivial, rfl, rfl, rfl⟩

/-- The three outcomes of `addToCart`: a rejection with a single error
notification, a merge into the first matching line, or a new line at the end. -/
theorem ShoppingCart.addToCart_cases (s : ShoppingCart) (product : Option Product)
    (newId : String) :
    (∃ message, s.addToCart product newId = (false, s.showNotification message .error)) ∨
    (∃ p name price existingItem message, product = some p ∧
      1 ≤ parseIntOr p.quantity 1 ∧ parseIntOr p.quantity 1 ≤ 100 ∧
      s.cart.find? (ShoppingCart.sameLine p) = some existingItem ∧
      existingItem.quantity + parseIntOr p.quantity 1 ≤ 100 ∧
      p.name = some name ∧ p.price = some price ∧
      s.addToCart product newId = (true, ((s.setCart (updateFirst (ShoppingCart.sameLine p)
        (fun item => { item with quantity := existingItem.quantity + parseIntOr p.quantity 1 })
        s.cart)).showNotification message .success).saveCart)) ∨
    (∃ p name price message, product = some p ∧
      1 ≤ parseIntOr p.quantity 1 ∧ parseIntOr p.quantity 1 ≤ 100 ∧
      s.cart.find? (ShoppingCart.sameLine p) = none ∧
      p.name = some name ∧ p.price = some price ∧
      s.addToCart product newId = (true, ((s.setCart (s.cart ++
        [ShoppingCart.newCartItem p newId name price (parseIntOr p.quantity 1)])
        ).showNotification message .success).saveCart)) := by
  cases product with
  | none => exact Or.inl ⟨_, rfl⟩
  | some p =>
    cases hname : p.name with
    | none => exact Or.inl ⟨_, by simp [ShoppingCart.addToCart, hname]; rfl⟩
    | some name =>
      cases hprice : p.price with
      | none => exact Or.inl ⟨_, by simp [ShoppingCart.addToCart, hname, hprice]; rfl⟩
      | some price =>
        by_cases h1 : name = "" ∨ price = 0
        · exact Or.inl ⟨_, by
            simp only [ShoppingCart.addToCart, hname, hprice, h1, if_true]; rfl⟩
        by_cases h2 : price ≤ 0
        · exact Or.inl ⟨_, by
            simp only [ShoppingCart.addToCart, hname, hprice, h1, h2, if_true, if_false]; rfl⟩
        by_cases h3 : parseIntOr p.quantity 1 ≤ 0 ∨ parseIntOr p.quantity 1 > 100
        · exact Or.inl ⟨_, by
            simp only [ShoppingCart.addToCart, hname, hprice, h1, h2, h3, if_true, if_false]
            rfl⟩
        have h3a : 1 ≤ parseIntOr p.quantity 1 := by omega
        have h3b : parseIntOr p.quantity 1 ≤ 100 := by omega
        cases hfind : s.cart.find? (ShoppingCart.sameLine p) with
        | none =>
          refine Or.inr (Or.inr ⟨p, name, price, "✓ " ++ name ++ " added to cart!", rfl, h3a, h3b,
            hfind, hname, hprice, ?_⟩)
          simp only [ShoppingCart.addToCart, hname, hprice, h1, h2, h3, hfind, if_false]
        | some existingItem =>
          by_cases h4 : existingItem.quantity + parseIntOr p.quantity 1 > 100
          · exact Or.inl ⟨_, by
              simp only [ShoppingCart.addToCart, hname, hprice, h1, h2, h3, hfind, h4,
                if_true, if_false]
              rfl⟩
          · refine Or.inr (Or.inl ⟨p, name, price, existingItem,
              "✓ " ++ name ++ " - Quantity updated to " ++
                toString (existingItem.quantity + parseIntOr p.quantity 1),
              rfl, h3a, h3b, hfind, by omega, hname, hprice, ?_⟩)
            simp only [ShoppingCart.addToCart, hname, hprice, h1, h2, h3, hfind, h4, if_false]

/-- Whenever `addToCart` returns false it has only appended one error
notification: the cart and its stored copy are untouched. -/
theorem ShoppingCart.addToCart_false_frame (s : ShoppingCart) (product : Option Product)
    (newId : String) (h : (s.addToCart product newId).1 = false) :
    (s.addToCart product newId).2.cart = s.cart ∧
      (s.addToCart product newId).2.stored = s.stored ∧
      ∃ message, (s.addToCart product newId).2.notifications
        = s.notifications ++ [⟨message, .error⟩] := by
  rcases ShoppingCart.addToCart_cases s product newId with
    ⟨message, hm⟩ | ⟨_, _, _, _, _, _, _, _, _, _, _, _, hm⟩ | ⟨_, _, _, _, _, _, _, _, _, _, hm⟩
  · rw [hm]
    exact ⟨rfl, rfl, message, rfl⟩
  · rw [hm] at h
    simp at h
  · rw [hm] at h
    simp at h

/-- C3 (amended): a requested quantity that `parseInt` reads as a negative
integer or as an integer above 100 makes `addToCart` fail: it returns false,
reports an error, and leaves the cart and its stored copy unchanged. -/
theorem ShoppingCart.addToCart_rejects_quantity (s : ShoppingCart) (product : Product)
    (newId : String) (n : Int) (hq : parseInt product.quantity = some n)
    (hn : n < 0 ∨ 100 < n) :
    (s.addToCart (some product) newId).1 = false ∧
      (s.addToCart (some product) newId).2.cart = s.cart ∧
      (s.addToCart (some product) newId).2.stored = s.stored ∧
      ∃ message, (s.addToCart (some product) newId).2.notifications
        = s.notifications ++ [⟨message, .error⟩] := by
  have hq' : parseIntOr product.quantity 1 = n :=
    parseIntOr_of_pos _ _ _ hq (by omega)
  have hbad : parseIntOr product.quantity 1 ≤ 0 ∨ parseIntOr product.quantity 1 > 100 := by
    rw [hq']; omega
  have hret : (s.addToCart (some product) newId).1 = false := by
    cases hname : product.name with
    | none => simp [ShoppingCart.addToCart, hname]
    | some name =>
      cases hprice : product.price with
      | none => simp [ShoppingCart.addToCart, hname, hprice]
      | some price =>
        by_cases h1 : name = "" ∨ price = 0
        · simp only [ShoppingCart.addToCart, hname, hprice, h1, if_true]
        by_cases h2 : price ≤ 0
        · simp only [ShoppingCart.addToCart, hname, hprice, h1, h2, if_true, if_false]
        · simp only [ShoppingCart.addToCart, hname, hprice, h1, h2, hbad, if_true, if_false]
  exact ⟨hret, ShoppingCart.addToCart_false_frame s _ newId hret⟩

/-- Instance of the merge theorem: three more mugs on a cart holding three. -/
theorem ShoppingCart.addToCart_merge_witness :
    (mugStore.addToCart (some mug) "c2").1 = true ∧
      (mugStore.addToCart (some mug) "c2").2.cart.length = mugStore.cart.length ∧
      ((mugStore.addToCart (some mug) "c2").2.cart.find? (ShoppingCart.sameLine mug)).map
          (fun item => item.quantity) = some (mugLine.quantity + 3) :=
  (ShoppingCart.addToCart_merge mugStore mug "c2" "Mug" 25 mugLine 3 rfl (by decide) rfl
    (by norm_num) (by decide) (by decide) (by decide) (by decide)).1 (by decide)

/-- C3 (counterexample): a requested quantity of 0 lies outside [1,100], yet
`addToCart` on the empty cart returns true and the cart gains a line of
quantity 1. -/
theorem ShoppingCart.addToCart_quantity_zero :
    mugZero.quantity = JSValue.number 0 ∧
      (emptyStore.addToCart (some mugZero) "c1").1 = true ∧
      (emptyStore.addToCart (some mugZero) "c1").2.cart = [{ mugLine with quantity := 1 }] := by
  decide

/-- Instance of the quantity rejection: 101 mugs are refused. -/
theorem ShoppingCart.addToCart_rejects_quantity_witness :
    (mugStore.addToCart (some mugTooMany) "c2").1 = false ∧
      (mugStore.addToCart (some mugTooMany) "c2").2.cart = mugStore.cart ∧
      (mugStore.addToCart (some mugTooMany) "c2").2.stored = mugStore.stored ∧
      ∃ message, (mugStore.addToCart (some mugTooMany) "c2").2.notifications
        = mugStore.notifications ++ [⟨message, .error⟩] :=
  ShoppingCart.addToCart_rejects_quantity mugStore mugTooMany "c2" 101 (by decide)
    (Or.inr (by decide))

/-- C4: `addToCart` fails (one error notification, returns false, cart and stored
copy unchanged) whenever the product is missing, has no name (absent or empty),
has no price, or has a price <= 0. -/
theorem ShoppingCart.addToCart_rejects_product (s : ShoppingCart) (product : Option Product)
    (newId : String)
    (h : product = none ∨ ∃ p, product = some p ∧
      (p.name = none ∨ p.name = some "" ∨ p.price = none ∨ ∃ x, p.price = some x ∧ x ≤ 0)) :
    (s.addToCart product newId).1 = false ∧
      (s.addToCart product newId).2.cart = s.cart ∧
      (s.addToCart product newId).2.stored = s.stored ∧
      ∃ message, (s.addToCart product newId).2.notifications
        = s.notifications ++ [⟨message, .error⟩] := by
  have hret : (s.addToCart product newId).1 = false := by
    rcases h with rfl | ⟨p, rfl, hp⟩
    · rfl
    · cases hname : p.name with
      | none => simp [ShoppingCart.addToCart, hname]
      | some name =>
        cases hprice : p.price with
        | none => simp [ShoppingCart.addToCart, hname, hprice]
        | some price =>
          by_cases h1 : name = "" ∨ price = 0
          · simp only [ShoppingCart.addToCart, hname, hprice, h1, if_true]
          · have h2 : price ≤ 0 := by
              rcases hp with hp | hp | hp | ⟨x, hx, hx0⟩
              · simp [hname] at hp
              · simp [hname] at hp
                exact absurd (Or.inl hp) h1
              · simp [hprice] at hp
              · simp [hprice] at hx
                rw [hx]
                exact hx0
            simp only [ShoppingCart.addToCart, hname, hprice, h1, h2, if_true, if_false]
  exact ⟨hret, ShoppingCart.addToCart_false_frame s _ newId hret⟩

/-- Instance of the product rejection: a price of -5 is refused. -/
theorem ShoppingCart.addToCart_rejects_product_witness :
    (mugStore.addToCart (some { mug with price := some (-5) }) "c2").1 = false ∧
      (mugStore.addToCart (some { mug with price := some (-5) }) "c2").2.cart
        = mugStore.cart ∧
      (mugStore.addToCart (some { mug with price := some (-5) }) "c2").2.stored
        = mugStore.stored ∧
      ∃ message, (mugStore.addToCart (some { mug with price := some (-5) }) "c2").2.notifications
        = mugStore.notifications ++ [⟨message, .error⟩] :=
  ShoppingCart.addToCart_rejects_product mugStore (some { mug with price := some (-5) }) "c2"
    (Or.inr ⟨_, rfl, Or.inr (Or.inr (Or.inr ⟨-5, rfl, by norm_num⟩))⟩)

/-- C5: a valid product (name present, price > 0) with requested quantity q in
[1,100], added to a cart with no line of the same (id, size, color): `addToCart`
returns true and the new cart is the old cart followed by exactly one new line,
which carries quantity q, the product's price and id, and the product's size and
color with the empty string for an absent one; from the empty cart the subtotal
afterwards is price * q, the product of the two numbers in double arithmetic. -/
theorem ShoppingCart.addToCart_new_line (s : ShoppingCart) (product : Product)
    (newId name : String) (price : ℚ) (q : Int)
    (hname : product.name = some name) (hne : name ≠ "")
    (hprice : product.price = some price) (hpos : 0 < price)
    (hq : parseInt product.quantity = some q) (hq1 : 1 ≤ q) (hq100 : q ≤ 100)
    (hnew : ∀ item ∈ s.cart, ¬ (item.id = product.id ∧ item.size = strOr product.size "" ∧
      item.color = strOr product.color "")) :
    (s.addToCart (some product) newId).1 = true ∧
      ∃ line : CartItem,
        (s.addToCart (some product) newId).2.cart = s.cart ++ [line] ∧
        line.quantity = q ∧ line.price = price ∧ line.id = product.id ∧
        line.name = name ∧ line.cartId = newId ∧
        line.size = strOr product.size "" ∧ line.color = strOr product.color "" ∧
        (product.size = none → line.size = "") ∧
        (product.color = none → line.color = "") ∧
        (s.cart = [] → (s.addToCart (some product) newId).2.getSubtotal
          = JSNumber.finite price * JSNumber.finite q) := by
  have hq' : parseIntOr product.quantity 1 = q :=
    parseIntOr_of_pos _ _ _ hq (by omega)
  have hfind : s.cart.find? (ShoppingCart.sameLine product) = none := by
    apply find?_eq_none_of_forall
    intro item hitem
    have := hnew item hitem
    simp only [ShoppingCart.sameLine, Bool.and_eq_false_iff, beq_eq_false_iff_ne]
    by_contra hcon
    push_neg at hcon
    exact this ⟨hcon.1.1, hcon.1.2, hcon.2⟩
  rw [ShoppingCart.addToCart_valid s product newId name price q hname hne hprice hpos
    hq' hq1 hq100, hfind]
  refine ⟨rfl, ShoppingCart.newCartItem product newId name price q, rfl, rfl, rfl, rfl, rfl,
    rfl, rfl, rfl, ?_, ?_, ?_⟩
  · intro h; simp [ShoppingCart.newCartItem, h, strOr]
  · intro h; simp [ShoppingCart.newCartItem, h, strOr]
  · intro h
    simp only [ShoppingCart.getSubtotal, ShoppingCart.getTotal, ShoppingCart.saveCart,
      ShoppingCart.showNotification, ShoppingCart.setCart, h, ShoppingCart.newCartItem,
      List.nil_append, List.foldl_cons, List.foldl_nil]
    exact JSNumber.zero_add_roundDouble (price * (q : ℚ))

/-- Instance of the new-line theorem: three mugs on the empty cart. -/
theorem ShoppingCart.addToCart_new_line_witness :
    (emptyStore.addToCart (some mug) "c1").1 = true ∧
      ∃ line : CartItem,
        (emptyStore.addToCart (some mug) "c1").2.cart = emptyStore.cart ++ [line] ∧
        line.quantity = 3 ∧ line.price = 25 ∧ line.id = mug.id ∧
        line.name = "Mug" ∧ line.cartId = "c1" ∧
        line.size = strOr mug.size "" ∧ line.color = strOr mug.color "" ∧
        (mug.size = none → line.size = "") ∧
        (mug.color = none → line.color = "") ∧
        (emptyStore.cart = [] →
          (emptyStore.addToCart (some mug) "c1").2.getSubtotal
            = JSNumber.finite 25 * JSNumber.finite (3 : Int)) :=
  ShoppingCart.addToCart_new_line emptyStore mug "c1" "Mug" 25 3 rfl (by decide) rfl
    (by norm_num) (by decide) (by decide) (by decide) (by simp [emptyStore])

/-- On an integer of magnitude below 1e21, `parseInt` is the identity. -/
theorem parseInt_intCast (n : Int) (h : n.natAbs < 10 ^ 21) :
    parseInt (JSValue.number (n : ℚ)) = some n := by
  simp only [parseInt, parseIntNumber, Rat.num_intCast, Rat.den_intCast, Option.some.injEq]
  by_cases h0 : n.natAbs = 0
  · have : n = 0 := by omega
    subst this
    simp
  · have hc : 1 ≤ 10 ^ 6 * n.natAbs ∧ n.natAbs < 10 ^ 21 * 1 := by omega
    simp only [h0, if_false, hc, and_self, if_true, Nat.div_one]
    split <;> omega

/-! ## The quantity invariant -/

theorem QuantitiesInRange.updateFirst {cart : List CartItem} (h : QuantitiesInRange cart)
    (p : CartItem → Bool) (n : Int) (h1 : 1 ≤ n) (h100 : n ≤ 100) :
    QuantitiesInRange (updateFirst p (fun item => { item with quantity := n }) cart) := by
  induction cart with
  | nil => exact h
  | cons x xs ih =>
    have hx := h x (by simp)
    have hxs : QuantitiesInRange xs := fun y hy => h y (by simp [hy])
    unfold Support.updateFirst
    split
    · intro y hy
      rcases List.mem_cons.mp hy with rfl | hy
      · exact ⟨h1, h100⟩
      · exact hxs y hy
    · intro y hy
      rcases List.mem_cons.mp hy with rfl | hy
      · exact hx
      · exact ih hxs y hy

theorem QuantitiesInRange.filter {cart : List CartItem} (h : QuantitiesInRange cart)
    (p : CartItem → Bool) : QuantitiesInRange (cart.filter p) :=
  fun y hy => h y (List.mem_filter.mp hy).1

theorem filter_other_handles_eq_self (cart : List CartItem) (cartId : String)
    (h : cart.find? (fun item => item.cartId == cartId) = none) :
    cart.filter (fun item => item.cartId != cartId) = cart := by
  rw [List.filter_eq_self]
  intro a ha
  have := List.find?_eq_none.mp h a ha
  simpa [bne] using this

/-- The three ways `removeFromCart` can end: no line carries the handle and the
state is returned as it is; a line carries it and `querySelector` throws; a line
carries it and the lines with that handle are filtered out. -/
theorem ShoppingCart.removeFromCart_cases (s : ShoppingCart) (cartId : String)
    (querySelector : String → RowQuery) :
    (s.cart.find? (fun item => item.cartId == cartId) = none ∧
        s.removeFromCart cartId querySelector = Except.ok s) ∨
      ((∃ item, s.cart.find? (fun item => item.cartId == cartId) = some item) ∧
        querySelector (rowSelector cartId) = RowQuery.syntaxError ∧
        s.removeFromCart cartId querySelector = Except.error "SyntaxError") ∨
      (∃ item message, s.cart.find? (fun item => item.cartId == cartId) = some item ∧
        querySelector (rowSelector cartId) ≠ RowQuery.syntaxError ∧
        s.removeFromCart cartId querySelector = Except.ok
          ((s.setCart (s.cart.filter (fun item => item.cartId != cartId))).saveCart.showNotification
            message .info)) := by
  unfold ShoppingCart.removeFromCart
  cases hfind : s.cart.find? (fun item => item.cartId == cartId) with
  | none => exact Or.inl ⟨rfl, rfl⟩
  | some item =>
    cases hq : querySelector (rowSelector cartId) with
    | syntaxError => exact Or.inr (Or.inl ⟨⟨item, rfl⟩, rfl, rfl⟩)
    | row =>
      exact Or.inr (Or.inr ⟨item, _, rfl, fun h => RowQuery.noConfusion h, rfl⟩)
    | noRow =>
      exact Or.inr (Or.inr ⟨item, _, rfl, fun h => RowQuery.noConfusion h, rfl⟩)

/-- When `removeFromCart` returns, the cart holds the lines with another handle. -/
theorem ShoppingCart.removeFromCart_ok_cart (s s1 : ShoppingCart) (cartId : String)
    (querySelector : String → RowQuery)
    (h : s.removeFromCart cartId querySelector = Except.ok s1) :
    s1.cart = s.cart.filter (fun item => item.cartId != cartId) := by
  rcases ShoppingCart.removeFromCart_cases s cartId querySelector with
    ⟨hfind, hr⟩ | ⟨_, _, hr⟩ | ⟨item, message, _, _, hr⟩
  · rw [hr] at h
    cases h
    exact (filter_other_handles_eq_self s.cart cartId hfind).symm
  · rw [hr] at h
    cases h
  · rw [hr] at h
    cases h
    rfl

/-- After a `removeFromCart` call, returned or thrown, the cart is the old one or
the old one without the lines carrying the handle. -/
theorem ShoppingCart.removeFromCart_after_cart (s : ShoppingCart) (cartId : String)
    (querySelector : String → RowQuery) :
    (stateAfter s (s.removeFromCart cartId querySelector)).cart = s.cart ∨
      (stateAfter s (s.removeFromCart cartId querySelector)).cart
        = s.cart.filter (fun item => item.cartId != cartId) := by
  cases h : s.removeFromCart cartId querySelector with
  | error e => exact Or.inl rfl
  | ok s1 => exact Or.inr (ShoppingCart.removeFromCart_ok_cart s s1 cartId querySelector h)

theorem ShoppingCart.addToCart_quantitiesInRange (s : ShoppingCart) (product : Option Product)
    (newId : String) (h : QuantitiesInRange s.cart) :
    QuantitiesInRange (s.addToCart product newId).2.cart := by
  rcases ShoppingCart.addToCart_cases s product newId with
    ⟨message, hm⟩ | ⟨p, name, price, existingItem, message, _, h1, h100, hfind, hsum, _, _, hm⟩ |
    ⟨p, name, price, message, _, h1, h100, _, _, _, hm⟩
  · rw [hm]; exact h
  · rw [hm]
    have hex : 1 ≤ existingItem.quantity := (h existingItem (List.mem_of_find?_eq_some hfind)).1
    exact QuantitiesInRange.updateFirst h _ _ (by omega) hsum
  · rw [hm]
    intro y hy
    simp only [ShoppingCart.saveCart, ShoppingCart.showNotification, ShoppingCart.setCart,
      List.mem_append, List.mem_singleton] at hy
    rcases hy with hy | rfl
    · exact h y hy
    · exact ⟨h1, h100⟩

theorem ShoppingCart.removeFromCart_quantitiesInRange (s : ShoppingCart) (cartId : String)
    (querySelector : String → RowQuery) (h : QuantitiesInRange s.cart) :
    QuantitiesInRange (stateAfter s (s.removeFromCart cartId querySelector)).cart := by
  rcases ShoppingCart.removeFromCart_after_cart s cartId querySelector with hc | hc
  · rw [hc]; exact h
  · rw [hc]; exact h.filter _

theorem ShoppingCart.updateQuantity_quantitiesInRange (s : ShoppingCart) (cartId : String)
    (quantity : JSValue) (querySelector : String → RowQuery) (h : QuantitiesInRange s.cart) :
    QuantitiesInRange (stateAfter s (s.updateQuantity cartId quantity querySelector)).cart := by
  have hrem := ShoppingCart.removeFromCart_quantitiesInRange s cartId querySelector h
  unfold ShoppingCart.updateQuantity
  cases s.cart.find? (fun item => item.cartId == cartId) with
  | none => exact h
  | some item =>
    cases parseInt quantity with
    | none => exact hrem
    | some n =>
      simp only
      split
      · exact hrem
      · split
        · exact QuantitiesInRange.updateFirst h _ 100 (by decide) (by decide)
        · exact QuantitiesInRange.updateFirst h _ n (by omega) (by omega)

theorem CartCall.run_quantitiesInRange (s : ShoppingCart) (call : CartCall)
    (h : QuantitiesInRange s.cart) : QuantitiesInRange (call.run s).cart := by
  cases call with
  | addToCart product newId => exact ShoppingCart.addToCart_quantitiesInRange s product newId h
  | removeFromCart cartId querySelector =>
    exact ShoppingCart.removeFromCart_quantitiesInRange s cartId querySelector h
  | updateQuantity cartId quantity querySelector =>
    exact ShoppingCart.updateQuantity_quantitiesInRange s cartId quantity querySelector h
  | clearCart =>
    intro y hy
    simp [CartCall.run, ShoppingCart.clearCart, ShoppingCart.saveCart,
      ShoppingCart.setCart] at hy

/-- C6: if every line of the cart has an integer quantity in [1,100], then after
any sequence of `addToCart`, `removeFromCart`, `updateQuantity` and `clearCart`
calls, with arbitrary arguments and whether they succeed or fail, every line
still has an integer quantity in [1,100]. -/
theorem runCalls_quantitiesInRange (s : ShoppingCart) (calls : List CartCall)
    (h : QuantitiesInRange s.cart) : QuantitiesInRange (runCalls s calls).cart := by
  induction calls generalizing s with
  | nil => exact h
  | cons call rest ih =>
    exact ih (call.run s) (CartCall.run_quantitiesInRange s call h)

/-- Instance of the invariant on a run that merges, clamps, defaults and misses. -/
theorem runCalls_quantitiesInRange_witness :
    QuantitiesInRange (runCalls mugStore
      [CartCall.addToCart (some mug) "c2",
       CartCall.updateQuantity "c1" (JSValue.number 1000) pageWithoutRows,
       CartCall.addToCart (some mugZero) "c3",
       CartCall.removeFromCart "c9" pageWithRows]).cart :=
  runCalls_quantitiesInRange mugStore _ (by decide)

/-! ## Removing a line -/

/-- C7 (counterexample): `generateId()` depends on the clock and on the random
number only, so two calls at the clock value 1700000000000 that draw 0.5 (`0.i` in
base 36) both return `loyw3v28i`. A mug and a cup added with this handle make two
lines that carry it, and `removeFromCart` with the handle returns with an empty
cart: two lines fewer, not one. -/
theorem ShoppingCart.removeFromCart_shared_handle :
    ShoppingCart.generateId 1700000000000 "i" = "loyw3v28i" ∧
      (runCalls emptyStore [CartCall.addToCart (some mug) "loyw3v28i",
        CartCall.addToCart (some cup) "loyw3v28i"]).cart.length = 2 ∧
      (∀ item ∈ (runCalls emptyStore [CartCall.addToCart (some mug) "loyw3v28i",
        CartCall.addToCart (some cup) "loyw3v28i"]).cart, item.cartId = "loyw3v28i") ∧
      ∃ s1, (runCalls emptyStore [CartCall.addToCart (some mug) "loyw3v28i",
          CartCall.addToCart (some cup) "loyw3v28i"]).removeFromCart "loyw3v28i"
            pageWithoutRows = Except.ok s1 ∧
        s1.cart = [] :=
  ⟨by decide, by decide, by decide, _, rfl, by decide⟩

/-- C7 (amended): `removeFromCart` with a handle that no line carries returns and
leaves the state unchanged, whatever the page. With a handle that a line carries,
it throws the SyntaxError of `querySelector` when the selector text built from the
handle is rejected, and the state stays as it was. Whenever the selector text is
accepted it returns, the resulting cart consists of the lines with a different
handle in their original order, what was written to storage is that cart, and when
exactly one line carries the handle the cart has exactly one line fewer. -/
theorem ShoppingCart.removeFromCart_spec (s : ShoppingCart) (cartId : String)
    (querySelector : String → RowQuery) :
    ((∀ item ∈ s.cart, item.cartId ≠ cartId) →
        s.removeFromCart cartId querySelector = Except.ok s) ∧
      ((∃ item ∈ s.cart, item.cartId = cartId) →
        querySelector (rowSelector cartId) = RowQuery.syntaxError →
        s.removeFromCart cartId querySelector = Except.error "SyntaxError" ∧
        (CartCall.removeFromCart cartId querySelector).run s = s) ∧
      (querySelector (rowSelector cartId) ≠ RowQuery.syntaxError →
        ∃ s1, s.removeFromCart cartId querySelector = Except.ok s1 ∧
          (CartCall.removeFromCart cartId querySelector).run s = s1 ∧
          s1.cart = s.cart.filter (fun item => item.cartId != cartId) ∧
          ((∃ item ∈ s.cart, item.cartId = cartId) →
            s1.stored = some (StoredCart.json s1.cart)) ∧
          (s.cart.countP (fun item => item.cartId == cartId) = 1 →
            s1.cart.length + 1 = s.cart.length)) := by
  have hnone : (∀ item ∈ s.cart, item.cartId ≠ cartId) →
      s.cart.find? (fun item => item.cartId == cartId) = none :=
    fun h => find?_eq_none_of_forall _ _ (fun y hy => by simpa using h y hy)
  have hsome : (∃ item ∈ s.cart, item.cartId = cartId) →
      s.cart.find? (fun item => item.cartId == cartId) ≠ none := by
    rintro ⟨item, hmem, hid⟩ hfind
    have := List.find?_eq_none.mp hfind item hmem
    simp [hid] at this
  refine ⟨?_, ?_, ?_⟩
  · intro h
    simp [ShoppingCart.removeFromCart, hnone h]
  · intro h hq
    rcases ShoppingCart.removeFromCart_cases s cartId querySelector with
      ⟨hfind, _⟩ | ⟨_, _, hr⟩ | ⟨_, _, _, hq2, _⟩
    · exact absurd hfind (hsome h)
    · exact ⟨hr, by simp [CartCall.run, hr, stateAfter]⟩
    · exact absurd hq hq2
  · intro hq
    have hlen : ∀ s1 : ShoppingCart,
        s1.cart = s.cart.filter (fun item => item.cartId != cartId) →
        s.cart.countP (fun item => item.cartId == cartId) = 1 →
        s1.cart.length + 1 = s.cart.length := by
      intro s1 hc h
      rw [hc]
      have hlen := List.length_eq_countP_add_countP
        (fun item : CartItem => item.cartId == cartId) s.cart
      have hfil : (s.cart.filter (fun item => item.cartId != cartId)).length
          = s.cart.countP (fun item => ¬ (item.cartId == cartId) = true) := by
        rw [List.countP_eq_length_filter]
        congr 1
        apply List.filter_congr
        intro x _
        by_cases hx : x.cartId = cartId <;> simp [bne, hx]
      rw [hfil]
      omega
    rcases ShoppingCart.removeFromCart_cases s cartId querySelector with
      ⟨hfind, hr⟩ | ⟨_, hq2, _⟩ | ⟨item, message, _, _, hr⟩
    · have hc := ShoppingCart.removeFromCart_ok_cart s s cartId querySelector hr
      exact ⟨s, hr, by simp [CartCall.run, hr, stateAfter], hc,
        fun h => absurd hfind (hsome h), hlen s hc⟩
    · exact absurd hq2 hq
    · exact ⟨_, hr, by simp [CartCall.run, hr, stateAfter], rfl, fun _ => rfl, hlen _ rfl⟩

/-- Instances of the removal theorem: an unknown handle, a handle whose selector
text is rejected, a shared handle and a single one. -/
theorem ShoppingCart.removeFromCart_spec_witness :
    mugStore.removeFromCart "c9" pageWithRows = Except.ok mugStore ∧
      (quotedStore.removeFromCart quotedHandle strictPage = Except.error "SyntaxError" ∧
        (CartCall.removeFromCart quotedHandle strictPage).run quotedStore = quotedStore) ∧
      (∃ s1, twinStore.removeFromCart "c1" pageWithRows = Except.ok s1 ∧
        s1.cart = twinStore.cart.filter (fun item => item.cartId != "c1")) ∧
      (∃ s1, mugStore.removeFromCart "c1" pageWithRows = Except.ok s1 ∧
        s1.cart.length + 1 = mugStore.cart.length) :=
  ⟨(ShoppingCart.removeFromCart_spec mugStore "c9" pageWithRows).1 (by decide),
    (ShoppingCart.removeFromCart_spec quotedStore quotedHandle strictPage).2.1
      ⟨_, List.mem_singleton.mpr rfl, rfl⟩ (by decide),
    ((ShoppingCart.removeFromCart_spec twinStore "c1" pageWithRows).2.2 (by decide)).imp
      (fun _ h => ⟨h.1, h.2.2.1⟩),
    ((ShoppingCart.removeFromCart_spec mugStore "c1" pageWithRows).2.2 (by decide)).imp
      (fun _ h => ⟨h.1, h.2.2.2.2 (by decide)⟩)⟩

/-! ## Changing a quantity -/

/-- Effect of `updateQuantity` on a line that exists, when `parseInt` reads the
requested quantity as n >= 1: the call returns; for n in [1,100] the first line
with the handle gets quantity n and nothing is reported; for n > 100 it gets
quantity 100 and an error notification is added; all other lines, and the order,
are unchanged. -/
theorem ShoppingCart.updateQuantity_parsed (s : ShoppingCart) (cartId : String)
    (quantity : JSValue) (querySelector : String → RowQuery) (item : CartItem) (n : Int)
    (hfind : s.cart.find? (fun item => item.cartId == cartId) = some item)
    (hq : parseInt quantity = some n) (h1 : 1 ≤ n) :
    ∃ pre post s1, s.updateQuantity cartId quantity querySelector = Except.ok s1 ∧
      s.cart = pre ++ item :: post ∧ (∀ y ∈ pre, y.cartId ≠ cartId) ∧
      item.cartId = cartId ∧
      (n ≤ 100 →
        s1.cart = pre ++ { item with quantity := n } :: post ∧
        s1.notifications = s.notifications) ∧
      (100 < n →
        s1.cart = pre ++ { item with quantity := 100 } :: post ∧
        s1.notifications
          = s.notifications ++ [⟨"Maximum quantity limit is 100 items!", .error⟩]) := by
  have hpos : ¬ n ≤ 0 := by omega
  obtain ⟨pre, post, hs, hpre, hitem⟩ := find?_split _ s.cart item hfind
  by_cases hle : n ≤ 100
  · have hle' : ¬ n > 100 := by omega
    refine ⟨pre, post,
      (s.setCart (updateFirst (fun item => item.cartId == cartId)
        (fun item => { item with quantity := n }) s.cart)).saveCart,
      ?_, hs, fun y hy => by simpa using hpre y hy, by simpa using hitem, ?_, ?_⟩
    · simp only [ShoppingCart.updateQuantity, hfind, hq, hpos, hle', if_false]
    · intro _
      refine ⟨?_, rfl⟩
      simp only [ShoppingCart.saveCart, ShoppingCart.setCart]
      rw [hs]
      exact updateFirst_append _ _ pre post item hpre hitem
    · intro hgt
      omega
  · have hgt' : n > 100 := by omega
    refine ⟨pre, post,
      ((s.showNotification "Maximum quantity limit is 100 items!" .error).setCart
        (updateFirst (fun item => item.cartId == cartId)
          (fun item => { item with quantity := 100 })
          (s.showNotification "Maximum quantity limit is 100 items!" .error).cart)).saveCart,
      ?_, hs, fun y hy => by simpa using hpre y hy, by simpa using hitem, ?_, ?_⟩
    · simp only [ShoppingCart.updateQuantity, hfind, hq, hpos, hgt', if_true, if_false]
    · intro h
      omega
    · intro _
      refine ⟨?_, rfl⟩
      simp only [ShoppingCart.saveCart, ShoppingCart.setCart, ShoppingCart.showNotification]
      rw [hs]
      exact updateFirst_append _ _ pre post item hpre hitem

/-- Integer arguments in the positional range: for a line that exists and an integer n,
`updateQuantity(cartId, n)` returns and sets the first line with that handle to
exactly n when 1 <= n <= 100, and to 100 with an error notification when
100 < n < 10^21; the other lines and the order are unchanged. -/
theorem ShoppingCart.updateQuantity_integer (s : ShoppingCart) (cartId : String)
    (querySelector : String → RowQuery) (item : CartItem) (n : Int)
    (hfind : s.cart.find? (fun item => item.cartId == cartId) = some item)
    (h1 : 1 ≤ n) (hbig : n < 10 ^ 21) :
    ∃ pre post s1,
      s.updateQuantity cartId (JSValue.number n) querySelector = Except.ok s1 ∧
      s.cart = pre ++ item :: post ∧ (∀ y ∈ pre, y.cartId ≠ cartId) ∧
      item.cartId = cartId ∧
      (n ≤ 100 →
        s1.cart = pre ++ { item with quantity := n } :: post ∧
        s1.notifications = s.notifications) ∧
      (100 < n →
        s1.cart = pre ++ { item with quantity := 100 } :: post ∧
        s1.notifications
          = s.notifications ++ [⟨"Maximum quantity limit is 100 items!", .error⟩]) :=
  ShoppingCart.updateQuantity_parsed s cartId _ querySelector item n hfind
    (parseInt_intCast n (by omega)) h1

/-- Instance of the integer update: 250 is clamped to 100. -/
theorem ShoppingCart.updateQuantity_integer_witness :
    ∃ pre post s1,
      mugStore.updateQuantity "c1" (JSValue.number (250 : Int)) pageWithoutRows
        = Except.ok s1 ∧
      mugStore.cart = pre ++ mugLine :: post ∧ (∀ y ∈ pre, y.cartId ≠ "c1") ∧
      mugLine.cartId = "c1" ∧
      ((250 : Int) ≤ 100 →
        s1.cart = pre ++ { mugLine with quantity := 250 } :: post ∧
        s1.notifications = mugStore.notifications) ∧
      (100 < (250 : Int) →
        s1.cart = pre ++ { mugLine with quantity := 100 } :: post ∧
        s1.notifications
          = mugStore.notifications ++ [⟨"Maximum quantity limit is 100 items!", .error⟩]) :=
  ShoppingCart.updateQuantity_integer mugStore "c1" pageWithoutRows mugLine 250 (by decide)
    (by decide) (by decide)

/-- C8 (failing input): the number 1e21 is above 100, but `Number::toString`
prints it as `1e+21` and `parseInt` reads 1, so the call returns with the line at
quantity 1, not 100, and no warning is reported. -/
theorem ShoppingCart.updateQuantity_exponent_form :
    parseInt (JSValue.number 1000000000000000000000) = some 1 ∧
      ∃ s1, mugStore.updateQuantity "c1" (JSValue.number 1000000000000000000000)
          pageWithoutRows = Except.ok s1 ∧
        s1.cart = [{ mugLine with quantity := 1 }] ∧
        s1.notifications = [] :=
  ⟨by decide, _, rfl, by decide, by decide⟩

/-- C9 (counterexample): 2.5 is not a positive integer, yet `updateQuantity`
returns with the line kept and its quantity set to 2, because `parseInt` truncates. -/
theorem ShoppingCart.updateQuantity_fraction_kept :
    parseInt (JSValue.number 2.5) = some 2 ∧
      ∃ s1, mugStore.updateQuantity "c1" (JSValue.number 2.5) pageWithoutRows
          = Except.ok s1 ∧
        s1.cart = [{ mugLine with quantity := 2 }] := by
  have h : (2.5 : ℚ) = mkRat 5 2 := by norm_num
  rw [h]
  exact ⟨by decide, _, rfl, by decide⟩

/-- C9 (amended): for a cart with a line carrying the handle, and a new quantity
that `parseInt` reads as NaN or as an integer <= 0 (zero, negative, non-numeric),
`updateQuantity` goes through `removeFromCart`: when `querySelector` rejects the
selector text built from the handle it throws a SyntaxError and the cart keeps the
line; whenever the selector text is accepted it returns, every line carrying that
handle is removed, the other lines are kept in their order, and the cart gets
shorter. -/
theorem ShoppingCart.updateQuantity_removes (s : ShoppingCart) (cartId : String)
    (quantity : JSValue) (querySelector : String → RowQuery)
    (hline : ∃ item ∈ s.cart, item.cartId = cartId)
    (hq : parseInt quantity = none ∨ ∃ n, parseInt quantity = some n ∧ n ≤ 0) :
    (querySelector (rowSelector cartId) = RowQuery.syntaxError →
        s.updateQuantity cartId quantity querySelector = Except.error "SyntaxError" ∧
        (CartCall.updateQuantity cartId quantity querySelector).run s = s) ∧
      (querySelector (rowSelector cartId) ≠ RowQuery.syntaxError →
        ∃ s1, s.updateQuantity cartId quantity querySelector = Except.ok s1 ∧
          (CartCall.updateQuantity cartId quantity querySelector).run s = s1 ∧
          s1.cart = s.cart.filter (fun item => item.cartId != cartId) ∧
          (∀ item ∈ s1.cart, item.cartId ≠ cartId) ∧
          s1.cart.length < s.cart.length) := by
  have hupd : s.updateQuantity cartId quantity querySelector
      = s.removeFromCart cartId querySelector := by
    unfold ShoppingCart.updateQuantity
    cases hfind : s.cart.find? (fun item => item.cartId == cartId) with
    | none =>
      obtain ⟨item, hmem, hid⟩ := hline
      have := List.find?_eq_none.mp hfind item hmem
      simp [hid] at this
    | some item =>
      rcases hq with hq | ⟨n, hq, hn⟩
      · simp only [hq]
      · simp only [hq, hn, if_true]
  have hsome : s.cart.find? (fun item => item.cartId == cartId) ≠ none := by
    obtain ⟨item, hmem, hid⟩ := hline
    intro hfind
    have := List.find?_eq_none.mp hfind item hmem
    simp [hid] at this
  refine ⟨?_, ?_⟩
  · intro hsel
    rcases ShoppingCart.removeFromCart_cases s cartId querySelector with
      ⟨hfind, _⟩ | ⟨_, _, hr⟩ | ⟨_, _, _, hq2, _⟩
    · exact absurd hfind hsome
    · exact ⟨hupd.trans hr, by simp [CartCall.run, hupd, hr, stateAfter]⟩
    · exact absurd hsel hq2
  · intro hsel
    rcases ShoppingCart.removeFromCart_cases s cartId querySelector with
      ⟨hfind, _⟩ | ⟨_, hq2, _⟩ | ⟨item, message, _, _, hr⟩
    · exact absurd hfind hsome
    · exact absurd hq2 hsel
    · refine ⟨_, hupd.trans hr, by simp [CartCall.run, hupd, hr, stateAfter], rfl, ?_, ?_⟩
      · intro item hitem
        have := (List.mem_filter.mp hitem).2
        simpa [bne] using this
      · obtain ⟨item, hmem, hid⟩ := hline
        apply List.length_filter_lt_length_iff_exists.mpr
        exact ⟨item, hmem, by simp [bne, hid]⟩

/-- Instances of the removal by update: a non-numeric text removes the line, and
on a handle whose selector text is rejected the call throws and the line stays. -/
theorem ShoppingCart.updateQuantity_removes_witness :
    (∃ s1, mugStore.updateQuantity "c1" (JSValue.string "none") pageWithRows = Except.ok s1 ∧
        s1.cart = mugStore.cart.filter (fun item => item.cartId != "c1") ∧
        s1.cart.length < mugStore.cart.length) ∧
      quotedStore.updateQuantity quotedHandle (JSValue.number 0) strictPage
        = Except.error "SyntaxError" ∧
      (CartCall.updateQuantity quotedHandle (JSValue.number 0) strictPage).run quotedStore
        = quotedStore :=
  ⟨((ShoppingCart.updateQuantity_removes mugStore "c1" (JSValue.string "none") pageWithRows
      ⟨mugLine, by decide, by decide⟩ (Or.inl (by decide))).2 (by decide)).imp
      (fun _ h => ⟨h.1, h.2.2.1, h.2.2.2.2⟩),
    ((ShoppingCart.updateQuantity_removes quotedStore quotedHandle (JSValue.number 0) strictPage
      ⟨_, List.mem_singleton.mpr rfl, rfl⟩ (Or.inr ⟨0, by decide, by decide⟩)).1
      (by decide)).1,
    ((ShoppingCart.updateQuantity_removes quotedStore quotedHandle (JSValue.number 0) strictPage
      ⟨_, List.mem_singleton.mpr rfl, rfl⟩ (Or.inr ⟨0, by decide, by decide⟩)).1
      (by decide)).2⟩

/-! ## Frame of a merge -/

/-- C10: a successful merging `addToCart` (a line with the same id, size and
color exists and the sum is at most 100) replaces the first matching line by a
line that differs from it in the quantity only: handle, price, original price,
name, image, id, size, color and category are those of the existing line, every
other line and the order are unchanged, and the result depends neither on the
handle `generateId()` would return nor on the incoming product's price. -/
theorem ShoppingCart.addToCart_merge_frame (s : ShoppingCart) (product : Product)
    (newId name : String) (price : ℚ) (existingItem : CartItem) (q2 : Int)
    (hname : product.name = some name) (hne : name ≠ "")
    (hprice : product.price = some price) (hpos : 0 < price)
    (hq : parseInt product.quantity = some q2) (hq1 : 1 ≤ q2) (hq100 : q2 ≤ 100)
    (hfind : s.cart.find? (ShoppingCart.sameLine product) = some existingItem)
    (hsum : existingItem.quantity + q2 ≤ 100) :
    ∃ pre post line, s.cart = pre ++ existingItem :: post ∧
      (∀ y ∈ pre, ShoppingCart.sameLine product y = false) ∧
      (s.addToCart (some product) newId).2.cart = pre ++ line :: post ∧
      line.quantity = existingItem.quantity + q2 ∧
      line.cartId = existingItem.cartId ∧ line.price = existingItem.price ∧
      line.originalPrice = existingItem.originalPrice ∧ line.name = existingItem.name ∧
      line.image = existingItem.image ∧ line.id = existingItem.id ∧
      line.size = existingItem.size ∧ line.color = existingItem.color ∧
      line.category = existingItem.category ∧
      (∀ otherId : String, (s.addToCart (some product) otherId).2.cart
        = (s.addToCart (some product) newId).2.cart) ∧
      (∀ otherPrice : ℚ, 0 < otherPrice →
        (s.addToCart (some { product with price := some otherPrice }) newId).2.cart
          = (s.addToCart (some product) newId).2.cart) := by
  have hq' : parseIntOr product.quantity 1 = q2 :=
    parseIntOr_of_pos _ _ _ hq (by omega)
  have hle : ¬ existingItem.quantity + q2 > 100 := by omega
  obtain ⟨pre, post, hs, hpre, hitem⟩ := find?_split _ s.cart existingItem hfind
  have hcart : ∀ otherId : String, (s.addToCart (some product) otherId).2.cart
      = pre ++ { existingItem with quantity := existingItem.quantity + q2 } :: post := by
    intro otherId
    rw [ShoppingCart.addToCart_valid s product otherId name price q2 hname hne hprice hpos
      hq' hq1 hq100, hfind]
    simp only [hle, if_false, ShoppingCart.saveCart, ShoppingCart.showNotification,
      ShoppingCart.setCart]
    rw [hs]
    exact updateFirst_append _ _ pre post existingItem hpre hitem
  refine ⟨pre, post, { existingItem with quantity := existingItem.quantity + q2 }, hs, hpre,
    hcart newId, rfl, rfl, rfl, rfl, rfl, rfl, rfl, rfl, rfl, rfl, ?_, ?_⟩
  · intro otherId
    rw [hcart otherId, hcart newId]
  · intro otherPrice hother
    rw [hcart newId]
    rw [ShoppingCart.addToCart_valid s { product with price := some otherPrice } newId name
      otherPrice q2 hname hne rfl hother hq' hq1 hq100]
    have hfind' : s.cart.find? (ShoppingCart.sameLine { product with price := some otherPrice })
        = some existingItem := hfind
    rw [hfind']
    simp only [hle, if_false, ShoppingCart.saveCart, ShoppingCart.showNotification,
      ShoppingCart.setCart]
    rw [hs]
    exact updateFirst_append _ _ pre post existingItem hpre hitem

/-- Instance of the merge frame on the sample store. -/
theorem ShoppingCart.addToCart_merge_frame_witness :
    ∃ pre post line, mugStore.cart = pre ++ mugLine :: post ∧
      (∀ y ∈ pre, ShoppingCart.sameLine mug y = false) ∧
      (mugStore.addToCart (some mug) "c2").2.cart = pre ++ line :: post ∧
      line.quantity = mugLine.quantity + 3 ∧
      line.cartId = mugLine.cartId ∧ line.price = mugLine.price ∧
      line.originalPrice = mugLine.originalPrice ∧ line.name = mugLine.name ∧
      line.image = mugLine.image ∧ line.id = mugLine.id ∧
      line.size = mugLine.size ∧ line.color = mugLine.color ∧
      line.category = mugLine.category ∧
      (∀ otherId : String, (mugStore.addToCart (some mug) otherId).2.cart
        = (mugStore.addToCart (some mug) "c2").2.cart) ∧
      (∀ otherPrice : ℚ, 0 < otherPrice →
        (mugStore.addToCart (some { mug with price := some otherPrice }) "c2").2.cart
          = (mugStore.addToCart (some mug) "c2").2.cart) :=
  ShoppingCart.addToCart_merge_frame mugStore mug "c2" "Mug" 25 mugLine 3 rfl (by decide) rfl
    (by norm_num) (by decide) (by decide) (by decide) (by decide) (by decide)

/-! ## Failed calls leave no trace -/

theorem SameStore.showNotification_left (s : ShoppingCart) (message : String)
    (type : NotificationType) : SameStore (s.showNotification message type) s :=
  ⟨rfl, rfl⟩

theorem ShoppingCart.addToCart_sameStore (s t : ShoppingCart) (product : Option Product)
    (newId : String) (h : SameStore s t) :
    (s.addToCart product newId).1 = (t.addToCart product newId).1 ∧
      SameStore (s.addToCart product newId).2 (t.addToCart product newId).2 := by
  obtain ⟨sc, ss, sn⟩ := s
  obtain ⟨tc, ts, tn⟩ := t
  obtain ⟨hc, hs⟩ := h
  simp only at hc hs
  subst hc hs
  unfold ShoppingCart.addToCart SameStore
  cases product with
  | none => exact ⟨rfl, rfl, rfl⟩
  | some p =>
    simp only
    split
    · split
      · exact ⟨rfl, rfl, rfl⟩
      · split
        · exact ⟨rfl, rfl, rfl⟩
        · split
          · exact ⟨rfl, rfl, rfl⟩
          · split
            · split
              · exact ⟨rfl, rfl, rfl⟩
              · exact ⟨rfl, rfl, rfl⟩
            · exact ⟨rfl, rfl, rfl⟩
    · exact ⟨rfl, rfl, rfl⟩

theorem ShoppingCart.removeFromCart_sameStore (s t : ShoppingCart) (cartId : String)
    (querySelector : String → RowQuery) (h : SameStore s t) :
    SameStore (stateAfter s (s.removeFromCart cartId querySelector))
      (stateAfter t (t.removeFromCart cartId querySelector)) := by
  obtain ⟨sc, ss, sn⟩ := s
  obtain ⟨tc, ts, tn⟩ := t
  obtain ⟨hc, hs⟩ := h
  simp only at hc hs
  subst hc hs
  unfold ShoppingCart.removeFromCart SameStore stateAfter
  simp only
  cases sc.find? (fun item => item.cartId == cartId) with
  | none => exact ⟨rfl, rfl⟩
  | some item =>
    cases querySelector (rowSelector cartId) with
    | syntaxError => exact ⟨rfl, rfl⟩
    | row => exact ⟨rfl, rfl⟩
    | noRow => exact ⟨rfl, rfl⟩

theorem ShoppingCart.updateQuantity_sameStore (s t : ShoppingCart) (cartId : String)
    (quantity : JSValue) (querySelector : String → RowQuery) (h : SameStore s t) :
    SameStore (stateAfter s (s.updateQuantity cartId quantity querySelector))
      (stateAfter t (t.updateQuantity cartId quantity querySelector)) := by
  have hrem := ShoppingCart.removeFromCart_sameStore s t cartId querySelector h
  obtain ⟨hc, hs⟩ := h
  unfold ShoppingCart.updateQuantity
  rw [hc]
  cases t.cart.find? (fun item => item.cartId == cartId) with
  | none => exact ⟨hc, hs⟩
  | some item =>
    cases parseInt quantity with
    | none => exact hrem
    | some n =>
      simp only
      split
      · exact hrem
      · split
        · exact ⟨by simp [stateAfter, ShoppingCart.saveCart, ShoppingCart.setCart,
            ShoppingCart.showNotification, hc], by simp [stateAfter, ShoppingCart.saveCart,
            ShoppingCart.setCart, ShoppingCart.showNotification, hc]⟩
        · exact ⟨by simp [stateAfter, ShoppingCart.saveCart, ShoppingCart.setCart, hc],
            by simp [stateAfter, ShoppingCart.saveCart, ShoppingCart.setCart, hc]⟩

theorem CartCall.run_sameStore (s t : ShoppingCart) (call : CartCall) (h : SameStore s t) :
    call.returns s = call.returns t ∧ SameStore (call.run s) (call.run t) := by
  cases call with
  | addToCart product newId =>
    have := ShoppingCart.addToCart_sameStore s t product newId h
    exact ⟨by simp [CartCall.returns, this.1], this.2⟩
  | removeFromCart cartId querySelector =>
    exact ⟨rfl, ShoppingCart.removeFromCart_sameStore s t cartId querySelector h⟩
  | updateQuantity cartId quantity querySelector =>
    exact ⟨rfl, ShoppingCart.updateQuantity_sameStore s t cartId quantity querySelector h⟩
  | clearCart => exact ⟨rfl, rfl, rfl⟩

theorem runCalls_sameStore (s t : ShoppingCart) (calls : List CartCall) (h : SameStore s t) :
    runCallsReturns s calls = runCallsReturns t calls ∧
      SameStore (runCalls s calls) (runCalls t calls) := by
  induction calls generalizing s t with
  | nil => exact ⟨rfl, h⟩
  | cons call rest ih =>
    obtain ⟨hret, hrun⟩ := CartCall.run_sameStore s t call h
    obtain ⟨h1, h2⟩ := ih (call.run s) (call.run t) hrun
    exact ⟨by simp [runCallsReturns, hret, h1], h2⟩

/-- C11: whenever `addToCart` reports an error it returns false, the in-memory
cart and the value stored under `shoppingCart` are what they were before the call,
and every later sequence of calls returns the same values and produces the same
cart and the same stored value as if the failing call had not been made. -/
theorem ShoppingCart.addToCart_error_harmless (s : ShoppingCart) (product : Option Product)
    (newId : String)
    (h : ∃ message, (s.addToCart product newId).2.notifications
      = s.notifications ++ [⟨message, .error⟩]) :
    (s.addToCart product newId).1 = false ∧
      (s.addToCart product newId).2.cart = s.cart ∧
      (s.addToCart product newId).2.stored = s.stored ∧
      ∀ calls : List CartCall,
        runCallsReturns (s.addToCart product newId).2 calls = runCallsReturns s calls ∧
        (runCalls (s.addToCart product newId).2 calls).cart = (runCalls s calls).cart ∧
        (runCalls (s.addToCart product newId).2 calls).stored = (runCalls s calls).stored := by
  obtain ⟨message, hm⟩ := h
  have hret : (s.addToCart product newId).1 = false := by
    rcases ShoppingCart.addToCart_cases s product newId with
      ⟨m, hc⟩ | ⟨_, _, _, _, m, _, _, _, _, _, _, _, hc⟩ | ⟨_, _, _, m, _, _, _, _, _, _, hc⟩
    · rw [hc]
    · rw [hc] at hm
      simp [ShoppingCart.saveCart, ShoppingCart.showNotification, ShoppingCart.setCart] at hm
    · rw [hc] at hm
      simp [ShoppingCart.saveCart, ShoppingCart.showNotification, ShoppingCart.setCart] at hm
  obtain ⟨hcart, hstored, _⟩ := ShoppingCart.addToCart_false_frame s product newId hret
  refine ⟨hret, hcart, hstored, ?_⟩
  intro calls
  obtain ⟨h1, h2, h3⟩ := runCalls_sameStore (s.addToCart product newId).2 s calls
    ⟨hcart, hstored⟩
  exact ⟨h1, h2, h3⟩

/-- Instance of the harmless-error theorem: 101 mugs are refused. -/
theorem ShoppingCart.addToCart_error_harmless_witness :
    (mugStore.addToCart (some mugTooMany) "c2").1 = false ∧
      (mugStore.addToCart (some mugTooMany) "c2").2.cart = mugStore.cart ∧
      (mugStore.addToCart (some mugTooMany) "c2").2.stored = mugStore.stored ∧
      ∀ calls : List CartCall,
        runCallsReturns (mugStore.addToCart (some mugTooMany) "c2").2 calls
          = runCallsReturns mugStore calls ∧
        (runCalls (mugStore.addToCart (some mugTooMany) "c2").2 calls).cart
          = (runCalls mugStore calls).cart ∧
        (runCalls (mugStore.addToCart (some mugTooMany) "c2").2 calls).stored
          = (runCalls mugStore calls).stored :=
  ShoppingCart.addToCart_error_harmless mugStore (some mugTooMany) "c2"
    ⟨"Invalid quantity! Please enter a value between 1 and 100.", by decide⟩

/-! ## Loading from localStorage -/

/-- C12 (counterexample): with the text `[oops` stored, which `JSON.parse`
rejects, both `loadCart` and `loadOrderHistory` end in the SyntaxError of
`JSON.parse` instead of the empty sequence. -/
theorem load_corrupt_raises :
    isJSONText "[oops" = false ∧
      ShoppingCart.loadCart (some (StoredCart.corrupt "[oops" rfl))
        = Except.error "SyntaxError" ∧
      OrderTracking.loadOrderHistory (some (StoredLedger.corrupt "[oops" rfl))
        = Except.error "SyntaxError" :=
  ⟨rfl, rfl, rfl⟩

/-- C12 (amended): loading the cart or the order history yields the empty
sequence, without an error, when the storage key is missing or holds the empty
text; for every other stored text that `JSON.parse` rejects, the load ends in the
SyntaxError of `JSON.parse`. The texts `[]` and `null` are JSON and are not among
them: the first is the stored form of the empty sequence. -/
theorem load_missing_or_corrupt (text : String) (h : isJSONText text = false) :
    ShoppingCart.loadCart none = Except.ok [] ∧
      OrderTracking.loadOrderHistory none = Except.ok [] ∧
      (text = "" →
        ShoppingCart.loadCart (some (StoredCart.corrupt text h)) = Except.ok [] ∧
        OrderTracking.loadOrderHistory (some (StoredLedger.corrupt text h)) = Except.ok []) ∧
      (text ≠ "" →
        ShoppingCart.loadCart (some (StoredCart.corrupt text h))
          = Except.error "SyntaxError" ∧
        OrderTracking.loadOrderHistory (some (StoredLedger.corrupt text h))
          = Except.error "SyntaxError") ∧
      isJSONText "[]" = true ∧ isJSONText "null" = true ∧
      ShoppingCart.loadCart (some (StoredCart.json [])) = Except.ok [] ∧
      OrderTracking.loadOrderHistory (some (StoredLedger.json [])) = Except.ok [] := by
  refine ⟨rfl, rfl, ?_, ?_, by decide, by decide, rfl, rfl⟩
  · intro h0
    simp [ShoppingCart.loadCart, OrderTracking.loadOrderHistory, h0]
  · intro h0
    simp [ShoppingCart.loadCart, OrderTracking.loadOrderHistory, h0]

/-- Instances of the loading theorem: the empty text and the text `not json`. -/
theorem load_missing_or_corrupt_witness :
    (ShoppingCart.loadCart (some (StoredCart.corrupt "" rfl)) = Except.ok [] ∧
        OrderTracking.loadOrderHistory (some (StoredLedger.corrupt "" rfl)) = Except.ok []) ∧
      (ShoppingCart.loadCart (some (StoredCart.corrupt "not json" rfl))
          = Except.error "SyntaxError" ∧
        OrderTracking.loadOrderHistory (some (StoredLedger.corrupt "not json" rfl))
          = Except.error "SyntaxError") :=
  ⟨(load_missing_or_corrupt "" rfl).2.2.1 rfl,
    (load_missing_or_corrupt "not json" rfl).2.2.2.1 (by decide)⟩

/-! ## Order numbers -/

theorem digitsLE_take (k : Nat) : ∀ (fuel n : Nat), n ≤ fuel → (k = 0 ∨ 10 ^ (k - 1) ≤ n) →
    (digitsLE fuel n).take k = lastDigits k n := by
  induction k with
  | zero => intro fuel n _ _; simp [lastDigits]
  | succ k ih =>
    intro fuel n hfuel hk
    have hn : 10 ^ k ≤ n := by
      rcases hk with hk | hk
      · omega
      · simpa using hk
    have hpos : 0 < n := lt_of_lt_of_le (by positivity) hn
    cases fuel with
    | zero => omega
    | succ fuel =>
      have hne : n ≠ 0 := by omega
      simp only [digitsLE, hne, if_false, List.take_succ_cons, lastDigits]
      congr 1
      apply ih
      · omega
      · cases k with
        | zero => exact Or.inl rfl
        | succ k =>
          right
          simp only [Nat.add_sub_cancel]
          rw [pow_succ] at hn
          omega

theorem lastDigits_length (k n : Nat) : (lastDigits k n).length = k := by
  induction k generalizing n with
  | zero => rfl
  | succ k ih => simp [lastDigits, ih]

theorem lastDigits_lt (k n : Nat) : ∀ d ∈ lastDigits k n, d < 10 := by
  induction k generalizing n with
  | zero => intro d hd; simp [lastDigits] at hd
  | succ k ih =>
    intro d hd
    simp only [lastDigits, List.mem_cons] at hd
    rcases hd with rfl | hd
    · omega
    · exact ih _ d hd

theorem mod_pow_succ_split (k n : Nat) :
    n % 10 ^ (k + 1) = n % 10 + 10 * (n / 10 % 10 ^ k) := by
  rw [pow_succ', Nat.mod_mul]

theorem ofDigits_lastDigits (k n : Nat) : Nat.ofDigits 10 (lastDigits k n) = n % 10 ^ k := by
  induction k generalizing n with
  | zero => simp [lastDigits, Nat.mod_one]
  | succ k ih =>
    simp only [lastDigits, Nat.ofDigits_cons, ih, mod_pow_succ_split]

theorem lastDigits_eq_iff (k n m : Nat) :
    lastDigits k n = lastDigits k m ↔ n % 10 ^ k = m % 10 ^ k := by
  induction k generalizing n m with
  | zero => simp [lastDigits, Nat.mod_one]
  | succ k ih =>
    simp only [lastDigits, List.cons.injEq, ih, mod_pow_succ_split]
    constructor
    · rintro ⟨h1, h2⟩
      rw [h1, h2]
    · intro h
      have hn : n % 10 < 10 := Nat.mod_lt _ (by norm_num)
      have hm : m % 10 < 10 := Nat.mod_lt _ (by norm_num)
      omega


theorem orderNumberAt_eq (now : Nat) (h : 10 ^ 7 ≤ now) :
    orderNumberAt now = "ORD-" ++ String.mk (((lastDigits 8 now).reverse).map digitChar) := by
  have hne : now ≠ 0 := by
    have : 0 < 10 ^ 7 := by norm_num
    omega
  have htake := digitsLE_take 8 now now le_rfl (Or.inr (by simpa using h))
  have hlen : 8 ≤ (digitsLE now now).length := by
    have := congrArg List.length htake
    rw [lastDigits_length, List.length_take] at this
    omega
  unfold orderNumberAt decimalText sliceLast8
  simp only [hne, if_false, List.length_map, List.length_reverse]
  rw [← htake, ← List.map_drop, List.reverse_take]


theorem digitChar_injective : ∀ d, d < 10 → ∀ e, e < 10 → digitChar d = digitChar e → d = e := by
  decide

theorem map_digitChar_injective (ds es : List Nat) (hd : ∀ d ∈ ds, d < 10)
    (he : ∀ e ∈ es, e < 10) (h : ds.map digitChar = es.map digitChar) : ds = es := by
  induction ds generalizing es with
  | nil =>
    cases es with
    | nil => rfl
    | cons e es => simp at h
  | cons d ds ih =>
    cases es with
    | nil => simp at h
    | cons e es =>
      simp only [List.map_cons, List.cons.injEq] at h
      have hde := digitChar_injective d (hd d (by simp)) e (he e (by simp)) h.1
      have := ih es (fun x hx => hd x (by simp [hx])) (fun x hx => he x (by simp [hx])) h.2
      rw [hde, this]

/-- Two order numbers built from timestamps of at least eight digits coincide
exactly when the timestamps agree modulo 10^8. -/
theorem orderNumberAt_eq_iff (t1 t2 : Nat) (h1 : 10 ^ 7 ≤ t1) (h2 : 10 ^ 7 ≤ t2) :
    orderNumberAt t1 = orderNumberAt t2 ↔ t1 % 10 ^ 8 = t2 % 10 ^ 8 := by
  rw [orderNumberAt_eq t1 h1, orderNumberAt_eq t2 h2, ← lastDigits_eq_iff]
  constructor
  · intro h
    have hdata := congrArg String.data h
    simp only [String.data_append, List.append_cancel_left_eq] at hdata
    have hrev := map_digitChar_injective _ _
      (fun d hd => lastDigits_lt 8 t1 d (List.mem_reverse.mp hd))
      (fun d hd => lastDigits_lt 8 t2 d (List.mem_reverse.mp hd)) hdata
    exact List.reverse_injective hrev
  · intro h
    rw [h]

theorem JSNumber.toJSON_toJSON (x : JSNumber) : x.toJSON.toJSON = x.toJSON := by
  cases x <;> rfl

theorem Order.toJSON_idempotent (order : Order) : order.toJSON.toJSON = order.toJSON := by
  simp [Order.toJSON, JSNumber.toJSON_toJSON]

/-- Orders read from storage are in JSON form. -/
theorem parseOrderHistory_fixed (stored : Option StoredLedger) (ledger : List Order)
    (h : parseOrderHistory stored = Except.ok ledger) :
    ledger.map Order.toJSON = ledger := by
  unfold parseOrderHistory at h
  split at h
  · cases h; rfl
  · cases h
    simp [List.map_map, Function.comp_def, Order.toJSON_idempotent]
  · split at h
    · cases h; rfl
    · cases h

/-- The ledger read back after an order in JSON form was appended to orders in
JSON form. -/
theorem parseOrderHistory_appended (ledger : List Order) (order : Order)
    (hfix : ledger.map Order.toJSON = ledger) :
    parseOrderHistory (some (StoredLedger.json (ledger ++ [order.toJSON])))
      = Except.ok (ledger ++ [order.toJSON]) := by
  simp [parseOrderHistory, hfix, Order.toJSON_idempotent]

theorem Browser.ledger_appended (b : Browser) (ledger : List Order) (order : Order)
    (hfix : ledger.map Order.toJSON = ledger)
    (h : b.orderHistory = some (StoredLedger.json (ledger ++ [order.toJSON]))) :
    b.ledger = ledger ++ [order.toJSON] := by
  unfold Browser.ledger
  rw [h, parseOrderHistory_appended ledger order hfix]

/-- The state `handleCheckout` produces when the cart is not empty, validation
passes (or there is no form) and the stored history parses to `ledger`. -/
theorem Browser.handleCheckout_success (b : Browser) (validation : Option ValidationResult)
    (customer : List (String × String)) (newId : String) (now : Nat) (date : Int)
    (ledger : List Order) (hcart : b.shop.cart ≠ [])
    (hvalid : ∀ v, validation = some v → v.isValid = true)
    (hledger : parseOrderHistory b.orderHistory = Except.ok ledger) :
    b.handleCheckout validation customer newId now date =
      { shop := ((b.shop.showNotification "Processing your order..." .info).clearCart
          ).showNotification
          ("Order #" ++ orderNumberAt now ++ " placed successfully! Redirecting...") .success
        orderHistory := some (StoredLedger.json
          (ledger ++ [(b.shop.newOrder customer newId now date).toJSON]))
        lastOrder := some (b.shop.newOrder customer newId now date).toJSON
        tracking := some (orderNumberAt now, strOr (customer.lookup "email") "") } := by
  have hlen : ¬ b.shop.cart.length = 0 := by
    intro h
    exact hcart (List.length_eq_zero.mp h)
  have hplace : (b.setShop (b.shop.showNotification "Processing your order..." .info)).placeOrder
      customer newId now date =
      { shop := ((b.shop.showNotification "Processing your order..." .info).clearCart
          ).showNotification
          ("Order #" ++ orderNumberAt now ++ " placed successfully! Redirecting...") .success
        orderHistory := some (StoredLedger.json
          (ledger ++ [(b.shop.newOrder customer newId now date).toJSON]))
        lastOrder := some (b.shop.newOrder customer newId now date).toJSON
        tracking := some (orderNumberAt now, strOr (customer.lookup "email") "") } := by
    simp only [Browser.placeOrder, Browser.setShop, hledger]
    rfl
  unfold Browser.handleCheckout
  simp only [hlen, if_false]
  cases validation with
  | none => exact hplace
  | some v =>
    have hv := hvalid v rfl
    simp only [hv, Bool.true_eq_false, if_false]
    exact hplace

/-! ## Checkout -/

/-- C13 (counterexample): two checkouts whose `Date.now()` values differ by 10^8 ms
leave a ledger of two orders that carry the same order number. -/
theorem Browser.handleCheckout_number_collision :
    twoCheckouts.ledger.map (fun order => order.orderNumber)
      = ["ORD-00000000", "ORD-00000000"] := by
  decide

/-- C13 (amended): the order a successful checkout appends gets the number built
from its creation timestamp alone, whatever the ledger holds; for timestamps of at
least eight digits it differs from the number built at another timestamp exactly
when the two timestamps differ modulo 10^8. -/
theorem Browser.handleCheckout_orderNumber (b : Browser)
    (validation : Option ValidationResult) (customer : List (String × String))
    (newId : String) (now : Nat) (date : Int) (ledger : List Order) (earlier : Nat)
    (hcart : b.shop.cart ≠ [])
    (hvalid : ∀ v, validation = some v → v.isValid = true)
    (hledger : parseOrderHistory b.orderHistory = Except.ok ledger)
    (hnow : 10 ^ 7 ≤ now) (hearlier : 10 ^ 7 ≤ earlier) :
    ∃ order, (b.handleCheckout validation customer newId now date).ledger = ledger ++ [order] ∧
      order.orderNumber = orderNumberAt now ∧
      (order.orderNumber ≠ orderNumberAt earlier ↔ now % 10 ^ 8 ≠ earlier % 10 ^ 8) := by
  rw [Browser.handleCheckout_success b validation customer newId now date ledger hcart hvalid
    hledger]
  refine ⟨(b.shop.newOrder customer newId now date).toJSON,
    Browser.ledger_appended _ ledger _ (parseOrderHistory_fixed _ _ hledger) rfl, rfl, ?_⟩
  exact not_congr (orderNumberAt_eq_iff now earlier hnow hearlier)

/-- Instance of the order-number theorem: one second after the first checkout the
number is a different one. -/
theorem Browser.handleCheckout_orderNumber_witness :
    ∃ order, (mugBrowser.handleCheckout none annForm "o1" 1700000001000 0).ledger
        = [] ++ [order] ∧
      order.orderNumber = orderNumberAt 1700000001000 ∧
      (order.orderNumber ≠ orderNumberAt 1700000000000 ↔
        1700000001000 % 10 ^ 8 ≠ 1700000000000 % 10 ^ 8) :=
  Browser.handleCheckout_orderNumber mugBrowser none annForm "o1" 1700000001000 0 []
    1700000000000 (by decide) (by simp) rfl (by norm_num) (by norm_num)

/-- C14 (counterexample): at `Date.now() = 1234567` the order number is `ORD-`
followed by seven digits only. -/
theorem Browser.handleCheckout_short_number :
    (mugBrowser.handleCheckout none annForm "o1" 1234567 1234567).lastOrder.map
      (fun order => order.orderNumber) = some "ORD-1234567" := by
  decide

/-- C14 (amended): for every creation timestamp of at least eight digits
(`Date.now() >= 10^7`), the order a successful checkout creates has the number
`ORD-` followed by exactly eight decimal digits, the last eight digits of the
timestamp. -/
theorem Browser.handleCheckout_number_digits (b : Browser)
    (validation : Option ValidationResult) (customer : List (String × String))
    (newId : String) (now : Nat) (date : Int) (ledger : List Order)
    (hcart : b.shop.cart ≠ [])
    (hvalid : ∀ v, validation = some v → v.isValid = true)
    (hledger : parseOrderHistory b.orderHistory = Except.ok ledger)
    (hnow : 10 ^ 7 ≤ now) :
    ∃ (order : Order) (ds : List Nat),
      (b.handleCheckout validation customer newId now date).lastOrder = some order ∧
      order.orderNumber = "ORD-" ++ String.mk (ds.map digitChar) ∧
      ds.length = 8 ∧ (∀ d ∈ ds, d < 10) ∧ Nat.ofDigits 10 ds.reverse = now % 10 ^ 8 := by
  rw [Browser.handleCheckout_success b validation customer newId now date ledger hcart hvalid
    hledger]
  refine ⟨(b.shop.newOrder customer newId now date).toJSON, (lastDigits 8 now).reverse, rfl,
    orderNumberAt_eq now hnow, ?_, ?_, ?_⟩
  · rw [List.length_reverse, lastDigits_length]
  · intro d hd
    exact lastDigits_lt 8 now d (List.mem_reverse.mp hd)
  · rw [List.reverse_reverse, ofDigits_lastDigits]

/-- Instance of the digits theorem at `Date.now() = 1762390123456`. -/
theorem Browser.handleCheckout_number_digits_witness :
    ∃ (order : Order) (ds : List Nat),
      (mugBrowser.handleCheckout none annForm "o1" 1762390123456 0).lastOrder = some order ∧
      order.orderNumber = "ORD-" ++ String.mk (ds.map digitChar) ∧
      ds.length = 8 ∧ (∀ d ∈ ds, d < 10) ∧
      Nat.ofDigits 10 ds.reverse = 1762390123456 % 10 ^ 8 :=
  Browser.handleCheckout_number_digits mugBrowser none annForm "o1" 1762390123456 0 []
    (by decide) (by simp) rfl (by norm_num)

/-- C15: a successful checkout on a stored ledger L persists L followed by
exactly one new order: the earlier orders keep their positions, the length grows
by one, and the value stored under `lastOrder` is the appended order. -/
theorem Browser.handleCheckout_appends (b : Browser)
    (validation : Option ValidationResult) (customer : List (String × String))
    (newId : String) (now : Nat) (date : Int) (ledger : List Order)
    (hcart : b.shop.cart ≠ [])
    (hvalid : ∀ v, validation = some v → v.isValid = true)
    (hledger : parseOrderHistory b.orderHistory = Except.ok ledger) :
    ∃ order,
      (b.handleCheckout validation customer newId now date).orderHistory
        = some (StoredLedger.json (ledger ++ [order])) ∧
      (b.handleCheckout validation customer newId now date).lastOrder = some order ∧
      (b.handleCheckout validation customer newId now date).ledger.length
        = ledger.length + 1 ∧
      (∀ i, i < ledger.length →
        (b.handleCheckout validation customer newId now date).ledger[i]? = ledger[i]?) ∧
      (b.handleCheckout validation customer newId now date).ledger[ledger.length]?
        = some order := by
  rw [Browser.handleCheckout_success b validation customer newId now date ledger hcart hvalid
    hledger]
  have hread := Browser.ledger_appended
    { shop := ((b.shop.showNotification "Processing your order..." .info).clearCart
        ).showNotification
        ("Order #" ++ orderNumberAt now ++ " placed successfully! Redirecting...") .success
      orderHistory := some (StoredLedger.json
        (ledger ++ [(b.shop.newOrder customer newId now date).toJSON]))
      lastOrder := some (b.shop.newOrder customer newId now date).toJSON
      tracking := some (orderNumberAt now, strOr (customer.lookup "email") "") }
    ledger (b.shop.newOrder customer newId now date)
    (parseOrderHistory_fixed _ _ hledger) rfl
  refine ⟨(b.shop.newOrder customer newId now date).toJSON, rfl, rfl, ?_, ?_, ?_⟩
  · rw [hread]
    simp
  · intro i hi
    rw [hread]
    simp [List.getElem?_append_left hi]
  · rw [hread]
    simp

/-- Instance of the append theorem: a second checkout on a ledger of one order. -/
theorem Browser.handleCheckout_appends_witness :
    ∃ order,
      (((mugBrowser.handleCheckout none annForm "o1" 1700000000000 1700000000000).call
          (CartCall.addToCart (some mug) "c2")).handleCheckout
          (some ⟨true, "Please fix the following errors:"⟩) annForm "o2" 1700000500000
          1700000500000).orderHistory
        = some (StoredLedger.json
            ([(mugStore.newOrder annForm "o1" 1700000000000 1700000000000).toJSON]
              ++ [order])) :=
  (Browser.handleCheckout_appends
    ((mugBrowser.handleCheckout none annForm "o1" 1700000000000 1700000000000).call
      (CartCall.addToCart (some mug) "c2"))
    (some ⟨true, "Please fix the following errors:"⟩) annForm "o2" 1700000500000
    1700000500000 [(mugStore.newOrder annForm "o1" 1700000000000 1700000000000).toJSON]
    (by decide) (fun v h => by cases h; rfl)
    (parseOrderHistory_appended [] _ rfl)).imp (fun _ h => h.1)

/-- C16: the order a successful checkout creates from cart C has the items of C
in the same order, the status `pending`, and the subtotal, shipping, tax and total
of the fixed formula on C, computed in double arithmetic as on the cart page:
subtotal as `getSubtotal` adds the lines up, shipping 0 if subtotal > 100 and 10
otherwise, tax = subtotal * 0.08, total = subtotal + shipping + tax. What is stored
under `lastOrder` and appended to the ledger is the JSON form of this order, which
is the order itself when its four amounts are finite. -/
theorem Browser.handleCheckout_order (b : Browser)
    (validation : Option ValidationResult) (customer : List (String × String))
    (newId : String) (now : Nat) (date : Int) (ledger : List Order)
    (hcart : b.shop.cart ≠ [])
    (hvalid : ∀ v, validation = some v → v.isValid = true)
    (hledger : parseOrderHistory b.orderHistory = Except.ok ledger) :
    ∃ order : Order,
      (b.handleCheckout validation customer newId now date).lastOrder = some order.toJSON ∧
      (b.handleCheckout validation customer newId now date).ledger
        = ledger ++ [order.toJSON] ∧
      order.items = b.shop.cart ∧
      order.toJSON.items = b.shop.cart ∧
      order.subtotal = b.shop.cart.foldl
        (fun total item =>
          total + JSNumber.finite item.price * JSNumber.finite item.quantity) 0 ∧
      order.shipping = (if order.subtotal > 100 then 0 else 10) ∧
      order.tax = order.subtotal * 0.08 ∧
      order.total = order.subtotal + order.shipping + order.tax ∧
      order.subtotal = b.shop.updateCartTotals.subtotal ∧
      order.shipping = b.shop.updateCartTotals.shipping ∧
      order.tax = b.shop.updateCartTotals.tax ∧
      order.total = b.shop.updateCartTotals.total ∧
      order.status = "pending" ∧
      order.toJSON.status = "pending" ∧
      ((∃ x y z w, order.subtotal = JSNumber.finite x ∧ order.shipping = JSNumber.finite y ∧
          order.tax = JSNumber.finite z ∧ order.total = JSNumber.finite w) →
        order.toJSON = order) := by
  rw [Browser.handleCheckout_success b validation customer newId now date ledger hcart hvalid
    hledger]
  refine ⟨b.shop.newOrder customer newId now date, rfl,
    Browser.ledger_appended _ ledger _ (parseOrderHistory_fixed _ _ hledger) rfl,
    rfl, rfl, rfl, rfl, rfl, rfl, rfl, rfl, rfl, rfl, rfl, rfl, ?_⟩
  rintro ⟨x, y, z, w, hx, hy, hz, hw⟩
  simp only [Order.toJSON, hx, hy, hz, hw, JSNumber.toJSON]
  cases horder : b.shop.newOrder customer newId now date
  rw [horder] at hx hy hz hw
  simp only at hx hy hz hw
  simp only [hx, hy, hz, hw]

/-- Instance of the order theorem: three mugs at 25.00. -/
theorem Browser.handleCheckout_order_witness :
    ∃ order : Order,
      (mugBrowser.handleCheckout none annForm "o1" 1700000000000 1700000000000).lastOrder
        = some order.toJSON ∧
      order.items = mugBrowser.shop.cart ∧ order.status = "pending" ∧
      order.total = mugBrowser.shop.updateCartTotals.total :=
  (Browser.handleCheckout_order mugBrowser none annForm "o1" 1700000000000 1700000000000 []
    (by decide) (by simp) rfl).imp
    (fun _ h => ⟨h.1, h.2.2.1, h.2.2.2.2.2.2.2.2.2.2.2.2.1, h.2.2.2.2.2.2.2.2.2.2.2.1⟩)

theorem Browser.calls_orderHistory (b : Browser) (cs : List CartCall) :
    (b.calls cs).orderHistory = b.orderHistory ∧ (b.calls cs).lastOrder = b.lastOrder := by
  induction cs generalizing b with
  | nil => exact ⟨rfl, rfl⟩
  | cons c cs ih =>
    have := ih (b.call c)
    exact this

/-- C17: right after a successful checkout the live cart (and its stored copy) is
empty, and after any later sequence of `addToCart`, `updateQuantity`,
`removeFromCart` and `clearCart` calls the order in the stored ledger and the order
under `lastOrder` still list exactly the lines the cart had at checkout. -/
theorem Browser.handleCheckout_snapshot (b : Browser)
    (validation : Option ValidationResult) (customer : List (String × String))
    (newId : String) (now : Nat) (date : Int) (ledger : List Order)
    (hcart : b.shop.cart ≠ [])
    (hvalid : ∀ v, validation = some v → v.isValid = true)
    (hledger : parseOrderHistory b.orderHistory = Except.ok ledger) :
    (b.handleCheckout validation customer newId now date).shop.cart = [] ∧
      (b.handleCheckout validation customer newId now date).shop.stored
        = some (StoredCart.json []) ∧
      ∀ cs : List CartCall, ∃ order,
        ((b.handleCheckout validation customer newId now date).calls cs).ledger
          = ledger ++ [order] ∧
        ((b.handleCheckout validation customer newId now date).calls cs).lastOrder
          = some order ∧
        order.items = b.shop.cart := by
  refine ⟨?_, ?_, ?_⟩
  · rw [Browser.handleCheckout_success b validation customer newId now date ledger hcart
      hvalid hledger]
    rfl
  · rw [Browser.handleCheckout_success b validation customer newId now date ledger hcart
      hvalid hledger]
    rfl
  · intro cs
    obtain ⟨h1, h2⟩ := Browser.calls_orderHistory
      (b.handleCheckout validation customer newId now date) cs
    refine ⟨(b.shop.newOrder customer newId now date).toJSON, ?_, ?_, rfl⟩
    · apply Browser.ledger_appended _ ledger _ (parseOrderHistory_fixed _ _ hledger)
      rw [h1, Browser.handleCheckout_success b validation customer newId now date ledger
        hcart hvalid hledger]
    · rw [h2, Browser.handleCheckout_success b validation customer newId now date ledger
        hcart hvalid hledger]

/-- Instance of the snapshot theorem: after the checkout of three mugs, adding a
mug and changing its quantity leaves the stored order alone. -/
theorem Browser.handleCheckout_snapshot_witness :
    (mugBrowser.handleCheckout none annForm "o1" 1700000000000 1700000000000).shop.cart = [] ∧
      ∃ order,
        ((mugBrowser.handleCheckout none annForm "o1" 1700000000000 1700000000000).calls
          [CartCall.addToCart (some mug) "c2",
           CartCall.updateQuantity "c2" (JSValue.number 7) pageWithoutRows]).lastOrder
          = some order ∧
        order.items = [mugLine] :=
  ⟨(Browser.handleCheckout_snapshot mugBrowser none annForm "o1" 1700000000000 1700000000000 []
      (by decide) (by simp) rfl).1,
    ((Browser.handleCheckout_snapshot mugBrowser none annForm "o1" 1700000000000 1700000000000
      [] (by decide) (by simp) rfl).2.2 _).imp (fun _ h => ⟨h.2.1, h.2.2⟩)⟩

/-! ## Finding an order -/

/-- C18 (counterexample): the stored number `ord-90123456` equals the argument
`ORD-90123456` up to letter case, and the emails are equal, yet `getOrder` finds
nothing; it finds nothing even for the stored number itself. -/
theorem OrderTracking.getOrder_lowercase_number :
    lowerOrder.orderNumber = "ord-90123456" ∧
      asciiCase.toUpperCase lowerOrder.orderNumber = asciiCase.toUpperCase "ORD-90123456" ∧
      OrderTracking.getOrder asciiCase [lowerOrder] "ORD-90123456" "Ann@Example.com" = none ∧
      OrderTracking.getOrder asciiCase [lowerOrder] "ord-90123456" "Ann@Example.com" = none := by
  decide

/-- C18 (amended): for a history containing an order whose number N is in upper
case (as every number made by checkout is) and whose customer email is E,
`getOrder(N', E')` finds an order with number N whenever N' equals N up to letter
case and E' equals E up to letter case. -/
theorem OrderTracking.getOrder_case_insensitive (host : CaseMapping)
    (orderHistory : List Order) (order : Order) (customer : List (String × String))
    (storedEmail orderNumber email : String)
    (hmem : order ∈ orderHistory)
    (hcustomer : order.customer = some customer)
    (hemail : customer.lookup "email" = some storedEmail)
    (hupper : host.toUpperCase order.orderNumber = order.orderNumber)
    (hnumber : host.toUpperCase orderNumber = host.toUpperCase order.orderNumber)
    (haddress : host.toLowerCase email = host.toLowerCase storedEmail) :
    ∃ found, OrderTracking.getOrder host orderHistory orderNumber email = some found ∧
      found ∈ orderHistory ∧ found.orderNumber = order.orderNumber := by
  have hmatch : OrderTracking.orderMatches host orderNumber email order = true := by
    simp [OrderTracking.orderMatches, hcustomer, hemail, hnumber, hupper, haddress]
  cases hfind : OrderTracking.getOrder host orderHistory orderNumber email with
  | none =>
    have := List.find?_eq_none.mp hfind order hmem
    simp [hmatch] at this
  | some found =>
    refine ⟨found, rfl, List.mem_of_find?_eq_some hfind, ?_⟩
    have hfound := List.find?_some hfind
    simp only [OrderTracking.orderMatches, Bool.and_eq_true, beq_iff_eq] at hfound
    rw [hfound.1, hnumber, hupper]

/-- Instance of the case-insensitive lookup: lower-case number, upper-case email. -/
theorem OrderTracking.getOrder_case_insensitive_witness :
    ∃ found, OrderTracking.getOrder asciiCase [anonymousOrder, annOrder] "ord-90123456"
        "ANN@EXAMPLE.COM" = some found ∧
      found ∈ [anonymousOrder, annOrder] ∧ found.orderNumber = annOrder.orderNumber :=
  OrderTracking.getOrder_case_insensitive asciiCase [anonymousOrder, annOrder] annOrder annForm
    "Ann@Example.com" "ord-90123456" "ANN@EXAMPLE.COM" (by decide) rfl (by decide) (by decide)
    (by decide) (by decide)

/-- The history `loadOrderHistory` produces from stored orders is in
non-increasing date order. -/
theorem OrderTracking.loadOrderHistory_sorted (orders : List Order) :
    ∃ loaded, OrderTracking.loadOrderHistory (some (StoredLedger.json orders)) = Except.ok loaded ∧
      List.Sorted (fun a b => b.date ≤ a.date) loaded :=
  ⟨_, rfl, List.sorted_insertionSort _ (orders.map Order.toJSON)⟩

/-- The predicate of `getOrder` holds of an order exactly when its number is the
upper-cased argument and its customer has an email that equals the argument once
both are lower-cased. -/
theorem OrderTracking.orderMatches_iff (host : CaseMapping) (orderNumber email : String)
    (o : Order) :
    OrderTracking.orderMatches host orderNumber email o = true ↔
      (o.orderNumber = host.toUpperCase orderNumber ∧
        ∃ customer stored, o.customer = some customer ∧
          customer.lookup "email" = some stored ∧
          host.toLowerCase stored = host.toLowerCase email) := by
  unfold OrderTracking.orderMatches
  cases hc : o.customer with
  | none => simp
  | some customer =>
    cases hl : customer.lookup "email" with
    | none => simp [hl]
    | some stored => simp [hl]

/-- C19: on the loaded history, which is in date-descending order, `getOrder`
returns the first order that matches both fields, where an order matches when its
number is the upper-cased `orderNumber` argument and its customer has an email
equal to the `email` argument once both are lower-cased: the orders before the
returned one fail on the number or on the email. It returns `undefined` exactly
when no order of the history matches both fields, it returns no order whose number
differs from the upper-cased argument and no order whose email differs, and an
order without a customer or without a customer email is never returned. -/
theorem OrderTracking.getOrder_first_match (host : CaseMapping) (orders : List Order)
    (orderNumber email : String) :
    ∃ loaded, OrderTracking.loadOrderHistory (some (StoredLedger.json orders)) = Except.ok loaded ∧
      List.Sorted (fun a b => b.date ≤ a.date) loaded ∧
      (∀ order, OrderTracking.getOrder host loaded orderNumber email = some order →
        ∃ before after, loaded = before ++ order :: after ∧
          (∀ o ∈ before, ¬ (o.orderNumber = host.toUpperCase orderNumber ∧
            ∃ customer stored, o.customer = some customer ∧
              customer.lookup "email" = some stored ∧
              host.toLowerCase stored = host.toLowerCase email)) ∧
          order.orderNumber = host.toUpperCase orderNumber ∧
          ∃ customer stored, order.customer = some customer ∧
            customer.lookup "email" = some stored ∧
            host.toLowerCase stored = host.toLowerCase email) ∧
      (OrderTracking.getOrder host loaded orderNumber email = none ↔
        ∀ o ∈ loaded, ¬ (o.orderNumber = host.toUpperCase orderNumber ∧
          ∃ customer stored, o.customer = some customer ∧
            customer.lookup "email" = some stored ∧
            host.toLowerCase stored = host.toLowerCase email)) ∧
      (∀ (history : List Order) (o : Order),
        OrderTracking.getOrder host history orderNumber email = some o →
          o ∈ history ∧ o.orderNumber = host.toUpperCase orderNumber ∧
          o.customer ≠ none ∧
          ∀ customer, o.customer = some customer →
            ∃ stored, customer.lookup "email" = some stored ∧
              host.toLowerCase stored = host.toLowerCase email) := by
  obtain ⟨loaded, hload, hsorted⟩ := OrderTracking.loadOrderHistory_sorted orders
  refine ⟨loaded, hload, hsorted, ?_, ?_, ?_⟩
  · intro order hfind
    obtain ⟨before, after, hsplit, hbefore, hmatch⟩ := find?_split _ loaded order hfind
    refine ⟨before, after, hsplit, ?_, (OrderTracking.orderMatches_iff _ _ _ _).mp hmatch⟩
    intro o ho hcon
    have := hbefore o ho
    rw [(OrderTracking.orderMatches_iff _ _ _ _).mpr hcon] at this
    exact Bool.noConfusion this
  · unfold OrderTracking.getOrder
    rw [List.find?_eq_none]
    constructor
    · intro h o ho hcon
      exact h o ho ((OrderTracking.orderMatches_iff _ _ _ _).mpr hcon)
    · intro h o ho hcon
      exact h o ho ((OrderTracking.orderMatches_iff _ _ _ _).mp hcon)
  · intro history o hfind
    have hmem := List.mem_of_find?_eq_some hfind
    obtain ⟨hnumber, customer, stored, hc, hl, he⟩ :=
      (OrderTracking.orderMatches_iff _ _ _ _).mp (List.find?_some hfind)
    refine ⟨hmem, hnumber, ?_, ?_⟩
    · rw [hc]; exact Option.some_ne_none customer
    · intro customer2 hc2
      rw [hc] at hc2
      cases hc2
      exact ⟨stored, hl, he⟩

/-- Instance of the first-match theorem: of two matching orders the later one,
which the loaded history lists first, is returned, and it carries the number and
the email asked for. -/
theorem OrderTracking.getOrder_first_match_witness :
    OrderTracking.getOrder asciiCase
        ([anonymousOrder, annOrder, laterOrder].insertionSort (fun a b => b.date ≤ a.date))
        "ORD-90123456" "ann@example.com" = some laterOrder ∧
      laterOrder ∈ [anonymousOrder, annOrder, laterOrder].insertionSort
        (fun a b => b.date ≤ a.date) ∧
      laterOrder.orderNumber = asciiCase.toUpperCase "ORD-90123456" ∧
      laterOrder.customer ≠ none :=
  ⟨by decide,
    ((OrderTracking.getOrder_first_match asciiCase [anonymousOrder, annOrder, laterOrder]
      "ORD-90123456" "ann@example.com").choose_spec.2.2.2.2
      ([anonymousOrder, annOrder, laterOrder].insertionSort (fun a b => b.date ≤ a.date))
      laterOrder (by decide)).1,
    ((OrderTracking.getOrder_first_match asciiCase [anonymousOrder, annOrder, laterOrder]
      "ORD-90123456" "ann@example.com").choose_spec.2.2.2.2
      ([anonymousOrder, annOrder, laterOrder].insertionSort (fun a b => b.date ≤ a.date))
      laterOrder (by decide)).2.1,
    ((OrderTracking.getOrder_first_match asciiCase [anonymousOrder, annOrder, laterOrder]
      "ORD-90123456" "ann@example.com").choose_spec.2.2.2.2
      ([anonymousOrder, annOrder, laterOrder].insertionSort (fun a b => b.date ≤ a.date))
      laterOrder (by decide)).2.2.1⟩

/-! ## The timeline -/

theorem OrderTracking.getStatusIndex_eq (status : String) :
    OrderTracking.getStatusIndex status
      = OrderTracking.indexOfFrom status OrderTracking.statusOrder 0 := by
  unfold OrderTracking.getStatusIndex
  simp only
  split
  · next h => exact h.symm
  · rfl

theorem OrderTracking.addDays_fixedZone (offset date days : Int) :
    OrderTracking.addDays (fixedZone offset) date days = date + days * msPerDay := by
  simp only [OrderTracking.addDays, fixedZone]
  ring

/-- C20: for every order `getOrderTimeline` returns exactly five stages, pending,
confirmed, processing, shipped, delivered in this order; their dates are the order
date and `addDays` of it by 1, 2, 3 and 5 days (the order date plus that many
times 86400000 ms in a time zone of constant offset); stage i is completed iff i is
at most the index `statusOrder.indexOf(status)` of the stored status, and current
iff i equals it; that index is the position of the status in the list. -/
theorem OrderTracking.getOrderTimeline_spec (zone : TimeZone) (order : Order) :
    (OrderTracking.getOrderTimeline zone order).length = 5 ∧
      (OrderTracking.getOrderTimeline zone order).map (fun stage => stage.status)
        = ["pending", "confirmed", "processing", "shipped", "delivered"] ∧
      (OrderTracking.getOrderTimeline zone order).map (fun stage => stage.date)
        = [order.date, OrderTracking.addDays zone order.date 1,
            OrderTracking.addDays zone order.date 2, OrderTracking.addDays zone order.date 3,
            OrderTracking.addDays zone order.date 5] ∧
      (∀ offset : Int, zone = fixedZone offset →
        (OrderTracking.getOrderTimeline zone order).map (fun stage => stage.date)
          = [order.date + 0 * msPerDay, order.date + 1 * msPerDay, order.date + 2 * msPerDay,
              order.date + 3 * msPerDay, order.date + 5 * msPerDay]) ∧
      (∀ (i : Nat) (stage : OrderTracking.TimelineStage),
        (OrderTracking.getOrderTimeline zone order)[i]? = some stage →
          (stage.isCompleted = true ↔
            (i : Int) ≤ OrderTracking.indexOfFrom order.status OrderTracking.statusOrder 0) ∧
          (stage.isCurrent = true ↔
            (i : Int) = OrderTracking.indexOfFrom order.status OrderTracking.statusOrder 0)) ∧
      (∀ i : Nat, OrderTracking.statusOrder[i]? = some order.status →
        OrderTracking.indexOfFrom order.status OrderTracking.statusOrder 0 = (i : Int)) := by
  refine ⟨rfl, rfl, rfl, ?_, ?_, ?_⟩
  · rintro offset rfl
    simp [OrderTracking.getOrderTimeline, List.enum, List.enumFrom,
      OrderTracking.addDays_fixedZone]
  · intro i stage hstage
    rw [← OrderTracking.getStatusIndex_eq]
    have hi : i < 5 := by
      have := (List.getElem?_eq_some.mp hstage).1
      simpa [OrderTracking.getOrderTimeline] using this
    interval_cases i <;>
      simp [OrderTracking.getOrderTimeline, List.enum, List.enumFrom] at hstage <;>
      subst hstage <;> simp
  · intro i hi
    have hlt : i < 5 := by
      have := (List.getElem?_eq_some.mp hi).1
      simpa [OrderTracking.statusOrder] using this
    interval_cases i <;>
      simp [OrderTracking.statusOrder] at hi <;>
      simp [OrderTracking.indexOfFrom, OrderTracking.statusOrder, ← hi]

/-- Instance of the timeline theorem: a shipped order in a zone one hour ahead of
UTC. -/
theorem OrderTracking.getOrderTimeline_spec_witness :
    (OrderTracking.getOrderTimeline (fixedZone 3600000) anonymousOrder).map
        (fun stage => stage.date)
      = [anonymousOrder.date + 0 * msPerDay, anonymousOrder.date + 1 * msPerDay,
          anonymousOrder.date + 2 * msPerDay, anonymousOrder.date + 3 * msPerDay,
          anonymousOrder.date + 5 * msPerDay] ∧
      OrderTracking.indexOfFrom anonymousOrder.status OrderTracking.statusOrder 0 = ((3 : Nat) : Int) :=
  ⟨(OrderTracking.getOrderTimeline_spec (fixedZone 3600000) anonymousOrder).2.2.2.1 3600000 rfl,
    (OrderTracking.getOrderTimeline_spec (fixedZone 3600000) anonymousOrder).2.2.2.2.2 3
      (by decide)⟩

/-! ## Boundary and worked examples -/

/-- The rule for shipping on the computed subtotal: 10 for a computed subtotal of
exactly 100, 0 for the double 100.01, and 0 exactly when the computed subtotal is
greater than 100. -/
theorem ShoppingCart.shipping_threshold (s : ShoppingCart) :
    (s.getSubtotal = 100 → s.updateCartTotals.shipping = 10) ∧
      (s.getSubtotal = 100.01 → s.updateCartTotals.shipping = 0) ∧
      (s.updateCartTotals.shipping = 0 ↔ s.getSubtotal > 100) := by
  have h10 : (10 : JSNumber) ≠ 0 := by decide!
  refine ⟨?_, ?_, ?_⟩
  · intro h
    have hgt : ¬ ((100 : JSNumber) > 100) := by decide!
    simp only [ShoppingCart.updateCartTotals, h, hgt, if_false]
  · intro h
    have hgt : (100.01 : JSNumber) > 100 := by decide!
    simp only [ShoppingCart.updateCartTotals, h, hgt, if_true]
  · simp only [ShoppingCart.updateCartTotals]
    split
    · simp_all
    · simp_all

/-- C21 (failing input): three items at 33.20 and one at 0.40, the doubles these
literals denote. The prices add up to exactly 100.00, yet the subtotal the code
computes is 100.00000000000001 (100 + 2^-46): 33.2 * 3 is 99.60000000000001 in
doubles. It differs from 100 by less than half a cent, so it is shown as 100.00,
but it is greater than 100, so shipping is 0 and the total is 108.00000000000001
where a subtotal of 100.00 is to be charged shipping 10. A single line at 100.00
is charged 10, and a single line at 100.01 is charged nothing. -/
theorem ShoppingCart.shipping_boundary :
    roundDouble 33.2 = JSNumber.finite price3320 ∧
      roundDouble 0.4 = JSNumber.finite price040 ∧
      (33.2 * 3 + 0.4 * 1 : ℚ) = 100 ∧
      JSNumber.finite price3320 * JSNumber.finite 3
        = JSNumber.finite (mkRat 7008726920095335 (2 ^ 46)) ∧
      hundredStore.getSubtotal = JSNumber.finite (100 + mkRat 1 (2 ^ 46)) ∧
      (100 + mkRat 1 (2 ^ 46) : ℚ) - 100 < 1 / 200 ∧
      hundredStore.getSubtotal > 100 ∧
      hundredStore.updateCartTotals.shipping = 0 ∧
      hundredStore.updateCartTotals.total
        = JSNumber.finite (mkRat 7599824371187713 (2 ^ 46)) ∧
      (pricedStore 100 1).updateCartTotals.shipping = 10 ∧
      roundDouble 100.01 = JSNumber.finite (mkRat 7037578105208177 (2 ^ 46)) ∧
      (pricedStore (mkRat 7037578105208177 (2 ^ 46)) 1).updateCartTotals.shipping = 0 := by
  decide!

/-- C22: a cart with one line of price 25.00 and quantity 3 has subtotal 75.00,
shipping 10.00, tax 6.00 and total 91.00, and a cart with one line of price 60.00
and quantity 2 has subtotal 120.00, shipping 0, tax 9.60 and total 129.60, both on
the cart page and in the order checkout builds. The amounts are doubles; 9.6 and
129.6 are the doubles these literals denote. -/
theorem ShoppingCart.worked_examples (s : ShoppingCart) (item : CartItem)
    (customer : List (String × String)) (newId : String) (now : Nat) (date : Int)
    (hcart : s.cart = [item]) :
    (item.price = 25 → item.quantity = 3 →
        s.updateCartTotals = { subtotal := 75, shipping := 10, tax := 6, total := 91 } ∧
        (s.newOrder customer newId now date).subtotal = 75 ∧
        (s.newOrder customer newId now date).shipping = 10 ∧
        (s.newOrder customer newId now date).tax = 6 ∧
        (s.newOrder customer newId now date).total = 91) ∧
      (item.price = 60 → item.quantity = 2 →
        s.updateCartTotals = { subtotal := 120, shipping := 0, tax := 9.6, total := 129.6 } ∧
        (s.newOrder customer newId now date).subtotal = 120 ∧
        (s.newOrder customer newId now date).shipping = 0 ∧
        (s.newOrder customer newId now date).tax = 9.6 ∧
        (s.newOrder customer newId now date).total = 129.6) := by
  constructor
  · intro hp hq
    have hsub : s.getSubtotal = 75 := by
      simp only [ShoppingCart.getSubtotal, ShoppingCart.getTotal, hcart, List.foldl_cons,
        List.foldl_nil, hp, hq]
      decide!
    simp only [ShoppingCart.updateCartTotals, ShoppingCart.newOrder, hsub]
    decide!
  · intro hp hq
    have hsub : s.getSubtotal = 120 := by
      simp only [ShoppingCart.getSubtotal, ShoppingCart.getTotal, hcart, List.foldl_cons,
        List.foldl_nil, hp, hq]
      decide!
    simp only [ShoppingCart.updateCartTotals, ShoppingCart.newOrder, hsub]
    decide!

/-- Instances of the worked examples on the two sample stores. -/
theorem ShoppingCart.worked_examples_witness :
    (pricedStore 25 3).updateCartTotals
        = { subtotal := 75, shipping := 10, tax := 6, total := 91 } ∧
      (pricedStore 60 2).updateCartTotals
        = { subtotal := 120, shipping := 0, tax := 9.6, total := 129.6 } :=
  ⟨((ShoppingCart.worked_examples (pricedStore 25 3) (pricedLine 25 3) annForm "o1" 0 0 rfl).1
      rfl rfl).1,
    ((ShoppingCart.worked_examples (pricedStore 60 2) (pricedLine 60 2) annForm "o1" 0 0 rfl).2
      rfl rfl).1⟩

/-! ## Persistence -/

theorem ShoppingCart.loadCart_saveCart (s : ShoppingCart) :
    ShoppingCart.loadCart s.saveCart.stored = Except.ok s.saveCart.cart := rfl

theorem ShoppingCart.addToCart_loadCart (s : ShoppingCart) (product : Option Product)
    (newId : String) (h : ShoppingCart.loadCart s.stored = Except.ok s.cart) :
    ShoppingCart.loadCart (s.addToCart product newId).2.stored
      = Except.ok (s.addToCart product newId).2.cart := by
  rcases ShoppingCart.addToCart_cases s product newId with
    ⟨m, hc⟩ | ⟨_, _, _, _, m, _, _, _, _, _, _, _, hc⟩ | ⟨_, _, _, m, _, _, _, _, _, _, hc⟩
  · rw [hc]; exact h
  · rw [hc]; rfl
  · rw [hc]; rfl

theorem ShoppingCart.removeFromCart_loadCart (s : ShoppingCart) (cartId : String)
    (querySelector : String → RowQuery)
    (h : ShoppingCart.loadCart s.stored = Except.ok s.cart) :
    ShoppingCart.loadCart (stateAfter s (s.removeFromCart cartId querySelector)).stored
      = Except.ok (stateAfter s (s.removeFromCart cartId querySelector)).cart := by
  rcases ShoppingCart.removeFromCart_cases s cartId querySelector with
    ⟨_, hr⟩ | ⟨_, _, hr⟩ | ⟨_, _, _, _, hr⟩
  · rw [hr]; exact h
  · rw [hr]; exact h
  · rw [hr]; rfl

theorem ShoppingCart.updateQuantity_loadCart (s : ShoppingCart) (cartId : String)
    (quantity : JSValue) (querySelector : String → RowQuery)
    (h : ShoppingCart.loadCart s.stored = Except.ok s.cart) :
    ShoppingCart.loadCart (stateAfter s (s.updateQuantity cartId quantity querySelector)).stored
      = Except.ok (stateAfter s (s.updateQuantity cartId quantity querySelector)).cart := by
  have hrem := ShoppingCart.removeFromCart_loadCart s cartId querySelector h
  unfold ShoppingCart.updateQuantity
  cases s.cart.find? (fun item => item.cartId == cartId) with
  | none => exact h
  | some item =>
    cases parseInt quantity with
    | none => exact hrem
    | some n =>
      simp only
      split
      · exact hrem
      · split <;> rfl

/-- C23: if reloading from storage (`loadCart`) yields the in-memory cart before a
call, it also does after any `addToCart`, `removeFromCart`, `updateQuantity` or
`clearCart` call, whether the call succeeds, fails or does nothing; hence also
after any sequence of such calls. -/
theorem runCalls_persisted (s : ShoppingCart) (calls : List CartCall)
    (h : ShoppingCart.loadCart s.stored = Except.ok s.cart) :
    (∀ call : CartCall,
        ShoppingCart.loadCart (call.run s).stored = Except.ok (call.run s).cart) ∧
      ShoppingCart.loadCart (runCalls s calls).stored = Except.ok (runCalls s calls).cart := by
  have hstep : ∀ (t : ShoppingCart) (call : CartCall),
      ShoppingCart.loadCart t.stored = Except.ok t.cart →
      ShoppingCart.loadCart (call.run t).stored = Except.ok (call.run t).cart := by
    intro t call ht
    cases call with
    | addToCart product newId => exact ShoppingCart.addToCart_loadCart t product newId ht
    | removeFromCart cartId querySelector =>
      exact ShoppingCart.removeFromCart_loadCart t cartId querySelector ht
    | updateQuantity cartId quantity querySelector =>
      exact ShoppingCart.updateQuantity_loadCart t cartId quantity querySelector ht
    | clearCart => rfl
  refine ⟨fun call => hstep s call h, ?_⟩
  induction calls generalizing s with
  | nil => exact h
  | cons call rest ih => exact ih (call.run s) (hstep s call h)

/-- Instance of the persistence theorem: a refused call, a miss and a merge on the
sample store. -/
theorem runCalls_persisted_witness :
    ShoppingCart.loadCart (runCalls mugStore
        [CartCall.addToCart (some mugTooMany) "c2", CartCall.removeFromCart "c9" pageWithRows,
         CartCall.addToCart (some mug) "c3"]).stored
      = Except.ok (runCalls mugStore
        [CartCall.addToCart (some mugTooMany) "c2", CartCall.removeFromCart "c9" pageWithRows,
         CartCall.addToCart (some mug) "c3"]).cart :=
  (runCalls_persisted mugStore _ rfl).2

/-! ## The loaded history -/

/-- C24: for every stored order history `loadOrderHistory` yields a permutation
of the stored orders (as they are read back from their JSON text), none dropped
and none duplicated, arranged so that dates are non-increasing, most recent first.
Orders whose amounts are finite are read back as they are. -/
theorem OrderTracking.loadOrderHistory_perm_sorted (orders : List Order) :
    ∃ loaded, OrderTracking.loadOrderHistory (some (StoredLedger.json orders)) = Except.ok loaded ∧
      loaded.Perm (orders.map Order.toJSON) ∧
      (orders.map Order.toJSON = orders → loaded.Perm orders) ∧
      loaded.length = orders.length ∧
      List.Sorted (fun a b => b.date ≤ a.date) loaded ∧
      (∀ i j (hi : i < loaded.length) (hj : j < loaded.length), i < j →
        (loaded.get ⟨j, hj⟩).date ≤ (loaded.get ⟨i, hi⟩).date) := by
  refine ⟨(orders.map Order.toJSON).insertionSort (fun a b => b.date ≤ a.date), rfl,
    List.perm_insertionSort _ _, ?_, ?_, List.sorted_insertionSort _ _, ?_⟩
  · intro h
    have := List.perm_insertionSort (fun a b : Order => b.date ≤ a.date)
      (orders.map Order.toJSON)
    rw [h] at this ⊢
    exact this
  · rw [(List.perm_insertionSort _ _).length_eq, List.length_map]
  · intro i j hi hj hij
    have hs := List.sorted_insertionSort (fun a b : Order => b.date ≤ a.date)
      (orders.map Order.toJSON)
    exact List.pairwise_iff_get.mp hs ⟨i, hi⟩ ⟨j, hj⟩ hij

/-- Instance of the loading theorem on a history stored oldest first. -/
theorem OrderTracking.loadOrderHistory_perm_sorted_witness :
    ∃ loaded, OrderTracking.loadOrderHistory (some (StoredLedger.json [annOrder, laterOrder]))
        = Except.ok loaded ∧
      loaded.Perm [annOrder, laterOrder] ∧
      List.Sorted (fun a b => b.date ≤ a.date) loaded :=
  (OrderTracking.loadOrderHistory_perm_sorted [annOrder, laterOrder]).imp
    (fun _ h => ⟨h.1, h.2.2.1 (by decide), h.2.2.2.2.1⟩)

/-! ## One line per product, size and color -/

theorem distinctLines_filter {cart : List CartItem} (h : DistinctLines cart)
    (p : CartItem → Bool) : DistinctLines (cart.filter p) :=
  List.Pairwise.filter p h

theorem distinctLines_updateFirst {cart : List CartItem} (h : DistinctLines cart)
    (p : CartItem → Bool) (n : Int) :
    DistinctLines (updateFirst p (fun item => { item with quantity := n }) cart) := by
  induction cart with
  | nil => exact h
  | cons x xs ih =>
    have hx := (List.pairwise_cons.mp h).1
    have hxs : DistinctLines xs := (List.pairwise_cons.mp h).2
    unfold Support.updateFirst
    split
    · exact List.pairwise_cons.mpr ⟨fun y hy => hx y hy, hxs⟩
    · refine List.pairwise_cons.mpr ⟨?_, ih hxs⟩
      intro y hy
      have hmem : ∀ (l : List CartItem), y ∈ Support.updateFirst p
          (fun item => { item with quantity := n }) l →
          ∃ z ∈ l, z.id = y.id ∧ z.size = y.size ∧ z.color = y.color := by
        intro l
        induction l with
        | nil => intro hy; simp [Support.updateFirst] at hy
        | cons a as iha =>
          intro hy
          unfold Support.updateFirst at hy
          split at hy
          · rcases List.mem_cons.mp hy with rfl | hy
            · exact ⟨a, by simp, rfl, rfl, rfl⟩
            · exact ⟨y, by simp [hy], rfl, rfl, rfl⟩
          · rcases List.mem_cons.mp hy with rfl | hy
            · exact ⟨y, by simp, rfl, rfl, rfl⟩
            · obtain ⟨z, hz, hzy⟩ := iha hy
              exact ⟨z, by simp [hz], hzy⟩
      obtain ⟨z, hz, h1, h2, h3⟩ := hmem xs hy
      have := hx z hz
      rw [← h1, ← h2, ← h3]
      exact this

theorem distinctLines_append_new {cart : List CartItem} (h : DistinctLines cart)
    (product : Product) (newId name : String) (price : ℚ) (quantity : Int)
    (hfind : cart.find? (ShoppingCart.sameLine product) = none) :
    DistinctLines (cart ++ [ShoppingCart.newCartItem product newId name price quantity]) := by
  unfold DistinctLines
  rw [List.pairwise_append]
  refine ⟨h, List.pairwise_singleton _ _, ?_⟩
  intro a ha b hb
  rw [List.mem_singleton] at hb
  subst hb
  have hno := List.find?_eq_none.mp hfind a ha
  simp only [ShoppingCart.sameLine, Bool.and_eq_true, beq_iff_eq, not_and] at hno
  rintro ⟨h1, h2, h3⟩
  exact hno ⟨h1, h2⟩ h3

theorem CartCall.run_distinctLines (s : ShoppingCart) (call : CartCall)
    (h : DistinctLines s.cart) : DistinctLines (call.run s).cart := by
  cases call with
  | addToCart product newId =>
    simp only [CartCall.run]
    rcases ShoppingCart.addToCart_cases s product newId with
      ⟨m, hc⟩ | ⟨p, _, _, e, m, _, _, _, _, _, _, _, hc⟩ |
      ⟨p, name, price, m, _, _, _, hfind, _, _, hc⟩
    · rw [hc]; exact h
    · rw [hc]; exact distinctLines_updateFirst h _ _
    · rw [hc]; exact distinctLines_append_new h p newId name price _ hfind
  | removeFromCart cartId querySelector =>
    simp only [CartCall.run]
    rcases ShoppingCart.removeFromCart_after_cart s cartId querySelector with hc | hc
    · rw [hc]; exact h
    · rw [hc]; exact distinctLines_filter h _
  | updateQuantity cartId quantity querySelector =>
    have hrem : DistinctLines (stateAfter s (s.removeFromCart cartId querySelector)).cart := by
      rcases ShoppingCart.removeFromCart_after_cart s cartId querySelector with hc | hc
      · rw [hc]; exact h
      · rw [hc]; exact distinctLines_filter h _
    simp only [CartCall.run]
    unfold ShoppingCart.updateQuantity
    cases s.cart.find? (fun item => item.cartId == cartId) with
    | none => exact h
    | some item =>
      cases parseInt quantity with
      | none => exact hrem
      | some n =>
        simp only
        split
        · exact hrem
        · split
          · exact distinctLines_updateFirst h _ 100
          · exact distinctLines_updateFirst h _ n
  | clearCart => exact List.Pairwise.nil

theorem runCalls_distinctLines_of (s : ShoppingCart) (calls : List CartCall)
    (h : DistinctLines s.cart) : DistinctLines (runCalls s calls).cart := by
  induction calls generalizing s with
  | nil => exact h
  | cons call rest ih => exact ih (call.run s) (CartCall.run_distinctLines s call h)

/-- C25: starting from the empty cart, after any sequence of `addToCart`,
`removeFromCart`, `updateQuantity` and `clearCart` calls no two lines of the cart
have the same id, size and color. -/
theorem runCalls_distinctLines (s : ShoppingCart) (calls : List CartCall)
    (hempty : s.cart = []) :
    DistinctLines (runCalls s calls).cart ∧
      ∀ i j (hi : i < (runCalls s calls).cart.length) (hj : j < (runCalls s calls).cart.length),
        i < j →
        ¬ (((runCalls s calls).cart.get ⟨i, hi⟩).id = ((runCalls s calls).cart.get ⟨j, hj⟩).id ∧
          ((runCalls s calls).cart.get ⟨i, hi⟩).size
            = ((runCalls s calls).cart.get ⟨j, hj⟩).size ∧
          ((runCalls s calls).cart.get ⟨i, hi⟩).color
            = ((runCalls s calls).cart.get ⟨j, hj⟩).color) := by
  have h : DistinctLines (runCalls s calls).cart :=
    runCalls_distinctLines_of s calls (by rw [hempty]; exact List.Pairwise.nil)
  refine ⟨h, ?_⟩
  intro i j hi hj hij
  exact List.pairwise_iff_get.mp h ⟨i, hi⟩ ⟨j, hj⟩ hij

/-- Instance of the distinct-lines theorem: the same mug added twice, then a mug
in another size. -/
theorem runCalls_distinctLines_witness :
    DistinctLines (runCalls emptyStore
      [CartCall.addToCart (some mug) "c1", CartCall.addToCart (some mug) "c2",
       CartCall.addToCart (some { mug with size := some "L" }) "c3"]).cart :=
  (runCalls_distinctLines emptyStore _ rfl).1

/-! ## From checkout to tracking -/

theorem insertionSort_append_latest (ledger : List Order) (order : Order)
    (h : ∀ o ∈ ledger, o.date < order.date) :
    (ledger ++ [order]).insertionSort (fun a b => b.date ≤ a.date)
      = order :: ledger.insertionSort (fun a b => b.date ≤ a.date) := by
  induction ledger with
  | nil => rfl
  | cons a rest ih =>
    have ha : a.date < order.date := h a (by simp)
    have hrest : ∀ o ∈ rest, o.date < order.date := fun o ho => h o (by simp [ho])
    have hnot : ¬ order.date ≤ a.date := not_le.mpr ha
    rw [List.cons_append, List.insertionSort, ih hrest, List.insertionSort]
    simp [List.orderedInsert, hnot]

theorem orderNumberAt_ne_empty (now : Nat) : orderNumberAt now ≠ "" := by
  intro h
  have := congrArg String.data h
  simp [orderNumberAt, String.data_append] at this

theorem toUpper_digitChar : ∀ d, d < 10 → Char.toUpper (digitChar d) = digitChar d := by
  decide

theorem digitsLE_lt (fuel n : Nat) : ∀ d ∈ digitsLE fuel n, d < 10 := by
  induction fuel generalizing n with
  | zero => intro d hd; simp [digitsLE] at hd
  | succ fuel ih =>
    intro d hd
    unfold digitsLE at hd
    split at hd
    · simp at hd
    · rcases List.mem_cons.mp hd with rfl | hd
      · omega
      · exact ih _ d hd

theorem toUpper_decimalText (n : Nat) : ∀ c ∈ decimalText n, Char.toUpper c = c := by
  intro c hc
  unfold decimalText at hc
  split at hc
  · simp at hc
    subst hc
    decide
  · simp only [List.mem_map, List.mem_reverse] at hc
    obtain ⟨d, hd, rfl⟩ := hc
    exact toUpper_digitChar d (digitsLE_lt n n d hd)

/-- Upper-casing ASCII letters leaves every order number of checkout unchanged. -/
theorem asciiCase_orderNumberAt (now : Nat) :
    asciiCase.toUpperCase (orderNumberAt now) = orderNumberAt now := by
  have hmap : (sliceLast8 (decimalText now)).map Char.toUpper = sliceLast8 (decimalText now) := by
    have hfix : ∀ l : List Char, (∀ c ∈ l, Char.toUpper c = c) → l.map Char.toUpper = l := by
      intro l
      induction l with
      | nil => intro _; rfl
      | cons x xs ihx =>
        intro hl
        rw [List.map_cons, hl x (by simp), ihx (fun c hc => hl c (by simp [hc]))]
    exact hfix _ (fun c hc => toUpper_decimalText now c (List.mem_of_mem_drop hc))
  simp only [asciiCase, orderNumberAt, String.data_append, List.map_append, hmap]
  rfl

/-- C26: for a ledger whose orders all have dates earlier than the new order, a
non-empty cart and a customer form with a non-empty email, the tracking page,
opened with the order number and email checkout puts in its URL and on the
history it loads from storage, finds exactly the order checkout created. The
host's `toUpperCase` is taken to leave the text `ORD-` plus digits unchanged. -/
theorem checkout_tracking_round_trip (host : CaseMapping) (b : Browser)
    (validation : Option ValidationResult) (customer : List (String × String))
    (newId : String) (now : Nat) (date : Int) (ledger : List Order) (email : String)
    (hcart : b.shop.cart ≠ [])
    (hvalid : ∀ v, validation = some v → v.isValid = true)
    (hledger : parseOrderHistory b.orderHistory = Except.ok ledger)
    (hdates : ∀ o ∈ ledger, o.date < date)
    (hemail : customer.lookup "email" = some email) (hne : email ≠ "")
    (hupper : host.toUpperCase (orderNumberAt now) = orderNumberAt now) :
    ∃ loaded order,
      OrderTracking.loadOrderHistory
          (b.handleCheckout validation customer newId now date).orderHistory
        = Except.ok loaded ∧
      (b.handleCheckout validation customer newId now date).lastOrder = some order ∧
      OrderTracking.checkURLParams host loaded
          ((b.handleCheckout validation customer newId now date).tracking.map Prod.fst)
          ((b.handleCheckout validation customer newId now date).tracking.map Prod.snd)
        = some order := by
  rw [Browser.handleCheckout_success b validation customer newId now date ledger hcart hvalid
    hledger]
  refine ⟨_, (b.shop.newOrder customer newId now date).toJSON, rfl, rfl, ?_⟩
  have hsort := insertionSort_append_latest ledger
    (b.shop.newOrder customer newId now date).toJSON hdates
  have hmatch : OrderTracking.orderMatches host (orderNumberAt now) email
      (b.shop.newOrder customer newId now date).toJSON = true := by
    simp [OrderTracking.orderMatches, ShoppingCart.newOrder, Order.toJSON, hupper, hemail]
  have hfix : (ledger ++ [(b.shop.newOrder customer newId now date).toJSON]).map Order.toJSON
      = ledger ++ [(b.shop.newOrder customer newId now date).toJSON] := by
    simp [parseOrderHistory_fixed _ _ hledger, Order.toJSON_idempotent]
  simp only [Option.map_some', hemail, strOr, hne, if_false, OrderTracking.checkURLParams,
    orderNumberAt_ne_empty, ne_eq, not_false_eq_true, and_self, if_true,
    OrderTracking.getOrder, hfix, hsort, List.find?_cons, hmatch]

/-- Instance of the round trip: Ann's checkout on the empty ledger, tracked with
ASCII case conversion. -/
theorem checkout_tracking_round_trip_witness :
    ∃ loaded order,
      OrderTracking.loadOrderHistory
          (mugBrowser.handleCheckout none annForm "o1" 1762390123456 1762390123456).orderHistory
        = Except.ok loaded ∧
      (mugBrowser.handleCheckout none annForm "o1" 1762390123456 1762390123456).lastOrder
        = some order ∧
      OrderTracking.checkURLParams asciiCase loaded
          ((mugBrowser.handleCheckout none annForm "o1" 1762390123456
            1762390123456).tracking.map Prod.fst)
          ((mugBrowser.handleCheckout none annForm "o1" 1762390123456
            1762390123456).tracking.map Prod.snd)
        = some order :=
  checkout_tracking_round_trip asciiCase mugBrowser none annForm "o1" 1762390123456
    1762390123456 [] "Ann@Example.com" (by decide) (by simp) rfl (by simp) (by decide)
    (by decide) (asciiCase_orderNumberAt 1762390123456)

/-! ## A status outside the list -/

/-- C27: for an order whose status is none of pending, confirmed, processing,
shipped, delivered, `getStatusIndex` returns -1 (the fallback `|| 0` does not
apply, -1 being truthy), so `getOrderTimeline` marks none of the five stages as
completed and none as current. -/
theorem OrderTracking.getOrderTimeline_unknown_status (zone : TimeZone) (order : Order)
    (h : order.status ∉ OrderTracking.statusOrder) :
    OrderTracking.getStatusIndex order.status = -1 ∧
      (OrderTracking.getOrderTimeline zone order).length = 5 ∧
      ∀ stage ∈ OrderTracking.getOrderTimeline zone order,
        stage.isCompleted = false ∧ stage.isCurrent = false := by
  simp only [OrderTracking.statusOrder, List.mem_cons, List.mem_singleton, List.not_mem_nil,
    or_false, not_or] at h
  obtain ⟨h0, h1, h2, h3, h4⟩ := h
  have hidx : OrderTracking.getStatusIndex order.status = -1 := by
    simp [OrderTracking.getStatusIndex, OrderTracking.indexOfFrom, OrderTracking.statusOrder,
      Ne.symm h0, Ne.symm h1, Ne.symm h2, Ne.symm h3, Ne.symm h4]
  refine ⟨hidx, rfl, ?_⟩
  intro stage hstage
  simp only [OrderTracking.getOrderTimeline, hidx, List.enum, List.enumFrom, List.map_cons,
    List.map_nil, List.mem_cons, List.mem_singleton, List.not_mem_nil, or_false] at hstage
  rcases hstage with rfl | rfl | rfl | rfl | rfl <;> simp

/-- Instance of the unknown-status theorem: a cancelled order. -/
theorem OrderTracking.getOrderTimeline_unknown_status_witness :
    OrderTracking.getStatusIndex "cancelled" = -1 ∧
      (OrderTracking.getOrderTimeline (fixedZone 0)
        { annOrder with status := "cancelled" }).length = 5 ∧
      ∀ stage ∈ OrderTracking.getOrderTimeline (fixedZone 0)
          { annOrder with status := "cancelled" },
        stage.isCompleted = false ∧ stage.isCurrent = false :=
  OrderTracking.getOrderTimeline_unknown_status (fixedZone 0)
    { annOrder with status := "cancelled" } (by decide)

/-! ## Cart page, checkout summary and order -/

/-- C28: for every non-empty cart the checkout summary shows the subtotal,
shipping, tax and total that the cart page computes, and the order built by
checkout freezes the same four amounts; for the empty cart the cart page computes
shipping 10 and total 10 while the checkout summary shows subtotal 0 and total 0
and no shipping or tax line. -/
theorem ShoppingCart.renderCheckout_agrees (s : ShoppingCart)
    (customer : List (String × String)) (newId : String) (now : Nat) (date : Int) :
    (s.cart ≠ [] →
        s.renderCheckout =
          { subtotal := s.updateCartTotals.subtotal
            shipping := some s.updateCartTotals.shipping
            tax := some s.updateCartTotals.tax
            total := s.updateCartTotals.total } ∧
        (s.newOrder customer newId now date).subtotal = s.updateCartTotals.subtotal ∧
        (s.newOrder customer newId now date).shipping = s.updateCartTotals.shipping ∧
        (s.newOrder customer newId now date).tax = s.updateCartTotals.tax ∧
        (s.newOrder customer newId now date).total = s.updateCartTotals.total) ∧
      (s.cart = [] →
        s.updateCartTotals.subtotal = 0 ∧ s.updateCartTotals.shipping = 10 ∧
        s.updateCartTotals.tax = 0 ∧ s.updateCartTotals.total = 10 ∧
        s.renderCheckout = { subtotal := 0, shipping := none, tax := none, total := 0 } ∧
        s.renderCheckout.total ≠ s.updateCartTotals.total) := by
  constructor
  · intro h
    have hlen : ¬ s.cart.length = 0 := fun h0 => h (List.length_eq_zero.mp h0)
    refine ⟨?_, rfl, rfl, rfl, rfl⟩
    simp only [ShoppingCart.renderCheckout, hlen, if_false, ShoppingCart.updateCartTotals]
  · intro h
    have hsub : s.getSubtotal = 0 := by
      simp [ShoppingCart.getSubtotal, ShoppingCart.getTotal, h]
    have hlen : s.cart.length = 0 := by simp [h]
    simp only [ShoppingCart.updateCartTotals, ShoppingCart.renderCheckout, hsub, hlen, if_true]
    decide!

/-- Instances of the agreement: the sample cart of three mugs, and the empty cart. -/
theorem ShoppingCart.renderCheckout_agrees_witness :
    mugStore.renderCheckout =
        { subtotal := mugStore.updateCartTotals.subtotal
          shipping := some mugStore.updateCartTotals.shipping
          tax := some mugStore.updateCartTotals.tax
          total := mugStore.updateCartTotals.total } ∧
      emptyStore.renderCheckout.total ≠ emptyStore.updateCartTotals.total :=
  ⟨((ShoppingCart.renderCheckout_agrees mugStore annForm "o1" 0 0).1 (by decide)).1,
    ((ShoppingCart.renderCheckout_agrees emptyStore annForm "o1" 0 0).2 rfl).2.2.2.2.2⟩

/-! ## Refused checkouts -/

/-- C29: when the cart is empty or the checkout form fails validation,
`handleCheckout` reports an error and creates no order: the cart, its stored copy,
the stored ledger, `lastOrder` and the page stay as they were. Hence the ledger or
`lastOrder` change only when the cart is not empty and no validation failed. -/
theorem Browser.handleCheckout_refused (b : Browser) (validation : Option ValidationResult)
    (customer : List (String × String)) (newId : String) (now : Nat) (date : Int) :
    ((b.shop.cart = [] ∨ ∃ v, validation = some v ∧ v.isValid = false) →
        (b.handleCheckout validation customer newId now date).shop.cart = b.shop.cart ∧
        (b.handleCheckout validation customer newId now date).shop.stored = b.shop.stored ∧
        (b.handleCheckout validation customer newId now date).orderHistory = b.orderHistory ∧
        (b.handleCheckout validation customer newId now date).lastOrder = b.lastOrder ∧
        (b.handleCheckout validation customer newId now date).tracking = b.tracking ∧
        ∃ message, (b.handleCheckout validation customer newId now date).shop.notifications
          = b.shop.notifications ++ [⟨message, .error⟩]) ∧
      (((b.handleCheckout validation customer newId now date).orderHistory ≠ b.orderHistory ∨
          (b.handleCheckout validation customer newId now date).lastOrder ≠ b.lastOrder) →
        b.shop.cart ≠ [] ∧ ∀ v, validation = some v → v.isValid = true) := by
  have hrefused : (b.shop.cart = [] ∨ ∃ v, validation = some v ∧ v.isValid = false) →
      ∃ message, b.handleCheckout validation customer newId now date
        = b.setShop (b.shop.showNotification message .error) := by
    intro h
    by_cases hcart : b.shop.cart = []
    · refine ⟨"Your cart is empty!", ?_⟩
      simp [Browser.handleCheckout, hcart]
    · rcases h with h | ⟨v, hv, hfalse⟩
      · exact absurd h hcart
      · refine ⟨v.message, ?_⟩
        have hlen : ¬ b.shop.cart.length = 0 := fun h0 => hcart (List.length_eq_zero.mp h0)
        simp [Browser.handleCheckout, hlen, hv, hfalse]
  constructor
  · intro h
    obtain ⟨message, hm⟩ := hrefused h
    rw [hm]
    exact ⟨rfl, rfl, rfl, rfl, rfl, message, rfl⟩
  · intro hchanged
    by_contra hcon
    have h : b.shop.cart = [] ∨ ∃ v, validation = some v ∧ v.isValid = false := by
      by_cases hcart : b.shop.cart = []
      · exact Or.inl hcart
      · right
        simp only [not_and, not_forall] at hcon
        obtain ⟨v, hv, hnot⟩ := hcon hcart
        exact ⟨v, hv, by simpa using hnot⟩
    obtain ⟨message, hm⟩ := hrefused h
    rw [hm] at hchanged
    rcases hchanged with hc | hc <;> exact hc rfl

/-- Instances of the refusal: an empty cart, and a form that fails validation. -/
theorem Browser.handleCheckout_refused_witness :
    ((mugBrowser.setShop emptyStore).handleCheckout none annForm "o1" 0 0).lastOrder = none ∧
      (mugBrowser.handleCheckout (some ⟨false, "Please fix: Email address"⟩) annForm "o1" 0
        0).orderHistory = mugBrowser.orderHistory :=
  ⟨((Browser.handleCheckout_refused (mugBrowser.setShop emptyStore) none annForm "o1" 0 0).1
      (Or.inl rfl)).2.2.2.1,
    ((Browser.handleCheckout_refused mugBrowser (some ⟨false, "Please fix: Email address"⟩)
      annForm "o1" 0 0).1 (Or.inr ⟨_, rfl, rfl⟩)).2.2.1⟩

/-! ## Reading a price -/

theorem dropWhile_append_all {α : Type} (p : α → Bool) (pre rest : List α)
    (h : ∀ c ∈ pre, p c = true) : (pre ++ rest).dropWhile p = rest.dropWhile p := by
  induction pre with
  | nil => rfl
  | cons x xs ih =>
    have hx : p x = true := h x (by simp)
    simp [List.dropWhile_cons, hx, ih (fun c hc => h c (by simp [hc]))]

theorem takeWhile_append_all {α : Type} (p : α → Bool) (pre rest : List α)
    (h : ∀ c ∈ pre, p c = true) : (pre ++ rest).takeWhile p = pre ++ rest.takeWhile p := by
  induction pre with
  | nil => rfl
  | cons x xs ih =>
    have hx : p x = true := h x (by simp)
    simp [List.takeWhile_cons, hx, ih (fun c hc => h c (by simp [hc]))]

theorem takeWhile_stop {α : Type} (p : α → Bool) (rest : List α)
    (h : ∀ c, rest.head? = some c → p c = false) :
    rest.takeWhile p = [] ∧ rest.dropWhile p = rest := by
  cases rest with
  | nil => exact ⟨rfl, rfl⟩
  | cons x xs =>
    have hx : p x = false := h x rfl
    simp [List.takeWhile_cons, List.dropWhile_cons, hx]

theorem matchPrice_none (text : List Char) (h : ∀ c ∈ text, c.isDigit = false) :
    matchPrice text = none := by
  have hdrop : text.dropWhile (fun c => !c.isDigit) = [] := by
    have := dropWhile_append_all (fun c : Char => !c.isDigit) text []
      (fun c hc => by simp [h c hc])
    simpa using this
  simp [matchPrice, hdrop]

theorem matchPrice_run (pre whole after : List Char)
    (hpre : ∀ c ∈ pre, c.isDigit = false) (hne : whole ≠ [])
    (hwhole : ∀ c ∈ whole, c.isDigit = true)
    (hafter : ∀ c, after.head? = some c → c.isDigit = false) :
    matchPrice (pre ++ whole ++ after) =
      some (whole, fractionAfter after) := by
  have hdrop : (pre ++ whole ++ after).dropWhile (fun c => !c.isDigit) = whole ++ after := by
    rw [List.append_assoc, dropWhile_append_all _ pre _ (fun c hc => by simp [hpre c hc])]
    cases whole with
    | nil => exact absurd rfl hne
    | cons w ws =>
      have hw : w.isDigit = true := hwhole w (by simp)
      simp [List.dropWhile_cons, hw]
  obtain ⟨hstop1, hstop2⟩ := takeWhile_stop Char.isDigit after hafter
  have htake : (whole ++ after).takeWhile Char.isDigit = whole := by
    rw [takeWhile_append_all _ whole after hwhole, hstop1, List.append_nil]
  have hdrop2 : (whole ++ after).dropWhile Char.isDigit = after := by
    rw [dropWhile_append_all _ whole after hwhole, hstop2]
  unfold matchPrice
  rw [hdrop]
  cases hwa : whole ++ after with
  | nil =>
    cases whole with
    | nil => exact absurd rfl hne
    | cons w ws => simp at hwa
  | cons c cs =>
    simp only
    rw [← hwa, htake, hdrop2]

theorem matchPrice_some_digit (text whole fraction : List Char)
    (h : matchPrice text = some (whole, fraction)) : ¬ ∀ c ∈ text, c.isDigit = false := by
  intro hnone
  rw [matchPrice_none text hnone] at h
  simp at h

theorem matchPrice_eq_none (text : List Char) (h : matchPrice text = none) :
    ∀ c ∈ text, c.isDigit = false := by
  unfold matchPrice at h
  split at h
  · next hdrop =>
    intro c hc
    have := List.dropWhile_eq_nil_iff.mp hdrop c hc
    simpa using this
  · simp at h

/-- C30 (counterexample): the text `$0.00` contains digits, yet `extractPrice`
returns 0 for it. -/
theorem ShoppingCart.extractPrice_zero_price :
    (∃ c ∈ "$0.00".data, c.isDigit = true) ∧ ShoppingCart.extractPrice "$0.00" = 0 := by
  decide

/-- C30 (amended): `extractPrice` returns the value of the first run of decimal
digits of the text, with the fractional part when a dot and digits follow it,
whatever comes after; it returns 0 when the text contains no digit, and otherwise
exactly when that first number is zero; a product whose price text contains no
digit is rejected by `addToCart`. -/
theorem ShoppingCart.extractPrice_spec (text : String) (pre whole fraction rest : List Char)
    (s : ShoppingCart) (product : Product) (newId : String)
    (hpre : ∀ c ∈ pre, c.isDigit = false) (hne : whole ≠ [])
    (hwhole : ∀ c ∈ whole, c.isDigit = true)
    (hfraction : ∀ c ∈ fraction, c.isDigit = true) :
    ((∀ c, rest.head? = some c → c.isDigit = false ∧ c ≠ '.') →
        ShoppingCart.extractPrice (String.mk (pre ++ whole ++ rest)) = digitsValue whole) ∧
      ((∀ c, rest.head? = some c → c.isDigit = false) →
        ShoppingCart.extractPrice (String.mk (pre ++ whole ++ ('.' :: fraction ++ rest)))
          = mkRat (digitsValue whole * 10 ^ fraction.length + digitsValue fraction)
              (10 ^ fraction.length)) ∧
      ((∀ c ∈ text.data, c.isDigit = false) → ShoppingCart.extractPrice text = 0) ∧
      (ShoppingCart.extractPrice text = 0 ↔
        (∀ c ∈ text.data, c.isDigit = false) ∨
        ∃ w f, matchPrice text.data = some (w, f) ∧ digitsValue w = 0 ∧ digitsValue f = 0) ∧
      ((∀ c ∈ text.data, c.isDigit = false) →
        product.price = some (ShoppingCart.extractPrice text) →
        (s.addToCart (some product) newId).1 = false ∧
        (s.addToCart (some product) newId).2.cart = s.cart) := by
  have hzero : (∀ c ∈ text.data, c.isDigit = false) → ShoppingCart.extractPrice text = 0 := by
    intro h
    simp [ShoppingCart.extractPrice, matchPrice_none text.data h]
  refine ⟨?_, ?_, hzero, ?_, ?_⟩
  · intro hrest
    have hfrac : fractionAfter rest = [] := by
      cases rest with
      | nil => rfl
      | cons r rs =>
        have hr := (hrest r rfl).2
        unfold fractionAfter
        split
        · next heq =>
          simp only [List.cons.injEq] at heq
          exact absurd heq.1 hr
        · rfl
    simp only [ShoppingCart.extractPrice,
      matchPrice_run pre whole rest hpre hne hwhole (fun c hc => (hrest c hc).1), hfrac]
    simp [digitsValue, Rat.mkRat_one]
  · intro hrest
    have hfrac : fractionAfter ('.' :: fraction ++ rest) = fraction := by
      have h1 := takeWhile_append_all Char.isDigit fraction rest hfraction
      have h2 := (takeWhile_stop Char.isDigit rest hrest).1
      simp [fractionAfter, h1, h2]
    have hdot : ∀ c, ('.' :: fraction ++ rest).head? = some c → c.isDigit = false := by
      intro c hc
      simp at hc
      subst hc
      decide
    simp only [ShoppingCart.extractPrice,
      matchPrice_run pre whole ('.' :: fraction ++ rest) hpre hne hwhole hdot, hfrac]
  · constructor
    · intro h0
      cases hm : matchPrice text.data with
      | none => exact Or.inl (matchPrice_eq_none text.data hm)
      | some wf =>
        obtain ⟨w, f⟩ := wf
        right
        refine ⟨w, f, rfl, ?_⟩
        simp only [ShoppingCart.extractPrice, hm] at h0
        have hden : (10 ^ f.length : Nat) ≠ 0 := by positivity
        have hnum := (Rat.mkRat_eq_zero hden).mp h0
        have hnat : digitsValue w * 10 ^ f.length + digitsValue f = 0 := by exact_mod_cast hnum
        have hpow : 0 < 10 ^ f.length := by positivity
        constructor
        · rcases Nat.eq_zero_or_pos (digitsValue w) with hw | hw
          · exact hw
          · have : 0 < digitsValue w * 10 ^ f.length := Nat.mul_pos hw hpow
            omega
        · omega
    · rintro (h | ⟨w, f, hm, hw, hf⟩)
      · exact hzero h
      · simp [ShoppingCart.extractPrice, hm, hw, hf]
  · intro hnone hprice
    have hp : product.price = some 0 := by rw [hprice, hzero hnone]
    have hret : (s.addToCart (some product) newId).1 = false := by
      cases hname : product.name with
      | none => simp [ShoppingCart.addToCart, hname]
      | some name => simp [ShoppingCart.addToCart, hname, hp]
    exact ⟨hret, (ShoppingCart.addToCart_false_frame s _ newId hret).1⟩

/-- Instances of the price theorem: of two prices the first is read, and a text
without digits gives a product that is refused. -/
theorem ShoppingCart.extractPrice_spec_witness :
    ShoppingCart.extractPrice "$12.50 $9.99" = mkRat 1250 100 ∧
      (mugStore.addToCart (some { mug with price := some (ShoppingCart.extractPrice "free") })
        "c2").1 = false :=
  ⟨(ShoppingCart.extractPrice_spec "free" ['$'] ['1', '2'] ['5', '0'] [' ', '$', '9', '.', '9', '9']
      mugStore { mug with price := some (ShoppingCart.extractPrice "free") } "c2"
      (by decide) (by decide) (by decide) (by decide)).2.1 (by decide),
    ((ShoppingCart.extractPrice_spec "free" ['$'] ['1', '2'] ['5', '0']
      [' ', '$', '9', '.', '9', '9'] mugStore
      { mug with price := some (ShoppingCart.extractPrice "free") } "c2"
      (by decide) (by decide) (by decide) (by decide)).2.2.2.2 (by decide) rfl).1⟩

end Support
